import Mathlib

/-!
OPTAR registration estimator: embedding and verified properties.

Shallow embedding of `ARDeviceRegistrationEstimator.cpp` (the per-frame registration
pipeline of the AR device against one fixed RGB-D camera), of
`Position3DKalmanFilter.cpp` (the constant-acceleration filter of the position) and of
`transformSensor` of `integrate_calibration_refinement.cpp`.

Conventions of the embedding

* `double` and `float` values are exact rationals (`ℚ`): every arithmetic expression of the
  source is kept as written, rounding is not modelled.
* Library operations that are not rational functions (`hypot`, `acos`, `sqrt`, `sin`, `cos`),
  the OpenCV calls (`BFMatcher::match`, `solvePnPRansac`, `projectPoints`, ORB, image decoding)
  and the helpers of `utils.hpp` whose bodies are not part of the sources at hand are fields of
  the structure `Ext`; the general theorems hold for an arbitrary `Ext`, the worked
  scenarios fix one.
* tf, geometry_msgs, Eigen and KDL values that describe the same rigid transform are one
  Lean value `Transform` (rotation basis and origin, as `tf::Transform` stores it); the
  conversions between these representations are the identity. The exception is
  `transformSensor`, whose matrix comes from a file and need not be rigid: there the Eigen
  value, the pose message and the tf pose are three types and the conversions are spelled
  out.
* `std::vector::at` is `atIdx`, which fails with `Exn.out_of_range` the way `at` throws.
* `cv::KalmanFilter` is the structure `KalmanFilter` with `init`, `predict` and `correct` as
  OpenCV defines them for 9 state entries and 3 measured entries; matrices are Mathlib
  matrices over `ℚ`, and the linear solver behind the gain is the parameter `Solve`.
* A definition whose description starts with `Modelled from the spec:` stands for code of
  the repository that is not part of the sources at hand (`utils.hpp`,
  `Position3DKalmanFilter.hpp`); it follows the specification.
* Publishing on ROS topics, logging, timing and the debug drawings have no influence on the
  returned status or on the members of the estimator and are left out.
-/

namespace Optar

/-! ## OpenCV value types -/

/-- Pixel position `cv::Point2f`. -/
structure Point2f where
  x : ℚ
  y : ℚ
deriving DecidableEq

/-- Integer pixel position `cv::Point2i`. -/
structure Point2i where
  x : Int
  y : Int
deriving DecidableEq

/-- Point in space `cv::Point3f`. -/
structure Point3f where
  x : ℚ
  y : ℚ
  z : ℚ
deriving DecidableEq

/-- Three doubles `cv::Vec3d` (rotation vector or translation vector of a pose). -/
structure Vec3d where
  v0 : ℚ
  v1 : ℚ
  v2 : ℚ
deriving DecidableEq

/-- Default constructed `cv::Vec3d`: all zeros. -/
def Vec3d.zero : Vec3d := ⟨0, 0, 0⟩

/-- Feature `cv::KeyPoint`. -/
structure KeyPoint where
  pt : Point2f
  size : ℚ
  angle : ℚ
  response : ℚ
  octave : Int
  class_id : Int
deriving DecidableEq

/-- Descriptor match `cv::DMatch`; the query side is the AR device, the train side the
fixed camera. -/
structure DMatch where
  queryIdx : Int
  trainIdx : Int
  imgIdx : Int
  distance : ℚ
deriving DecidableEq

/-- The part of a `cv::Mat` holding an image or a descriptor table that the code inspects:
its shape and whether it owns data. -/
structure Mat where
  rows : Int
  cols : Int
  channels : Int
  data : List Nat
deriving DecidableEq

/-- Test `!m.data` of the source: the matrix has no buffer. -/
def Mat.noData (m : Mat) : Bool := m.data.isEmpty

/-- Method `cv::Mat::empty`. -/
def Mat.empty (m : Mat) : Bool := m.data.isEmpty || m.rows == 0 || m.cols == 0

/-- Camera matrix, a 3x3 `cv::Mat` of doubles; `mij` is `at<double>(i,j)`. -/
structure CameraMatrix where
  m00 : ℚ
  m01 : ℚ
  m02 : ℚ
  m10 : ℚ
  m11 : ℚ
  m12 : ℚ
  m20 : ℚ
  m21 : ℚ
  m22 : ℚ
deriving DecidableEq

/-- Depth image, a `cv::Mat` of `uint16_t`: `px r c` is the sample of row `r`, column `c`;
value 0 means unknown depth. -/
structure DepthImage where
  rows : Nat
  cols : Nat
  px : Int → Int → Nat

/-- Rounding `cvRound` (round to nearest, ties to even), used by the conversion of a
`Point2f` into a `Point2i`. -/
def cvRound (q : ℚ) : Int :=
  let f := ⌊q⌋
  if q - f < 1 / 2 then f
  else if 1 / 2 < q - f then f + 1
  else if f % 2 = 0 then f else f + 1

/-- Conversion `Point2f` to `Point2i` applied when a `Point2f` indexes a matrix. -/
def Point2f.toPoint2i (p : Point2f) : Point2i := ⟨cvRound p.x, cvRound p.y⟩

/-- Read access `img.at<uint16_t>(p)` with an integer point: row `p.y`, column `p.x`. -/
def DepthImage.atI (img : DepthImage) (p : Point2i) : Nat := img.px p.y p.x

/-- Read access `img.at<uint16_t>(p)` with a `Point2f`. -/
def DepthImage.atF (img : DepthImage) (p : Point2f) : Nat := img.atI p.toPoint2i

/-- Write access `img.at<uint16_t>(p) = v` with a `Point2f`. -/
def DepthImage.set (img : DepthImage) (p : Point2f) (v : Nat) : DepthImage :=
  { img with px := fun r c => if r = p.toPoint2i.y ∧ c = p.toPoint2i.x then v else img.px r c }

/-- Exceptions that cross `update`. -/
inductive Exn where
  | out_of_range
deriving DecidableEq

/-- Checked access `v.at(i)` of `std::vector`; the index is an `int` converted to `size_t`,
so a negative index is out of range as well. -/
def atIdx {α : Type} (v : List α) (i : Int) : Except Exn α :=
  if i < 0 then Except.error Exn.out_of_range
  else match v.get? i.toNat with
    | some a => Except.ok a
    | none => Except.error Exn.out_of_range

/-! ## tf value types -/

/-- Vector `tf::Vector3`. -/
structure Vector3 where
  x : ℚ
  y : ℚ
  z : ℚ
deriving DecidableEq

/-- Quaternion `tf::Quaternion`, constructor argument order `(x, y, z, w)`. -/
structure Quaternion where
  x : ℚ
  y : ℚ
  z : ℚ
  w : ℚ
deriving DecidableEq

/-- Rotation basis `tf::Matrix3x3`, stored as its three rows. -/
structure Matrix3x3 where
  r0 : Vector3
  r1 : Vector3
  r2 : Vector3
deriving DecidableEq

/-- Rigid transform `tf::Transform` (`tf::Pose` is the same type). -/
structure Transform where
  basis : Matrix3x3
  origin : Vector3
deriving DecidableEq

namespace Vector3

/-- Zero vector. -/
def zero : Vector3 := ⟨0, 0, 0⟩

/-- Method `dot`. -/
def dot (a b : Vector3) : ℚ := a.x * b.x + a.y * b.y + a.z * b.z

/-- Method `length2`. -/
def length2 (a : Vector3) : ℚ := a.dot a

/-- Sum of two vectors. -/
def add (a b : Vector3) : Vector3 := ⟨a.x + b.x, a.y + b.y, a.z + b.z⟩

/-- Unary minus. -/
def neg (a : Vector3) : Vector3 := ⟨-a.x, -a.y, -a.z⟩

end Vector3

namespace Matrix3x3

/-- Identity basis. -/
def identity : Matrix3x3 := ⟨⟨1, 0, 0⟩, ⟨0, 1, 0⟩, ⟨0, 0, 1⟩⟩

/-- Method `transpose`. -/
def transpose (m : Matrix3x3) : Matrix3x3 :=
  ⟨⟨m.r0.x, m.r1.x, m.r2.x⟩, ⟨m.r0.y, m.r1.y, m.r2.y⟩, ⟨m.r0.z, m.r1.z, m.r2.z⟩⟩

/-- Product basis times vector: each row dotted with the vector. -/
def mulVec (m : Matrix3x3) (v : Vector3) : Vector3 := ⟨m.r0.dot v, m.r1.dot v, m.r2.dot v⟩

/-- Column `j` dotted with `v` (`tdotx`, `tdoty`, `tdotz`). -/
def tdotx (m : Matrix3x3) (v : Vector3) : ℚ := m.r0.x * v.x + m.r1.x * v.y + m.r2.x * v.z

/-- Second column dotted with `v`. -/
def tdoty (m : Matrix3x3) (v : Vector3) : ℚ := m.r0.y * v.x + m.r1.y * v.y + m.r2.y * v.z

/-- Third column dotted with `v`. -/
def tdotz (m : Matrix3x3) (v : Vector3) : ℚ := m.r0.z * v.x + m.r1.z * v.y + m.r2.z * v.z

/-- Product of two bases, `operator*` of `tf::Matrix3x3`. -/
def mul (m1 m2 : Matrix3x3) : Matrix3x3 :=
  ⟨⟨m2.tdotx m1.r0, m2.tdoty m1.r0, m2.tdotz m1.r0⟩,
   ⟨m2.tdotx m1.r1, m2.tdoty m1.r1, m2.tdotz m1.r1⟩,
   ⟨m2.tdotx m1.r2, m2.tdoty m1.r2, m2.tdotz m1.r2⟩⟩

/-- Method `setRotation(q)`: the basis of the rotation a quaternion stands for. -/
def ofQuaternion (q : Quaternion) : Matrix3x3 :=
  let d := q.x * q.x + q.y * q.y + q.z * q.z + q.w * q.w
  let s := 2 / d
  let xs := q.x * s
  let ys := q.y * s
  let zs := q.z * s
  let wx := q.w * xs
  let wy := q.w * ys
  let wz := q.w * zs
  let xx := q.x * xs
  let xy := q.x * ys
  let xz := q.x * zs
  let yy := q.y * ys
  let yz := q.y * zs
  let zz := q.z * zs
  ⟨⟨1 - (yy + zz), xy - wz, xz + wy⟩,
   ⟨xy + wz, 1 - (xx + zz), yz - wx⟩,
   ⟨xz - wy, yz + wx, 1 - (xx + yy)⟩⟩

/-- A basis is orthonormal when its transpose is its inverse. -/
def IsOrthonormal (m : Matrix3x3) : Prop := m.transpose.mul m = identity

instance (m : Matrix3x3) : Decidable m.IsOrthonormal :=
  inferInstanceAs (Decidable (m.transpose.mul m = identity))

end Matrix3x3

namespace Transform

/-- Method `getIdentity`. -/
def identity : Transform := ⟨Matrix3x3.identity, Vector3.zero⟩

/-- Application `t(v)` or `t * v` of a transform to a vector. -/
def apply (t : Transform) (v : Vector3) : Vector3 := (t.basis.mulVec v).add t.origin

/-- Composition `t1 * t2` of `tf::Transform`. -/
def mul (t1 t2 : Transform) : Transform := ⟨t1.basis.mul t2.basis, t1.apply t2.origin⟩

/-- Method `inverse`: transposed basis, and that basis applied to the negated origin. -/
def inverse (t : Transform) : Transform :=
  ⟨t.basis.transpose, t.basis.transpose.mulVec t.origin.neg⟩

/-- Transform built from a rotation alone, `tf::Transform(t.getRotation())`: same basis,
zero origin. -/
def rotationOnly (t : Transform) : Transform := ⟨t.basis, Vector3.zero⟩

/-- Constructor `tf::Transform(q, c)` from a quaternion and an origin. -/
def ofQuaternion (q : Quaternion) (c : Vector3) : Transform := ⟨Matrix3x3.ofQuaternion q, c⟩

/-- A pose is a valid rigid pose when its basis is orthonormal. -/
def IsRigid (t : Transform) : Prop := t.basis.IsOrthonormal

instance (t : Transform) : Decidable t.IsRigid :=
  inferInstanceAs (Decidable t.basis.IsOrthonormal)

end Transform

/-! ## Messages, configuration and members of the estimator -/

/-- Time stamp `ros::Time`. -/
structure Time where
  sec : Nat
  nsec : Nat
deriving DecidableEq

/-- Message `geometry_msgs::TransformStamped` (also the value of a `tf::StampedTransform`). -/
structure TransformStamped where
  stamp : Time
  frame_id : String
  child_frame_id : String
  transform : Transform
deriving DecidableEq

/-- Members of `ARDeviceRegistrationEstimator` that are set by the constructor and by
`setupParameters` and never written by `update`. -/
structure Config where
  ARDeviceId : String
  fixed_sensor_name : String
  transformKinectToWorld : TransformStamped
  pnpReprojectionError : ℚ
  pnpConfidence : ℚ
  pnpIterations : ℚ
  matchingThreshold : ℚ
  reprojectionErrorDiscardThreshold : ℚ
  orbMaxPoints : Int
  orbScaleFactor : ℚ
  orbLevelsNumber : Int
  phoneOrientationDifferenceThreshold_deg : ℚ
  showImages : Bool
  minimumMatchesNumber : Nat

/-- The members that persist from one call of `update` to the next and that `update`
writes: the last accepted estimate and its diagnostics. -/
structure EstimatorState where
  lastEstimate : TransformStamped
  lastEstimateMatchesNumber : Int
  lastEstimateReprojectionError : ℚ
  didComputeEstimation : Bool
deriving DecidableEq

/-- Getter `getLastEstimateMatchesNumber`. -/
def getLastEstimateMatchesNumber (st : EstimatorState) : Int := st.lastEstimateMatchesNumber

/-- Getter `getLastEstimateReprojectionError`. -/
def getLastEstimateReprojectionError (st : EstimatorState) : ℚ :=
  st.lastEstimateReprojectionError

/-- Getter `getLastEstimate`. -/
def getLastEstimate (st : EstimatorState) : TransformStamped := st.lastEstimate

/-- Getter `hasEstimate`. -/
def hasEstimate (st : EstimatorState) : Bool := st.didComputeEstimation

/-- Getter `getARDeviceId`. -/
def getARDeviceId (cfg : Config) : String := cfg.ARDeviceId

/-- Output of `cv::solvePnPRansac`: the pose it writes into `rvec` and `tvec` and the
indices of the inliers. -/
structure PnPResult where
  rvec : Vec3d
  tvec : Vec3d
  inliers : List Int
deriving DecidableEq

/-- Image message `sensor_msgs::Image`. -/
structure ImageMsg where
  stamp : Time
  frame_id : String
  data : List Nat

/-- Camera information `sensor_msgs::CameraInfo`; `P i` is entry `i` of the 3x4 projection
matrix stored row by row. -/
structure CameraInfo where
  P : Nat → ℚ

/-- Conversion of a double to `int` (truncation toward zero), applied where `pnpIterations`
is passed to the solver. -/
def truncToInt (q : ℚ) : Int := if 0 ≤ q then ⌊q⌋ else ⌈q⌉

/-- Operations the estimator calls whose bodies are outside the sources at hand: libm,
OpenCV, cv_bridge and the helpers declared in `utils.hpp`. -/
structure Ext where
  /-- Function `hypot` of libm. -/
  hypot : ℚ → ℚ → ℚ
  /-- Function `acos` of libm. -/
  acos : ℚ → ℚ
  /-- Function `sqrt` of libm. -/
  sqrt : ℚ → ℚ
  /-- Function `sin` of libm. -/
  sin : ℚ → ℚ
  /-- Function `cos` of libm. -/
  cos : ℚ → ℚ
  /-- Call `cv::BFMatcher::create(cv::NORM_HAMMING)->match(query, train, out)`. -/
  bfMatch : Mat → Mat → List DMatch
  /-- Helper `findNearestNonZeroPixel(img, x, y, maxDist)` of `utils.hpp`. -/
  findNearestNonZeroPixel : DepthImage → ℚ → ℚ → ℚ → Point2i
  /-- Helper `findLowestNonZeroInRing(img, x, y, maxRadius, minRadius)` of `utils.hpp`. -/
  findLowestNonZeroInRing : DepthImage → ℚ → ℚ → ℚ → ℚ → Point2i
  /-- Helper `get3dPoint(x, y, depth, fx, fy, cx, cy)` of `utils.hpp`. -/
  get3dPoint : ℚ → ℚ → Nat → ℚ → ℚ → ℚ → ℚ → Point3f
  /-- Call `cv::solvePnPRansac(objectPoints, imagePoints, cameraMatrix, noArray(), rvec, tvec,
  useExtrinsicGuess, iterationsCount, reprojectionError, confidence, inliers)`; the
  arguments `rvec` and `tvec` carry the initial guess. -/
  solvePnPRansac : List Point3f → List Point2f → CameraMatrix → Vec3d → Vec3d → Bool →
    Int → ℚ → ℚ → PnPResult
  /-- Call `cv::projectPoints(objectPoints, rvec, tvec, cameraMatrix, noArray(), out)`. -/
  projectPoints : List Point3f → Vec3d → Vec3d → CameraMatrix → List Point2f
  /-- Helper `tfPoseToOpenCvPose(pose, rvec, tvec)` of `utils.hpp`, as the pair
  `(rvec, tvec)`. -/
  tfPoseToOpenCvPose : Transform → Vec3d × Vec3d
  /-- Helpers `opencvPoseToEigenPose(rvec, tvec, position, rotation)` and
  `buildRosPose(position, rotation)` of `utils.hpp`: the pose a rotation vector and a
  translation vector stand for. -/
  opencvPoseToEigenPose : Vec3d → Vec3d → Transform
  /-- Helper `isPoseValid` of `utils.hpp`. -/
  isPoseValid : Transform → Bool
  /-- Helper `convertPoseUnityToRos` of `utils.hpp`. -/
  convertPoseUnityToRos : Transform → Transform
  /-- Call `cv::imdecode(raw, 1)`. -/
  imdecode : List Nat → Mat
  /-- Red plane of a decoded image, flipped around the x axis (`split` then `flip`). -/
  redPlaneFlipped : Mat → Mat
  /-- Call `cv::flip(img, out, 0)`. -/
  flip : Mat → Mat
  /-- Call `cv::resize(img, out, size, CV_INTER_LINEAR)`. -/
  resize : Mat → Int → Int → Mat
  /-- Image of `cv_bridge::toCvShare(msg)` or `cv_bridge::toCvCopy(msg)`. -/
  toCvImage : ImageMsg → Mat
  /-- Image of `cv_bridge::toCvShare(msg)` read as a depth image; `none` when the
  resulting matrix has no data. -/
  toCvDepth : ImageMsg → Option DepthImage
  /-- Call `orb->detect(image, keypoints)` for the ORB detector created with the three ORB
  parameters. -/
  orbDetect : Int → ℚ → Int → Mat → List KeyPoint
  /-- Call `orb->compute(image, keypoints, descriptors)`: the kept keypoints and their
  descriptors. -/
  orbCompute : Int → ℚ → Int → Mat → List KeyPoint → List KeyPoint × Mat

/-! ## Matching, filtering, depth repair and correspondences -/

/-- Function `findOrbMatches`: status and the matches written to the output vector. -/
def findOrbMatches (ext : Ext) (_arcoreKeypoints : List KeyPoint) (arcoreDescriptors : Mat)
    (_kinectKeypoints : List KeyPoint) (kinectDescriptors : Mat) : Int × List DMatch :=
  (0, ext.bfMatch arcoreDescriptors kinectDescriptors)

/-- Function `filterMatches`: the second loop pushes onto `goodMatches` every match whose
distance is at most `matchingThreshold`; the first loop only feeds a log line. -/
def filterMatches (cfg : Config) (inputMatches : List DMatch) (goodMatches : List DMatch) :
    Int × List DMatch :=
  (0, inputMatches.foldl
    (fun out m => if m.distance ≤ cfg.matchingThreshold then out ++ [m] else out) goodMatches)

/-- Body of the loop of `fixMatchesDepthOrDrop` for one match: repair of a zero depth
sample, then keep or drop. -/
def fixMatchStep (ext : Ext) (kinectKeypoints : List KeyPoint) (img : DepthImage)
    (out : List DMatch) (m : DMatch) : Except Exn (DepthImage × List DMatch) :=
  match atIdx kinectKeypoints m.trainIdx with
  | Except.error e => Except.error e
  | Except.ok kp =>
    let imgPos := kp.pt
    let img1 :=
      if img.atF imgPos = 0 then
        let nnz := ext.findNearestNonZeroPixel img imgPos.x imgPos.y 100
        let nnzDist := ext.hypot (nnz.x - imgPos.x) (nnz.y - imgPos.y)
        let nnz2 := ext.findLowestNonZeroInRing img imgPos.x imgPos.y (nnzDist + 10) nnzDist
        img.set imgPos (img.atI nnz2)
      else img
    if img1.atF imgPos = 0 then Except.ok (img1, out) else Except.ok (img1, out ++ [m])

/-- Loop of `fixMatchesDepthOrDrop` over the input matches. -/
def fixMatchesLoop (ext : Ext) (kinectKeypoints : List KeyPoint) :
    List DMatch → DepthImage → List DMatch → Except Exn (DepthImage × List DMatch)
  | [], img, out => Except.ok (img, out)
  | m :: rest, img, out =>
    match fixMatchStep ext kinectKeypoints img out m with
    | Except.error e => Except.error e
    | Except.ok r => fixMatchesLoop ext kinectKeypoints rest r.1 r.2

/-- Function `fixMatchesDepthOrDrop`: status, the depth image as the call leaves it and the
output matches. -/
def fixMatchesDepthOrDrop (ext : Ext) (inputMatches : List DMatch)
    (kinectKeypoints : List KeyPoint) (kinectDepthImg : DepthImage) :
    Except Exn (Int × DepthImage × List DMatch) :=
  match fixMatchesLoop ext kinectKeypoints inputMatches kinectDepthImg [] with
  | Except.error e => Except.error e
  | Except.ok r => Except.ok (0, r.1, r.2)

/-- Modelled from the spec: helper `get3dPoint` of `utils.hpp`, whose body is not part of the
sources at hand; the spec gives `X = (px - cx) * depth / fx`, `Y = (py - cy) * depth / fy`,
`Z = depth`. The pipeline takes the helper from `Ext`; this is the value the spec describes
for it. -/
def get3dPoint (x y : ℚ) (depth : Nat) (focalLengthX focalLengthY principalPointX
    principalPointY : ℚ) : Point3f :=
  ⟨(x - principalPointX) * depth / focalLengthX,
   (y - principalPointY) * depth / focalLengthY,
   depth⟩

/-- Loop of `get3dPositionsAndImagePositions`. -/
def get3dLoop (ext : Ext) (kinectKeypoints arcoreKeypoints : List KeyPoint) (kinectDepthImg : DepthImage)
    (kinectCameraMatrix : CameraMatrix) :
    List DMatch → List Point3f → List Point2f → Except Exn (List Point3f × List Point2f)
  | [], matches3dPos, matchesImgPos => Except.ok (matches3dPos, matchesImgPos)
  | m :: rest, matches3dPos, matchesImgPos =>
    match atIdx kinectKeypoints m.trainIdx with
    | Except.error e => Except.error e
    | Except.ok kkp =>
      match atIdx arcoreKeypoints m.queryIdx with
      | Except.error e => Except.error e
      | Except.ok akp =>
        let kinectPixelPos := kkp.pt
        let arcorePixelPos := akp.pt
        let pos3d := ext.get3dPoint kinectPixelPos.x kinectPixelPos.y
          (kinectDepthImg.atF kinectPixelPos)
          kinectCameraMatrix.m00 kinectCameraMatrix.m11 kinectCameraMatrix.m02
          kinectCameraMatrix.m12
        get3dLoop ext kinectKeypoints arcoreKeypoints kinectDepthImg kinectCameraMatrix rest
          (matches3dPos ++ [pos3d]) (matchesImgPos ++ [arcorePixelPos])

/-- Function `get3dPositionsAndImagePositions`: status, the 3D points and the device
pixels. -/
def get3dPositionsAndImagePositions (ext : Ext) (inputMatches : List DMatch)
    (kinectKeypoints arcoreKeypoints : List KeyPoint) (kinectDepthImg : DepthImage)
    (kinectCameraMatrix : CameraMatrix) : Except Exn (Int × List Point3f × List Point2f) :=
  match get3dLoop ext kinectKeypoints arcoreKeypoints kinectDepthImg kinectCameraMatrix
      inputMatches [] [] with
  | Except.error e => Except.error e
  | Except.ok r => Except.ok (0, r.1, r.2)

/-! ## The update step -/

/-- Arguments of `update` that take part in the estimation (the two images passed for the
debug drawings are left out). -/
structure UpdateInput where
  arcoreKeypoints : List KeyPoint
  arcoreDescriptors : Mat
  fixedKeypoints : List KeyPoint
  fixedDescriptors : Mat
  arcoreCameraMatrix : CameraMatrix
  fixedCameraMatrix : CameraMatrix
  kinectDepthImage : DepthImage
  phonePoseArcoreFrameConverted : Transform
  timestamp : Time
  fixedCameraFrameId : String

/-- Record of one invocation of `cv::solvePnPRansac`: the correspondences and the initial
guess it was given. -/
structure SolverCall where
  objectPoints : List Point3f
  imagePoints : List Point2f
  rvec : Vec3d
  tvec : Vec3d
  useExtrinsicGuess : Bool
deriving DecidableEq

/-- What a call of `update` that returns leaves behind: the returned status, the members of
the estimator, the depth image (an in/out argument) and the invocations of the pose solver
made on the way. -/
structure Outcome where
  status : Int
  state : EstimatorState
  depth : DepthImage
  solverCalls : List SolverCall

/-- Loop of `update` that accumulates `reprojError` over the inliers: each inlier adds its
pixel distance divided by `reprojPoints.size()`. -/
def reprojErrorLoop (ext : Ext) (goodMatchesImgPos reprojPoints : List Point2f) :
    List Int → ℚ → Except Exn ℚ
  | [], reprojError => Except.ok reprojError
  | i :: rest, reprojError =>
    match atIdx goodMatchesImgPos i with
    | Except.error e => Except.error e
    | Except.ok pix =>
      match atIdx reprojPoints i with
      | Except.error e => Except.error e
      | Except.ok reprojPix =>
        reprojErrorLoop ext goodMatchesImgPos reprojPoints rest
          (reprojError
            + ext.hypot (pix.x - reprojPix.x) (pix.y - reprojPix.y) / reprojPoints.length)

/-- Method `tf::Vector3::angle`: `acos(dot(v) / sqrt(length2() * v.length2()))`. -/
def angle (ext : Ext) (a v : Vector3) : ℚ :=
  ext.acos (a.dot v / ext.sqrt (a.length2 * v.length2))

/-- The device optical axis in the fixed camera frame: the rotation of the device pose in
the fixed camera frame applied to the unit z vector. -/
def phoneOpticalAxis (phonePoseTf_kinectFrame : Transform) : Vector3 :=
  phonePoseTf_kinectFrame.rotationOnly.apply ⟨0, 0, 1⟩

/-- Value `phoneToCameraRotationAngle` of `update`:
`std::abs(axis.angle(zUnitVector))*180/3.14159`. -/
def phoneToCameraRotationAngle (ext : Ext) (phonePoseTf_kinectFrame : Transform) : ℚ :=
  |angle ext (phoneOpticalAxis phonePoseTf_kinectFrame) ⟨0, 0, 1⟩| * 180 / (314159 / 100000)

/-- Last part of `update`, from the reprojection gate on: inversion of the solved pose,
transfer to the world frame, composition with the device self-pose, validity check,
orientation gate and the write of the estimate. -/
def acceptOrReject (ext : Ext) (cfg : Config) (st : EstimatorState) (inp : UpdateInput)
    (depth : DepthImage) (goodMatches : List DMatch) (call : SolverCall) (pnp : PnPResult)
    (reprojError : ℚ) : Outcome :=
  if reprojError > cfg.reprojectionErrorDiscardThreshold then ⟨2, st, depth, [call]⟩
  else
    let poseTf := ext.opencvPoseToEigenPose pnp.rvec pnp.tvec
    let phonePoseKinect := poseTf.inverse
    let phonePoseTf := cfg.transformKinectToWorld.transform.mul phonePoseKinect
    let arcoreWorld := phonePoseTf.mul inp.phonePoseArcoreFrameConverted.inverse
    if !ext.isPoseValid arcoreWorld then ⟨-8, st, depth, [call]⟩
    else if phoneToCameraRotationAngle ext phonePoseKinect
        > cfg.phoneOrientationDifferenceThreshold_deg then ⟨3, st, depth, [call]⟩
    else
      ⟨0,
       { lastEstimate := ⟨inp.timestamp, "/world", getARDeviceId cfg ++ "_world", arcoreWorld⟩
         lastEstimateMatchesNumber := goodMatches.length
         lastEstimateReprojectionError := reprojError
         didComputeEstimation := true },
       depth, [call]⟩

/-- Initial values of `rvec` and `tvec` handed to the solver: the last estimate converted by
`tfPoseToOpenCvPose` when `didComputeEstimation` is set, the default constructed vectors
otherwise. -/
def initialGuess (ext : Ext) (st : EstimatorState) : Vec3d × Vec3d :=
  if st.didComputeEstimation then ext.tfPoseToOpenCvPose st.lastEstimate.transform
  else (Vec3d.zero, Vec3d.zero)

/-- Middle part of `update`: the match-count gate, the seeding and the call of the pose
solver, the reprojection of the points and the accumulation of the reprojection error. -/
def solveAndGate (ext : Ext) (cfg : Config) (st : EstimatorState) (inp : UpdateInput)
    (depth : DepthImage) (goodMatches : List DMatch) (goodMatches3dPos : List Point3f)
    (goodMatchesImgPos : List Point2f) : Except Exn Outcome :=
  if goodMatches.length < 4 ∨ goodMatches.length < cfg.minimumMatchesNumber then
    Except.ok ⟨1, st, depth, []⟩
  else
    let guess : Vec3d × Vec3d := initialGuess ext st
    let call : SolverCall :=
      ⟨goodMatches3dPos, goodMatchesImgPos, guess.1, guess.2, st.didComputeEstimation⟩
    let pnp := ext.solvePnPRansac goodMatches3dPos goodMatchesImgPos inp.arcoreCameraMatrix
      guess.1 guess.2 st.didComputeEstimation (truncToInt cfg.pnpIterations)
      cfg.pnpReprojectionError cfg.pnpConfidence
    let reprojPoints := ext.projectPoints goodMatches3dPos pnp.rvec pnp.tvec
      inp.arcoreCameraMatrix
    match reprojErrorLoop ext goodMatchesImgPos reprojPoints pnp.inliers 0 with
    | Except.error e => Except.error e
    | Except.ok reprojError =>
      Except.ok (acceptOrReject ext cfg st inp depth goodMatches call pnp reprojError)

/-- Method `ARDeviceRegistrationEstimator::update`. -/
def update (ext : Ext) (cfg : Config) (st : EstimatorState) (inp : UpdateInput) :
    Except Exn Outcome :=
  let found := findOrbMatches ext inp.arcoreKeypoints inp.arcoreDescriptors inp.fixedKeypoints
    inp.fixedDescriptors
  if found.1 < 0 then Except.ok ⟨-1, st, inp.kinectDepthImage, []⟩
  else
    let filtered := filterMatches cfg found.2 []
    if filtered.1 < 0 then Except.ok ⟨-2, st, inp.kinectDepthImage, []⟩
    else
      match fixMatchesDepthOrDrop ext filtered.2 inp.fixedKeypoints inp.kinectDepthImage with
      | Except.error e => Except.error e
      | Except.ok fixed =>
        if fixed.1 < 0 then Except.ok ⟨-3, st, fixed.2.1, []⟩
        else
          match get3dPositionsAndImagePositions ext fixed.2.2 inp.fixedKeypoints
              inp.arcoreKeypoints fixed.2.1 inp.fixedCameraMatrix with
          | Except.error e => Except.error e
          | Except.ok corr =>
            if corr.1 < 0 then Except.ok ⟨-4, st, fixed.2.1, []⟩
            else solveAndGate ext cfg st inp fixed.2.1 fixed.2.2 corr.2.1 corr.2.2

/-! ## Decoding of the received messages and the two callbacks -/

/-- Key point of a feature message `opt_msgs::ArcoreCameraFeatures`. -/
structure KeypointMsg where
  x_pos : ℚ
  y_pos : ℚ
  size : ℚ
  angle : ℚ
  response : ℚ
  octave : Int
  class_id : Int

/-- Message `opt_msgs::ArcoreCameraImage`. -/
structure ArcoreCameraImage where
  stamp : Time
  focal_length_x_px : ℚ
  focal_length_y_px : ℚ
  principal_point_x_px : ℚ
  principal_point_y_px : ℚ
  image_data : List Nat
  mobileFramePose : Transform

/-- Message `opt_msgs::ArcoreCameraFeatures`. -/
structure ArcoreCameraFeatures where
  stamp : Time
  focal_length_x_px : ℚ
  focal_length_y_px : ℚ
  principal_point_x_px : ℚ
  principal_point_y_px : ℚ
  image_width_px : Int
  image_height_px : Int
  keypoints : List KeypointMsg
  descriptors_mat_rows : Int
  descriptors_mat_cols : Int
  descriptors_mat_type : Int
  descriptors_mat_data : List Nat
  image : ImageMsg
  mobileFramePose : Transform

/-- Constructor `tf::Quaternion(axis, angle)`. -/
def Quaternion.ofAxisAngle (ext : Ext) (axis : Vector3) (angle : ℚ) : Quaternion :=
  let d := ext.sqrt axis.length2
  let s := ext.sin (angle * (1 / 2)) / d
  ⟨axis.x * s, axis.y * s, axis.z * s, ext.cos (angle * (1 / 2))⟩

/-- Local `cameraConventionTransform` of the two decoding functions. -/
def cameraConventionTransform (ext : Ext) : Transform :=
  Transform.ofQuaternion (Quaternion.ofAxisAngle ext ⟨1, 0, 0⟩ (31415926535897 / 10000000000000))
    Vector3.zero

/-- Local `portraitToLandscape` of the two decoding functions. -/
def portraitToLandscape (ext : Ext) : Transform :=
  Transform.ofQuaternion
    (Quaternion.ofAxisAngle ext ⟨0, 0, 1⟩ (31415926535897 / 10000000000000 / 2)) Vector3.zero

/-- Local `justRotation` of the two decoding functions. -/
def justRotation (ext : Ext) (phonePoseArcoreFrame : Transform) : Transform :=
  phonePoseArcoreFrame.rotationOnly.mul (portraitToLandscape ext)

/-- Local `justTranslation` of the two decoding functions. -/
def justTranslation (phonePoseArcoreFrame : Transform) : Transform :=
  Transform.ofQuaternion ⟨1, 0, 0, 0⟩ phonePoseArcoreFrame.origin

/-- Conversion of the device pose at the end of the two decoding functions:
`justTranslation * cameraConventionTransform * justRotation`. -/
def convertPhonePose (ext : Ext) (mobileFramePose : Transform) : Transform :=
  let phonePoseArcoreFrame := ext.convertPoseUnityToRos mobileFramePose
  ((justTranslation phonePoseArcoreFrame).mul (cameraConventionTransform ext)).mul
    (justRotation ext phonePoseArcoreFrame)

/-- Camera matrix of the device, filled from the message. -/
def arcoreCameraMatrixOf (fx fy cx cy : ℚ) : CameraMatrix := ⟨fx, 0, cx, 0, fy, cy, 0, 0, 1⟩

/-- Camera matrix of the fixed camera, filled from `kinectCameraInfo.P`. -/
def kinectCameraMatrixOf (info : CameraInfo) : CameraMatrix :=
  ⟨info.P (4 * 0 + 0), info.P (4 * 0 + 1), info.P (4 * 0 + 2),
   info.P (4 * 1 + 0), info.P (4 * 1 + 1), info.P (4 * 1 + 2),
   info.P (4 * 2 + 0), info.P (4 * 2 + 1), info.P (4 * 2 + 2)⟩

/-- Output arguments of `readReceivedImageMessages`. -/
structure DecodedImages where
  arcoreCameraMatrix : CameraMatrix
  arcoreImg : Mat
  kinectCameraMatrix : CameraMatrix
  kinectCameraImg : Mat
  kinectDepthImg : DepthImage
  phonePoseArcoreFrameConverted : Transform

/-- Output arguments of `readReceivedMessages_features`. -/
structure DecodedFeatures where
  arcoreCameraMatrix : CameraMatrix
  arcoreDescriptors : Mat
  arcoreKeypoints : List KeyPoint
  arcoreImageWidth : Int
  arcoreImageHeight : Int
  kinectCameraMatrix : CameraMatrix
  kinectCameraImg : Mat
  kinectDepthImg : DepthImage
  phonePoseArcoreFrameConverted : Transform
  debugArcoreImage : Mat

/-- Key point built from its message form. -/
def KeypointMsg.toKeyPoint (k : KeypointMsg) : KeyPoint :=
  ⟨⟨k.x_pos, k.y_pos⟩, k.size, k.angle, k.response, k.octave, k.class_id⟩

/-- Debug image of a feature message brought to one plane and to the announced size. -/
def scaledDebugImage (ext : Ext) (img : Mat) (width height : Int) : Mat :=
  if img.cols ≠ width ∨ img.rows ≠ height then ext.resize img width height else img

/-- Function `readReceivedMessages_features`: status and the output arguments, starting from
the values `out` the caller passed in. -/
def readReceivedMessages_features (ext : Ext) (arcoreInputMsg : ArcoreCameraFeatures)
    (kinectInputCameraMsg kinectInputDepthMsg : ImageMsg) (kinectCameraInfo : CameraInfo)
    (out : DecodedFeatures) : Int × DecodedFeatures :=
  let out1 := { out with
    arcoreCameraMatrix := (arcoreCameraMatrixOf arcoreInputMsg.focal_length_x_px
      arcoreInputMsg.focal_length_y_px arcoreInputMsg.principal_point_x_px
      arcoreInputMsg.principal_point_y_px)
    kinectCameraMatrix := kinectCameraMatrixOf kinectCameraInfo
    arcoreImageWidth := arcoreInputMsg.image_width_px
    arcoreImageHeight := arcoreInputMsg.image_height_px
    arcoreKeypoints := out.arcoreKeypoints ++ arcoreInputMsg.keypoints.map KeypointMsg.toKeyPoint
    arcoreDescriptors := (⟨arcoreInputMsg.descriptors_mat_rows,
      arcoreInputMsg.descriptors_mat_cols, arcoreInputMsg.descriptors_mat_type / 8 % 512 + 1,
      arcoreInputMsg.descriptors_mat_data⟩ : Mat) }
  let decodedDebug : Int × DecodedFeatures :=
    if arcoreInputMsg.image.data.length > 0 then
      let img := ext.toCvImage arcoreInputMsg.image
      if img.noData then (-2, { out1 with debugArcoreImage := img })
      else if img.channels = 3 then
        (0, { out1 with debugArcoreImage :=
          (scaledDebugImage ext (ext.redPlaneFlipped img) out1.arcoreImageWidth
            out1.arcoreImageHeight) })
      else if img.channels = 1 then
        (0, { out1 with debugArcoreImage :=
          scaledDebugImage ext (ext.flip img) out1.arcoreImageWidth out1.arcoreImageHeight })
      else (-3, { out1 with debugArcoreImage := img })
    else (0, out1)
  if decodedDebug.1 ≠ 0 then decodedDebug
  else
    let out2 := { decodedDebug.2 with kinectCameraImg := ext.toCvImage kinectInputCameraMsg }
    if out2.kinectCameraImg.noData then (-4, out2)
    else
      match ext.toCvDepth kinectInputDepthMsg with
      | none => (-5, out2)
      | some depth =>
        (0, { out2 with
          kinectDepthImg := depth
          phonePoseArcoreFrameConverted :=
            (convertPhonePose ext arcoreInputMsg.mobileFramePose) })

/-- Function `computeOrbFeatures`: status, key points and descriptors. -/
def computeOrbFeatures (ext : Ext) (cfg : Config) (image : Mat) (descriptors : Mat) :
    Int × List KeyPoint × Mat :=
  let keypoints := ext.orbDetect cfg.orbMaxPoints cfg.orbScaleFactor cfg.orbLevelsNumber image
  if keypoints.isEmpty then (-1, keypoints, descriptors)
  else
    let computed := ext.orbCompute cfg.orbMaxPoints cfg.orbScaleFactor cfg.orbLevelsNumber
      image keypoints
    if computed.2.empty then (-2, computed.1, computed.2)
    else (0, computed.1, computed.2)

/-- What a callback that returns leaves behind: the returned status, the members of the
estimator and the outcome of each call of `update` it made. -/
structure CallbackOutcome where
  status : Int
  state : EstimatorState
  updates : List Outcome

/-- Default constructed `cv::Mat`. -/
def Mat.default : Mat := ⟨0, 0, 1, []⟩

/-- Default constructed depth image. -/
def DepthImage.default : DepthImage := ⟨0, 0, fun _ _ => 0⟩

/-- Output arguments of `readReceivedImageMessages` as `imagesCallback` declares them; the
pose is declared without a value in the source and is not read on a negative status. -/
def DecodedImages.default : DecodedImages :=
  ⟨arcoreCameraMatrixOf 0 0 0 0, Mat.default, arcoreCameraMatrixOf 0 0 0 0, Mat.default,
   DepthImage.default, Transform.identity⟩

/-- Output arguments of `readReceivedMessages_features` as `featuresCallback` declares
them; the pose is declared without a value in the source and is not read on a negative
status. -/
def DecodedFeatures.default : DecodedFeatures :=
  ⟨arcoreCameraMatrixOf 0 0 0 0, Mat.default, [], 0, 0, arcoreCameraMatrixOf 0 0 0 0,
   Mat.default, DepthImage.default, Transform.identity, Mat.default⟩

/-- Method `ARDeviceRegistrationEstimator::featuresCallback`. -/
def featuresCallback (ext : Ext) (cfg : Config) (st : EstimatorState)
    (arcoreInputMsg : ArcoreCameraFeatures)
    (kinectInputCameraMsg kinectInputDepthMsg : ImageMsg) (kinectCameraInfo : CameraInfo) :
    Except Exn CallbackOutcome :=
  let read := readReceivedMessages_features ext arcoreInputMsg kinectInputCameraMsg
    kinectInputDepthMsg kinectCameraInfo DecodedFeatures.default
  if read.1 < 0 then Except.ok ⟨-1, st, []⟩
  else
    let kinect := computeOrbFeatures ext cfg read.2.kinectCameraImg Mat.default
    if kinect.1 < 0 then Except.ok ⟨-2, st, []⟩
    else
      match update ext cfg st
          ⟨read.2.arcoreKeypoints, read.2.arcoreDescriptors, kinect.2.1, kinect.2.2,
           read.2.arcoreCameraMatrix, read.2.kinectCameraMatrix, read.2.kinectDepthImg,
           read.2.phonePoseArcoreFrameConverted, arcoreInputMsg.stamp,
           kinectInputCameraMsg.frame_id⟩ with
      | Except.error e => Except.error e
      | Except.ok o => Except.ok ⟨10 * o.status, o.state, [o]⟩

/-! ## Names for the intermediate values of `update` -/

/-- Result of the first three stages of `update` (matching, filtering, depth repair): the
value of the call of `fixMatchesDepthOrDrop` made by `update`. -/
def depthRepairStage (ext : Ext) (cfg : Config) (inp : UpdateInput) :
    Except Exn (Int × DepthImage × List DMatch) :=
  fixMatchesDepthOrDrop ext
    (filterMatches cfg (findOrbMatches ext inp.arcoreKeypoints inp.arcoreDescriptors
      inp.fixedKeypoints inp.fixedDescriptors).2 []).2
    inp.fixedKeypoints inp.kinectDepthImage

/-- The run of `update` on `inp` gets past the match-count gate with the repaired depth
image `depth`, the surviving matches `good` and the correspondences `(p3, p2)`. -/
def ReachesSolver (ext : Ext) (cfg : Config) (inp : UpdateInput) (depth : DepthImage)
    (good : List DMatch) (p3 : List Point3f) (p2 : List Point2f) : Prop :=
  depthRepairStage ext cfg inp = Except.ok (0, depth, good) ∧
  get3dPositionsAndImagePositions ext good inp.fixedKeypoints inp.arcoreKeypoints depth
    inp.fixedCameraMatrix = Except.ok (0, p3, p2) ∧
  ¬ (good.length < 4 ∨ good.length < cfg.minimumMatchesNumber)

/-- The invocation of the pose solver made by `update` on the correspondences `(p3, p2)`. -/
def solverCallOf (ext : Ext) (st : EstimatorState) (p3 : List Point3f) (p2 : List Point2f) :
    SolverCall :=
  ⟨p3, p2, (initialGuess ext st).1, (initialGuess ext st).2, st.didComputeEstimation⟩

/-- What the pose solver returns for an invocation made by `update`. -/
def solverResultOf (ext : Ext) (cfg : Config) (inp : UpdateInput) (call : SolverCall) :
    PnPResult :=
  ext.solvePnPRansac call.objectPoints call.imagePoints inp.arcoreCameraMatrix call.rvec
    call.tvec call.useExtrinsicGuess (truncToInt cfg.pnpIterations) cfg.pnpReprojectionError
    cfg.pnpConfidence

/-- The value of `reprojError` after the loop of `update`, for a solver invocation and
its result. -/
def reprojErrorOf (ext : Ext) (inp : UpdateInput) (call : SolverCall) (pnp : PnPResult) :
    Except Exn ℚ :=
  reprojErrorLoop ext call.imagePoints
    (ext.projectPoints call.objectPoints pnp.rvec pnp.tvec inp.arcoreCameraMatrix)
    pnp.inliers 0

/-- Local `phonePoseKinect` of `update`: the inverse of the solved pose. -/
def phonePoseKinectOf (ext : Ext) (pnp : PnPResult) : Transform :=
  (ext.opencvPoseToEigenPose pnp.rvec pnp.tvec).inverse

/-- Local `phonePoseTf` of `update`: the device pose in the world frame. -/
def phonePoseTfOf (ext : Ext) (cfg : Config) (pnp : PnPResult) : Transform :=
  cfg.transformKinectToWorld.transform.mul (phonePoseKinectOf ext pnp)

/-- Local `arcoreWorld` of `update`. -/
def arcoreWorldOf (ext : Ext) (cfg : Config) (inp : UpdateInput) (pnp : PnPResult) :
    Transform :=
  (phonePoseTfOf ext cfg pnp).mul inp.phonePoseArcoreFrameConverted.inverse

/-- The members as the accepting path of `update` writes them. -/
def acceptedState (cfg : Config) (inp : UpdateInput) (arcoreWorld : Transform)
    (matchesNumber : Nat) (reprojError : ℚ) : EstimatorState :=
  ⟨⟨inp.timestamp, "/world", getARDeviceId cfg ++ "_world", arcoreWorld⟩, matchesNumber,
    reprojError, true⟩

/-- Pixel distance between the device pixel and the reprojected point of the correspondence
with index `i`; 0 when the index addresses no correspondence. -/
def pixelDistance (ext : Ext) (imgPos reprojPoints : List Point2f) (i : Int) : ℚ :=
  match atIdx imgPos i, atIdx reprojPoints i with
  | Except.ok pix, Except.ok reprojPix => ext.hypot (pix.x - reprojPix.x) (pix.y - reprojPix.y)
  | _, _ => 0

/-- Sum over the inliers of the pixel distances. -/
def inlierDistanceSum (ext : Ext) (imgPos reprojPoints : List Point2f) (inliers : List Int) :
    ℚ :=
  (inliers.map (pixelDistance ext imgPos reprojPoints)).sum

/-- Mean over the inliers of the pixel distances, in the words of the specification: the sum
over the inliers of the distances divided by the number of inliers. -/
def meanInlierDistance (ext : Ext) (imgPos reprojPoints : List Point2f) (inliers : List Int) :
    ℚ :=
  inlierDistanceSum ext imgPos reprojPoints inliers / inliers.length

/-- A match is in range when both its indices address a key point of their list. -/
def DMatch.InRange (kinectKeypoints arcoreKeypoints : List KeyPoint) (m : DMatch) : Prop :=
  0 ≤ m.trainIdx ∧ m.trainIdx < kinectKeypoints.length ∧
  0 ≤ m.queryIdx ∧ m.queryIdx < arcoreKeypoints.length

instance (kinectKeypoints arcoreKeypoints : List KeyPoint) (m : DMatch) :
    Decidable (m.InRange kinectKeypoints arcoreKeypoints) :=
  inferInstanceAs (Decidable (_ ∧ _ ∧ _ ∧ _))

/-- All matches of a list are in range. -/
def MatchesInRange (kinectKeypoints arcoreKeypoints : List KeyPoint) (ms : List DMatch) :
    Prop :=
  ∀ m ∈ ms, m.InRange kinectKeypoints arcoreKeypoints

instance (kinectKeypoints arcoreKeypoints : List KeyPoint) (ms : List DMatch) :
    Decidable (MatchesInRange kinectKeypoints arcoreKeypoints ms) :=
  inferInstanceAs (Decidable (∀ m ∈ ms, _))

/-! ## A worked scenario

A device camera that sits at the pose of the fixed camera and has the same intrinsics
(focal length 1000, principal point 0), looking at five features at depth 1000. The
first four device pixels are 3 pixels off the exact projection, the fifth is 8 pixels off;
the solver reports the zero pose with the first four correspondences as inliers. The
library functions are given by their values at the arguments this scenario reaches. -/

/-- Key point at a pixel. -/
def demoKeyPoint (x y : ℚ) : KeyPoint := ⟨⟨x, y⟩, 31, 0, 1, 0, -1⟩

/-- Key points of the fixed camera. -/
def demoFixedKeypoints : List KeyPoint :=
  [demoKeyPoint 10 10, demoKeyPoint 20 10, demoKeyPoint 10 20, demoKeyPoint 20 20,
   demoKeyPoint 30 30]

/-- Key points of the device: the first four 3 pixels to the right of the exact projection,
the fifth 8 pixels to the right. -/
def demoArcoreKeypoints : List KeyPoint :=
  [demoKeyPoint 13 10, demoKeyPoint 23 10, demoKeyPoint 13 20, demoKeyPoint 23 20,
   demoKeyPoint 38 30]

/-- Five matches, key point `i` of the device with key point `i` of the fixed camera. -/
def demoMatches : List DMatch :=
  [⟨0, 0, 0, 10⟩, ⟨1, 1, 0, 12⟩, ⟨2, 2, 0, 8⟩, ⟨3, 3, 0, 15⟩, ⟨4, 4, 0, 20⟩]

/-- Pinhole projection of a point given in the camera frame. -/
def demoProject (cam : CameraMatrix) (p : Point3f) : Point2f :=
  ⟨cam.m00 * p.x / p.z + cam.m02, cam.m11 * p.y / p.z + cam.m12⟩

/-- Library and helper functions of the scenario. -/
def demoExt : Ext where
  hypot := fun x y => if y = 0 then |x| else if x = 0 then |y| else |x| + |y|
  acos := fun c => if c = 1 then 0 else 1047185 / 1000000
  sqrt := fun x => if x = 1 then 1 else 999978 / 1000000
  sin := fun x => if x < 1 then 70710678 / 100000000 else 1
  cos := fun x => if x < 1 then 70710678 / 100000000 else 0
  bfMatch := fun _ _ => demoMatches
  findNearestNonZeroPixel := fun _ _ _ _ => ⟨0, 0⟩
  findLowestNonZeroInRing := fun _ _ _ _ _ => ⟨0, 0⟩
  get3dPoint := get3dPoint
  solvePnPRansac := fun _ _ _ _ _ _ _ _ _ => ⟨Vec3d.zero, Vec3d.zero, [0, 1, 2, 3]⟩
  projectPoints := fun pts _ _ cam => pts.map (demoProject cam)
  tfPoseToOpenCvPose := fun _ => (Vec3d.zero, Vec3d.zero)
  opencvPoseToEigenPose := fun _ t => ⟨Matrix3x3.identity, ⟨t.v0, t.v1, t.v2⟩⟩
  isPoseValid := fun _ => true
  convertPoseUnityToRos := fun t => t
  imdecode := fun d => ⟨1, 1, 3, d⟩
  redPlaneFlipped := fun m => { m with channels := 1 }
  flip := fun m => m
  resize := fun m w h => { m with rows := h, cols := w }
  toCvImage := fun msg => ⟨1, 1, 1, msg.data⟩
  toCvDepth := fun msg => if msg.data.isEmpty then none else some ⟨100, 100, fun _ _ => 1000⟩
  orbDetect := fun _ _ _ _ => demoFixedKeypoints
  orbCompute := fun _ _ _ _ kps => (kps, ⟨5, 32, 1, [1]⟩)

/-- Pinhole camera with focal length 1000 and principal point 0. -/
def demoCamera : CameraMatrix := ⟨1000, 0, 0, 0, 1000, 0, 0, 0, 1⟩

/-- Fixed camera to world: a quarter turn around z and a shift. -/
def demoKinectToWorld : TransformStamped :=
  ⟨⟨0, 0⟩, "/world", "kinect01", ⟨⟨⟨0, -1, 0⟩, ⟨1, 0, 0⟩, ⟨0, 0, 1⟩⟩, ⟨1, 2, 3⟩⟩⟩

/-- Parameters of the scenario. -/
def demoConfig : Config where
  ARDeviceId := "phone"
  fixed_sensor_name := "kinect01"
  transformKinectToWorld := demoKinectToWorld
  pnpReprojectionError := 5
  pnpConfidence := 99 / 100
  pnpIterations := 1000
  matchingThreshold := 25
  reprojectionErrorDiscardThreshold := 5 / 2
  orbMaxPoints := 500
  orbScaleFactor := 6 / 5
  orbLevelsNumber := 8
  phoneOrientationDifferenceThreshold_deg := 45
  showImages := false
  minimumMatchesNumber := 4

/-- Members of a freshly constructed estimator. -/
def demoState : EstimatorState :=
  ⟨⟨⟨0, 0⟩, "", "", Transform.identity⟩, 0, 0, false⟩

/-- Depth image of the scenario: every sample is 1000. -/
def demoDepth : DepthImage := ⟨100, 100, fun _ _ => 1000⟩

/-- Converted device self-pose of the scenario: half a turn around x and a shift. -/
def demoPhonePose : Transform := ⟨⟨⟨1, 0, 0⟩, ⟨0, -1, 0⟩, ⟨0, 0, -1⟩⟩, ⟨4, 5, 6⟩⟩

/-- Input of `update` in the scenario. -/
def demoInput : UpdateInput where
  arcoreKeypoints := demoArcoreKeypoints
  arcoreDescriptors := ⟨5, 32, 1, [1]⟩
  fixedKeypoints := demoFixedKeypoints
  fixedDescriptors := ⟨5, 32, 1, [1]⟩
  arcoreCameraMatrix := demoCamera
  fixedCameraMatrix := demoCamera
  kinectDepthImage := demoDepth
  phonePoseArcoreFrameConverted := demoPhonePose
  timestamp := ⟨7, 0⟩
  fixedCameraFrameId := "kinect01_rgb_optical_frame"

/-- The 3D points of the scenario. -/
def demoPos3d : List Point3f :=
  [⟨10, 10, 1000⟩, ⟨20, 10, 1000⟩, ⟨10, 20, 1000⟩, ⟨20, 20, 1000⟩, ⟨30, 30, 1000⟩]

/-- The device pixels of the scenario. -/
def demoImgPos : List Point2f := [⟨13, 10⟩, ⟨23, 10⟩, ⟨13, 20⟩, ⟨23, 20⟩, ⟨38, 30⟩]

/-- The scenario with a matcher that finds only the first three matches. -/
def fewMatchesExt : Ext := { demoExt with bfMatch := fun _ _ => demoMatches.take 3 }

/-- A device image message with an empty payload. -/
def emptyImageMsg : ArcoreCameraImage := ⟨⟨7, 0⟩, 1000, 1000, 0, 0, [], Transform.identity⟩

/-- A device feature message with the five device key points of the scenario, no debug
image and the identity as self-pose. -/
def demoFeaturesMsg : ArcoreCameraFeatures :=
  ⟨⟨7, 0⟩, 1000, 1000, 0, 0, 640, 480,
   [⟨13, 10, 31, 0, 1, 0, -1⟩, ⟨23, 10, 31, 0, 1, 0, -1⟩, ⟨13, 20, 31, 0, 1, 0, -1⟩,
    ⟨23, 20, 31, 0, 1, 0, -1⟩, ⟨38, 30, 31, 0, 1, 0, -1⟩],
   5, 32, 0, [1], ⟨⟨7, 0⟩, "", []⟩, Transform.identity⟩

/-- An image message of the fixed camera with a payload. -/
def demoImageMsg : ImageMsg := ⟨⟨7, 0⟩, "kinect01_rgb_optical_frame", [1]⟩

/-- Camera information of the fixed camera of the scenario. -/
def demoCameraInfo : CameraInfo :=
  ⟨fun i => if i = 0 then 1000 else if i = 5 then 1000 else if i = 10 then 1 else 0⟩

/-- The transform accepted in the scenario: fixed camera to world composed with the inverse
of the device self-pose (the solved pose is the identity). -/
def demoArcoreWorld : Transform := ⟨⟨⟨0, 1, 0⟩, ⟨1, 0, 0⟩, ⟨0, 0, -1⟩⟩, ⟨-4, -2, 9⟩⟩

/-- Members of the estimator after the scenario has been accepted. -/
def demoAccepted : EstimatorState :=
  ⟨⟨⟨7, 0⟩, "/world", "phone_world", demoArcoreWorld⟩, 5, 12 / 5, true⟩

/-- A solved pose turned by 60 degrees around x, with the entries rounded to three
decimals the way a floating point rotation is. -/
def tiltedPose : Transform :=
  ⟨⟨⟨1, 0, 0⟩, ⟨0, 1 / 2, -(866 / 1000)⟩, ⟨0, 866 / 1000, 1 / 2⟩⟩, Vector3.zero⟩

/-- The scenario with a solver that reports the tilted pose with all five correspondences
as inliers, and a projection that lands exactly on the device pixels (zero reprojection
error). The values of `sqrt` and `acos` of `demoExt` at the arguments reached are
`sqrt 0.999956 = 0.999978` and `acos 0.500011 = 1.047185`. -/
def tiltedExt : Ext :=
  { demoExt with
    solvePnPRansac := fun _ _ _ _ _ _ _ _ _ =>
      ⟨⟨1047198 / 1000000, 0, 0⟩, Vec3d.zero, [0, 1, 2, 3, 4]⟩
    projectPoints := fun _ _ _ _ => demoImgPos
    opencvPoseToEigenPose := fun _ _ => tiltedPose }

/-- The basis as a 3x3 matrix of the library, to reuse its algebra. -/
def Matrix3x3.toMatrix (m : Matrix3x3) : Matrix (Fin 3) (Fin 3) ℚ :=
  !![m.r0.x, m.r0.y, m.r0.z; m.r1.x, m.r1.y, m.r1.z; m.r2.x, m.r2.y, m.r2.z]

/-! ## Depth search as the spec describes it -/

/-- Squared distance between an integer pixel and the position `(x, y)`. -/
def dist2 (p : Point2i) (x y : ℚ) : ℚ := (p.x - x) * (p.x - x) + (p.y - y) * (p.y - y)

/-- The pixels of an image in scan order (row by row). -/
def pixelsOf (img : DepthImage) : List Point2i :=
  (List.range img.rows).flatMap (fun (r : Nat) =>
    (List.range img.cols).map (fun (c : Nat) => (⟨(c : Int), (r : Int)⟩ : Point2i)))

/-- First element of a list with the least key. -/
def pickMin (key : Point2i → ℚ) : List Point2i → Option Point2i
  | [] => none
  | p :: rest =>
    match pickMin key rest with
    | none => some p
    | some q => if key q < key p then some q else some p

/-- Candidates of the first search: pixels with non-zero depth within `maxDist`. -/
def nearCandidates (img : DepthImage) (x y maxDist : ℚ) : List Point2i :=
  (pixelsOf img).filter (fun p => decide (img.atI p ≠ 0 ∧ dist2 p x y ≤ maxDist * maxDist))

/-- Modelled from the spec: helper `findNearestNonZeroPixel` of `utils.hpp`, whose body is
not part of the sources at hand. The spec describes a search outward from `(x, y)` for the
nearest pixel with non-zero depth within a bounded radius. When there is no such pixel the
pixel of `(x, y)` itself is returned, whose depth is zero, so that the caller drops the
match, as the spec requires. The pipeline takes the helper from `Ext`. -/
def findNearestNonZeroPixel (img : DepthImage) (x y maxDist : ℚ) : Point2i :=
  match pickMin (fun p => dist2 p x y) (nearCandidates img x y maxDist) with
  | some p => p
  | none => ⟨cvRound x, cvRound y⟩

/-- Candidates of the second search: pixels with non-zero depth in the ring between
`minRadius` and `maxRadius`. -/
def ringCandidates (img : DepthImage) (x y maxRadius minRadius : ℚ) : List Point2i :=
  (pixelsOf img).filter (fun p => decide (img.atI p ≠ 0 ∧ minRadius * minRadius ≤ dist2 p x y ∧
    dist2 p x y ≤ maxRadius * maxRadius))

/-- Modelled from the spec: helper `findLowestNonZeroInRing` of `utils.hpp`, whose body is
not part of the sources at hand. The spec describes a second search in a ring between the
found radius and a slightly larger bound, selecting the lowest non-zero depth in that ring.
When the ring holds no such pixel the pixel of `(x, y)` itself is returned. The pipeline
takes the helper from `Ext`. -/
def findLowestNonZeroInRing (img : DepthImage) (x y maxRadius minRadius : ℚ) : Point2i :=
  match pickMin (fun p => (img.atI p : ℚ)) (ringCandidates img x y maxRadius minRadius) with
  | some p => p
  | none => ⟨cvRound x, cvRound y⟩

/-- The depth image after the repair attempt of `fixMatchesDepthOrDrop` at `imgPos`. -/
def repairedDepthImage (ext : Ext) (img : DepthImage) (imgPos : Point2f) : DepthImage :=
  if img.atF imgPos = 0 then
    let nnz := ext.findNearestNonZeroPixel img imgPos.x imgPos.y 100
    let nnzDist := ext.hypot (nnz.x - imgPos.x) (nnz.y - imgPos.y)
    let nnz2 := ext.findLowestNonZeroInRing img imgPos.x imgPos.y (nnzDist + 10) nnzDist
    img.set imgPos (img.atI nnz2)
  else img

/-- Scenario library. -/
def depthExt : Ext :=
  { demoExt with
    findNearestNonZeroPixel := findNearestNonZeroPixel
    findLowestNonZeroInRing := findLowestNonZeroInRing }

/-- One row of 121 samples, depth 7 at column 120, unknown elsewhere. -/
def farImage : DepthImage := ⟨1, 121, fun r c => if r = 0 ∧ c = 120 then 7 else 0⟩

/-- Key points of the fixed camera on pixels (0, 0) and (60, 0). -/
def farKeypoints : List KeyPoint := [demoKeyPoint 0 0, demoKeyPoint 60 0]

/-- Three matches: two device key points matched with fixed key point 0, one in between
matched with fixed key point 1. -/
def farMatches : List DMatch := [⟨0, 0, 0, 10⟩, ⟨1, 1, 0, 10⟩, ⟨2, 0, 0, 10⟩]

/-! ## The position filter `Position3DKalmanFilter` -/

/-- Column of 9 doubles: the state, ordered (x, y, z, vx, vy, vz, ax, ay, az). -/
abbrev StateVec := Fin 9 → ℚ

/-- Column of 3 doubles: a measured position. -/
abbrev MeasVec := Fin 3 → ℚ

/-- Library operation `cv::solve(src1, src2, dst, DECOMP_SVD)` for the 3×3 system with 9
right-hand sides that `cv::KalmanFilter::correct` solves. -/
abbrev Solve :=
  Matrix (Fin 3) (Fin 3) ℚ → Matrix (Fin 3) (Fin 9) ℚ → Matrix (Fin 3) (Fin 9) ℚ

/-- Members of `cv::KalmanFilter` for 9 state entries, 3 measured entries and no control. -/
structure KalmanFilter where
  statePre : StateVec
  statePost : StateVec
  transitionMatrix : Matrix (Fin 9) (Fin 9) ℚ
  processNoiseCov : Matrix (Fin 9) (Fin 9) ℚ
  measurementMatrix : Matrix (Fin 3) (Fin 9) ℚ
  measurementNoiseCov : Matrix (Fin 3) (Fin 3) ℚ
  errorCovPre : Matrix (Fin 9) (Fin 9) ℚ
  errorCovPost : Matrix (Fin 9) (Fin 9) ℚ
  gain : Matrix (Fin 9) (Fin 3) ℚ

/-- Library operation `cv::KalmanFilter::init(9, 3, 0, CV_64F)`: zero states, identity
transition and noise covariances, zero measurement matrix, zero error covariances and
gain. -/
def KalmanFilter.init : KalmanFilter where
  statePre := 0
  statePost := 0
  transitionMatrix := 1
  processNoiseCov := 1
  measurementMatrix := 0
  measurementNoiseCov := 1
  errorCovPre := 0
  errorCovPost := 0
  gain := 0

/-- Library operation `cv::KalmanFilter::predict()` without control: the predicted state is
the transition matrix applied to the corrected state, the predicted covariance is
`A * P * Aᵀ + Q`, and both are copied to the corrected members. Returns the filter and the
predicted state. -/
def KalmanFilter.predict (kf : KalmanFilter) : KalmanFilter × StateVec :=
  let statePre := kf.transitionMatrix.mulVec kf.statePost
  let temp1 := kf.transitionMatrix * kf.errorCovPost
  let errorCovPre := temp1 * kf.transitionMatrix.transpose + kf.processNoiseCov
  ({ kf with
      statePre := statePre
      errorCovPre := errorCovPre
      statePost := statePre
      errorCovPost := errorCovPre }, statePre)

/-- Library operation `cv::KalmanFilter::correct(measurement)`: gain from the solved system,
innovation `z - H * x'`, corrected state `x' + K * innovation` and corrected covariance.
Returns the filter and the corrected state. -/
def KalmanFilter.correct (solve : Solve) (kf : KalmanFilter) (measurement : MeasVec) :
    KalmanFilter × StateVec :=
  let temp2 := kf.measurementMatrix * kf.errorCovPre
  let temp3 := temp2 * kf.measurementMatrix.transpose + kf.measurementNoiseCov
  let temp4 := solve temp3 temp2
  let gain := temp4.transpose
  let temp5 := measurement - kf.measurementMatrix.mulVec kf.statePre
  let statePost := kf.statePre + gain.mulVec temp5
  let errorCovPost := kf.errorCovPre - gain * temp2
  ({ kf with gain := gain, statePost := statePost, errorCovPost := errorCovPost }, statePost)

/-- Members of class `Position3DKalmanFilter`. -/
structure Position3DKalmanFilter where
  kalmanFilter : KalmanFilter
  mDidEverComputeState : Bool
  processNoiseVarianceFactor : ℚ
  lastStateEstimate : Vector3

/-- Modelled from the spec: initial value of the member `mDidEverComputeState`, declared in
`Position3DKalmanFilter.hpp`, which is not part of the sources at hand and which the
constructor does not assign. The spec has the first measurement bootstrap the state, so a new
filter has not computed a state yet. -/
def mDidEverComputeStateInit : Bool := false

/-- Method `Position3DKalmanFilter::setupParameters`. -/
def Position3DKalmanFilter.setupParameters (f : Position3DKalmanFilter)
    (measurementNoiseVariance processNoiseVarianceFactor : ℚ) : Position3DKalmanFilter :=
  let var := measurementNoiseVariance
  { f with
    processNoiseVarianceFactor := processNoiseVarianceFactor
    kalmanFilter :=
      { f.kalmanFilter with
        measurementNoiseCov := !![var, 0,   0;
                                  0,   var, 0;
                                  0,   0,   var] } }

/-- The measurement matrix the constructor installs: the measurement is the position part
of the state. -/
def positionMeasurementMatrix : Matrix (Fin 3) (Fin 9) ℚ :=
  !![1, 0, 0, 0, 0, 0, 0, 0, 0;
     0, 1, 0, 0, 0, 0, 0, 0, 0;
     0, 0, 1, 0, 0, 0, 0, 0, 0]

/-- Constructor `Position3DKalmanFilter::Position3DKalmanFilter()`. The constructor assigns
neither `mDidEverComputeState` nor `lastStateEstimate`; the first starts as
`mDidEverComputeStateInit`, the second holds whatever it held, the argument
`lastStateEstimate`. -/
def Position3DKalmanFilter.create (lastStateEstimate : Vector3) : Position3DKalmanFilter :=
  let f0 : Position3DKalmanFilter :=
    ⟨KalmanFilter.init, mDidEverComputeStateInit, 1, lastStateEstimate⟩
  let f1 := f0.setupParameters 1 1
  { f1 with
    kalmanFilter :=
      { f1.kalmanFilter with
        errorCovPost := Matrix.diagonal (fun _ => 1 / 10)
        measurementMatrix := positionMeasurementMatrix } }

/-- Method `Position3DKalmanFilter::transitionMatrix`. -/
def transitionMatrix (timestep : ℚ) : Matrix (Fin 9) (Fin 9) ℚ :=
  let t := timestep
  !![1, 0, 0, t, 0, 0, t*t/2, 0,     0;
     0, 1, 0, 0, t, 0, 0,     t*t/2, 0;
     0, 0, 1, 0, 0, t, 0,     0,     t*t/2;
     0, 0, 0, 1, 0, 0, t,     0,     0;
     0, 0, 0, 0, 1, 0, 0,     t,     0;
     0, 0, 0, 0, 0, 1, 0,     0,     t;
     0, 0, 0, 0, 0, 0, 1,     0,     0;
     0, 0, 0, 0, 0, 0, 0,     1,     0;
     0, 0, 0, 0, 0, 0, 0,     0,     1]

/-- Method `Position3DKalmanFilter::processNoiseCovariance`. -/
def Position3DKalmanFilter.processNoiseCovariance (f : Position3DKalmanFilter)
    (timestep : ℚ) : Matrix (Fin 9) (Fin 9) ℚ :=
  let t := timestep
  let G : Matrix (Fin 9) (Fin 3) ℚ :=
    !![t*t/2,  0,      0;
       t,      0,      0;
       1,      0,      0;
       0,      t*t/2,  0;
       0,      t,      0;
       0,      1,      0;
       0,      0,      t*t/2;
       0,      0,      t;
       0,      0,      1]
  (G * G.transpose).map (fun e => e * f.processNoiseVarianceFactor)

/-- Calls on the `cv::KalmanFilter` member. -/
inductive KalmanCall where
  | predict
  | correct
deriving DecidableEq

/-- Outcome of `update(const cv::Mat&, double)`: the filter after the call, the entries of
the returned column and the calls made on the `cv::KalmanFilter` member. -/
structure UpdateMatResult where
  filter : Position3DKalmanFilter
  returned : List ℚ
  calls : List KalmanCall

/-- Method `Position3DKalmanFilter::update(const cv::Mat&, double)` on a column of 3
entries. -/
def Position3DKalmanFilter.updateMat (solve : Solve) (f : Position3DKalmanFilter)
    (measurement : MeasVec) (timestep_sec : ℚ) : UpdateMatResult :=
  let kf0 : KalmanFilter :=
    { f.kalmanFilter with
      transitionMatrix := transitionMatrix timestep_sec
      processNoiseCov := f.processNoiseCovariance timestep_sec }
  if f.mDidEverComputeState then
    let kf1 := kf0.predict.1
    let r := kf1.correct solve measurement
    ⟨{ f with kalmanFilter := r.1 }, List.ofFn r.2, [KalmanCall.predict, KalmanCall.correct]⟩
  else
    let kf1 : KalmanFilter :=
      { kf0 with
        statePost := ![measurement 0, measurement 1, measurement 2, 0, 0, 0, 0, 0, 0] }
    ⟨{ f with kalmanFilter := kf1, mDidEverComputeState := true }, List.ofFn measurement, []⟩

/-- Outcome of `update(const tf::Vector3&, double)`. -/
structure FilterUpdateResult where
  filter : Position3DKalmanFilter
  returned : Vector3
  calls : List KalmanCall

/-- Method `Position3DKalmanFilter::update(const tf::Vector3&, double)`. -/
def Position3DKalmanFilter.update (solve : Solve) (f : Position3DKalmanFilter)
    (measurement : Vector3) (timestep_sec : ℚ) : FilterUpdateResult :=
  let measurement_cv : MeasVec := ![measurement.x, measurement.y, measurement.z]
  let r := f.updateMat solve measurement_cv timestep_sec
  ⟨r.filter, ⟨r.returned.getD 0 0, r.returned.getD 1 0, r.returned.getD 2 0⟩, r.calls⟩

/-- Method `Position3DKalmanFilter::didEverComputeState`. -/
def Position3DKalmanFilter.didEverComputeState (f : Position3DKalmanFilter) : Bool :=
  f.mDidEverComputeState

/-- Exception thrown by `getState`. -/
inductive FilterExn where
  | logic_error
deriving DecidableEq

/-- Method `Position3DKalmanFilter::getState`. -/
def Position3DKalmanFilter.getState (f : Position3DKalmanFilter) :
    Except FilterExn Vector3 :=
  if !f.didEverComputeState then Except.error FilterExn.logic_error
  else Except.ok f.lastStateEstimate

/-- The filter after a sequence of calls of `update`, with the returned positions in call
order. -/
def Position3DKalmanFilter.updates (solve : Solve) :
    Position3DKalmanFilter → List (Vector3 × ℚ) → Position3DKalmanFilter × List Vector3
  | f, [] => (f, [])
  | f, (m, t) :: rest =>
    let r := f.update solve m t
    let rs := Position3DKalmanFilter.updates solve r.filter rest
    (rs.1, r.returned :: rs.2)

/-- The state that holds the position `m` with zero velocity and zero acceleration. -/
def restingState (m : Vector3) : StateVec := ![m.x, m.y, m.z, 0, 0, 0, 0, 0, 0]

/-- The feature message of the scenario with its last two key points left out: three key
points, five descriptor rows. -/
def shortFeaturesMsg : ArcoreCameraFeatures :=
  { demoFeaturesMsg with keypoints := demoFeaturesMsg.keypoints.take 3 }

/-- The input of the scenario with the last two key points of the fixed camera left out. -/
def shortFixedInput : UpdateInput :=
  { demoInput with fixedKeypoints := demoFixedKeypoints.take 3 }

/-! ## A scenario without noise

The five features of the worked scenario seen by a device camera whose pose is turned around
the x axis with cosine 3/5 and sine 4/5 (about 53.13 degrees). The device pixels are the
exact pinhole projections of the five points at that pose, and the solver reports that
pose with all five correspondences as inliers. -/

/-- The pose the solver reports: a turn around x with cosine 3/5 and sine 4/5. -/
def steepPose : Transform :=
  ⟨⟨⟨1, 0, 0⟩, ⟨0, 3 / 5, -(4 / 5)⟩, ⟨0, 4 / 5, 3 / 5⟩⟩, Vector3.zero⟩

/-- Pinhole projection of a point of the fixed camera frame by a camera at `pose`. -/
def projectAt (pose : Transform) (cam : CameraMatrix) (p : Point3f) : Point2f :=
  demoProject cam
    ⟨(pose.apply ⟨p.x, p.y, p.z⟩).x, (pose.apply ⟨p.x, p.y, p.z⟩).y,
     (pose.apply ⟨p.x, p.y, p.z⟩).z⟩

/-- The device pixels: exact projections of the five points at `steepPose`. -/
def steepImgPos : List Point2f := demoPos3d.map (projectAt steepPose demoCamera)

/-- The key points of the device on those pixels. -/
def steepArcoreKeypoints : List KeyPoint := steepImgPos.map (fun p => demoKeyPoint p.x p.y)

/-- Library and helper functions of the scenario without noise; `acos 0.6 = 0.927295`. -/
def steepExt : Ext :=
  { demoExt with
    acos := fun c =>
      if c = 1 then 0 else if c = 3 / 5 then 927295 / 1000000 else 1047185 / 1000000
    solvePnPRansac := fun _ _ _ _ _ _ _ _ _ =>
      ⟨⟨927295 / 1000000, 0, 0⟩, Vec3d.zero, [0, 1, 2, 3, 4]⟩
    projectPoints := fun pts _ _ cam => pts.map (projectAt steepPose cam)
    opencvPoseToEigenPose := fun _ _ => steepPose }

/-- Input of `update` in the scenario without noise. -/
def steepInput : UpdateInput := { demoInput with arcoreKeypoints := steepArcoreKeypoints }

/-! ## Integration of a calibration refinement

Embedding of `transformSensor` of `integrate_calibration_refinement.cpp`. The refinement
matrix is whatever sixteen numbers the file holds, so here the Eigen value, the pose message
and the tf pose are kept apart and the two conversions between them are spelled out: a pose
message holds a position and a quaternion, and the tf pose built from it has the rotation of
that quaternion as its basis. -/

/-- Struct `PoseAndInverse`: a pose and its inverse. -/
structure PoseAndInverse where
  pose : Transform
  inversePose : Transform
deriving DecidableEq

/-- Exception `std::runtime_error`, thrown by `readMatrixFromFile`. -/
inductive FileExn where
  | runtime_error
deriving DecidableEq

/-- Transform `Eigen::Affine3d` as `readMatrixFromFile` fills it from the first three rows of
the file: `linear` is the upper left 3x3 block, stored as its three rows, `translation` is
the upper part of the last column. The fourth row of the file is written into the matrix as
well and is read by no conversion; it is left out. -/
structure Affine3d where
  linear : Matrix3x3
  translation : Vector3
deriving DecidableEq

/-- Message `geometry_msgs::Pose`. -/
structure PoseMsg where
  position : Vector3
  orientation : Quaternion
deriving DecidableEq

/-- Method `length2` of `tf::Quaternion`. -/
def Quaternion.length2 (q : Quaternion) : ℚ := q.x * q.x + q.y * q.y + q.z * q.z + q.w * q.w

/-- Function `tf::poseEigenToMsg` of `eigen_conversions`: the position is the translation
and the orientation is the quaternion the library makes of the linear part. That conversion
(`Eigen::Quaterniond(e.linear())`, with the sign the library settles on) takes square roots
and is the argument `toQuaternion`. -/
def poseEigenToMsg (toQuaternion : Matrix3x3 → Quaternion) (e : Affine3d) : PoseMsg :=
  ⟨e.translation, toQuaternion e.linear⟩

/-- Function `tf::poseMsgToTF`: the pose
`tf::Transform(tf::Quaternion(orientation), tf::Vector3(position))`. -/
def poseMsgToTF (msg : PoseMsg) : Transform :=
  Transform.ofQuaternion msg.orientation msg.position

/-- The refinement matrix taken as a transform without any conversion: its linear part as
the basis and its translation as the origin. -/
def Affine3d.toTransform (e : Affine3d) : Transform := ⟨e.linear, e.translation⟩

/-- Function `transformSensor`: the sensor as the call leaves it and the returned distance.
The argument `readMatrixFromFile` is the function of that name on the file system at hand
(the matrix a file holds, or the exception thrown when the file cannot be opened or
parsed); `toQuaternion` is the library conversion used by `poseEigenToMsg`; `poseDistance`
is the helper of that name of `utils.hpp`, whose body is not part of the sources at hand. -/
def transformSensor (readMatrixFromFile : String → Except FileExn Affine3d)
    (toQuaternion : Matrix3x3 → Quaternion)
    (poseDistance : Transform → Transform → ℚ) (sensor : PoseAndInverse)
    (refinementFileName : String) : Except FileExn (PoseAndInverse × ℚ) :=
  match readMatrixFromFile refinementFileName with
  | Except.error e => Except.error e
  | Except.ok refinementMatrix =>
    let poseMsg := poseEigenToMsg toQuaternion refinementMatrix
    let poseTf := poseMsgToTF poseMsg
    let newPose := poseTf.mul sensor.pose
    let dist := poseDistance sensor.pose newPose
    let sensor1 : PoseAndInverse := { sensor with pose := newPose }
    let sensor2 : PoseAndInverse := { sensor1 with inversePose := sensor1.pose.inverse }
    Except.ok (sensor2, dist)

/-- A refinement of the scenarios: a quarter turn around z and a shift. -/
def demoRefinement : Affine3d := ⟨⟨⟨0, -1, 0⟩, ⟨1, 0, 0⟩, ⟨0, 0, 1⟩⟩, ⟨1, 2, 3⟩⟩

/-- A quaternion of the quarter turn around z, scaled to rational entries; the basis built
by `tf::Transform` does not depend on the scale. -/
def demoRefinementQuaternion : Quaternion := ⟨0, 0, 1, 1⟩

/-- A refinement file that holds a mirror image: the z axis is flipped, nothing is moved. -/
def mirrorRefinement : Affine3d := ⟨⟨⟨1, 0, 0⟩, ⟨0, 1, 0⟩, ⟨0, 0, -1⟩⟩, ⟨0, 0, 0⟩⟩

/-- A sensor whose stored inverse is not the inverse of its pose. -/
def demoSensor : PoseAndInverse := ⟨demoPhonePose, Transform.identity⟩

/-- A sensor at the origin of the world frame. -/
def identitySensor : PoseAndInverse := ⟨Transform.identity, Transform.identity⟩

/-- The process noise covariance in the words of the specification, for comparison with
`Position3DKalmanFilter.processNoiseCovariance`: white noise on the acceleration for the
state ordering (x, y, z, vx, vy, vz, ax, ay, az) of the transition matrix, that is
`factor * G * Gᵀ` where column `k` of `G` has `t*t/2` at the position index `k`, `t` at the
velocity index `3 + k` and 1 at the acceleration index `6 + k`. -/
def processNoiseCovarianceSpec (factor t : ℚ) : Matrix (Fin 9) (Fin 9) ℚ :=
  let G : Matrix (Fin 9) (Fin 3) ℚ :=
    !![t*t/2,  0,      0;
       0,      t*t/2,  0;
       0,      0,      t*t/2;
       t,      0,      0;
       0,      t,      0;
       0,      0,      t;
       1,      0,      0;
       0,      1,      0;
       0,      0,      1]
  (G * G.transpose).map (fun e => e * factor)

/-- The worked scenario with a conversion `tfPoseToOpenCvPose` that hands back the origin of
the pose as translation vector; the rotation vector is left at zero, the translation is
enough to tell the seed from the solved pose. -/
def seedExt : Ext :=
  { demoExt with
    tfPoseToOpenCvPose := fun t => (Vec3d.zero, ⟨t.origin.x, t.origin.y, t.origin.z⟩) }

/-- Device pixels of the worked scenario when the first four lie exactly on the projections
and the fifth is 8 pixels off. -/
def exactFourImgPos : List Point2f := [⟨10, 10⟩, ⟨20, 10⟩, ⟨10, 20⟩, ⟨20, 20⟩, ⟨38, 30⟩]

/-- Input of `update` with those device pixels. -/
def exactFourInput : UpdateInput :=
  { demoInput with arcoreKeypoints := exactFourImgPos.map (fun p => demoKeyPoint p.x p.y) }

/-- The indices that a run of `update` looks up with `vector::at` are in range: every match
that passes the distance filter has `trainIdx` in range of the key points of the fixed camera
(line 1073 reads it for each input match of `fixMatchesDepthOrDrop`), every match that
survives the depth repair has `queryIdx` in range of the device key points (line 1112), and,
when the run gets past the match-count gate, every inlier index returned by the solver
addresses a device pixel and a reprojected point (lines 494 and 495). -/
def UpdateLookupsInRange (ext : Ext) (cfg : Config) (st : EstimatorState) (inp : UpdateInput) :
    Prop :=
  (∀ m ∈ (filterMatches cfg (findOrbMatches ext inp.arcoreKeypoints inp.arcoreDescriptors
      inp.fixedKeypoints inp.fixedDescriptors).2 []).2,
    0 ≤ m.trainIdx ∧ m.trainIdx < inp.fixedKeypoints.length) ∧
  (∀ depth good, depthRepairStage ext cfg inp = Except.ok (0, depth, good) →
    ∀ m ∈ good, 0 ≤ m.queryIdx ∧ m.queryIdx < inp.arcoreKeypoints.length) ∧
  (∀ depth good p3 p2, ReachesSolver ext cfg inp depth good p3 p2 →
    ∀ i ∈ (solverResultOf ext cfg inp (solverCallOf ext st p3 p2)).inliers,
      0 ≤ i ∧ i < p2.length ∧
      i < (ext.projectPoints p3 (solverResultOf ext cfg inp (solverCallOf ext st p3 p2)).rvec
        (solverResultOf ext cfg inp (solverCallOf ext st p3 p2)).tvec
        inp.arcoreCameraMatrix).length)

/-! ## Properties of the pipeline stages -/

/-- Checked access succeeds on an index in range. -/
theorem atIdx_ok_of_lt {α : Type} (v : List α) (i : Int) (h0 : 0 ≤ i) (h1 : i < v.length) :
    ∃ a, atIdx v i = Except.ok a := by
  have hlt : i.toNat < v.length := by omega
  refine ⟨v.get ⟨i.toNat, hlt⟩, ?_⟩
  unfold atIdx
  rw [if_neg (by omega), List.get?_eq_get hlt]

/-- The filter keeps, after what the output already held, the matches at or below the
threshold, in order. -/
theorem filterMatches_snd (cfg : Config) (ms out : List DMatch) :
    (filterMatches cfg ms out).2
      = out ++ ms.filter (fun m => decide (m.distance ≤ cfg.matchingThreshold)) := by
  unfold filterMatches
  induction ms generalizing out with
  | nil => simp
  | cons m rest ih =>
    simp only [List.foldl_cons] at ih ⊢
    by_cases h : m.distance ≤ cfg.matchingThreshold
    · rw [if_pos h, ih, List.filter_cons_of_pos (by simpa using h)]
      simp
    · rw [if_neg h, ih, List.filter_cons_of_neg (by simpa using h)]

/-- The filter returns only matches of its input when started on an empty output. -/
theorem filterMatches_subset (cfg : Config) (ms : List DMatch) :
    ∀ m ∈ (filterMatches cfg ms []).2, m ∈ ms := by
  intro m hm
  rw [filterMatches_snd] at hm
  simp only [List.nil_append] at hm
  exact (List.mem_filter.mp hm).1

/-- One step of the depth repair loop succeeds on a train index in range and either leaves
the output alone or appends the match. -/
theorem fixMatchStep_ok (ext : Ext) (kps : List KeyPoint) (img : DepthImage)
    (out : List DMatch) (m : DMatch) (h0 : 0 ≤ m.trainIdx) (h1 : m.trainIdx < kps.length) :
    ∃ img1, fixMatchStep ext kps img out m = Except.ok (img1, out) ∨
      fixMatchStep ext kps img out m = Except.ok (img1, out ++ [m]) := by
  obtain ⟨kp, hkp⟩ := atIdx_ok_of_lt kps m.trainIdx h0 h1
  unfold fixMatchStep
  rw [hkp]
  simp only
  split_ifs <;> first | exact ⟨_, Or.inl rfl⟩ | exact ⟨_, Or.inr rfl⟩

/-- The depth repair loop succeeds when every train index is in range, and its output is
the given output followed by a sub-list of the input. -/
theorem fixMatchesLoop_ok (ext : Ext) (kps : List KeyPoint) (ms : List DMatch) :
    ∀ (img : DepthImage) (out : List DMatch),
      (∀ m ∈ ms, 0 ≤ m.trainIdx ∧ m.trainIdx < kps.length) →
      ∃ img1 kept, fixMatchesLoop ext kps ms img out = Except.ok (img1, out ++ kept) ∧
        kept.Sublist ms := by
  induction ms with
  | nil =>
    intro img out _
    exact ⟨img, [], by simp [fixMatchesLoop], List.Sublist.refl _⟩
  | cons m rest ih =>
    intro img out h
    have hm := h m (List.mem_cons_self _ _)
    have hrest : ∀ x ∈ rest, 0 ≤ x.trainIdx ∧ x.trainIdx < kps.length :=
      fun x hx => h x (List.mem_cons_of_mem _ hx)
    obtain ⟨img1, hstep⟩ := fixMatchStep_ok ext kps img out m hm.1 hm.2
    rcases hstep with hstep | hstep
    · obtain ⟨img2, kept, hk, hsub⟩ := ih img1 out hrest
      refine ⟨img2, kept, ?_, hsub.cons _⟩
      rw [fixMatchesLoop, hstep]
      exact hk
    · obtain ⟨img2, kept, hk, hsub⟩ := ih img1 (out ++ [m]) hrest
      refine ⟨img2, m :: kept, ?_, hsub.cons₂ _⟩
      rw [fixMatchesLoop, hstep]
      simpa using hk

/-- Function `fixMatchesDepthOrDrop` returns status 0 and a sub-list of its input when every
train index is in range. -/
theorem fixMatchesDepthOrDrop_ok (ext : Ext) (kps : List KeyPoint) (ms : List DMatch)
    (img : DepthImage) (h : ∀ m ∈ ms, 0 ≤ m.trainIdx ∧ m.trainIdx < kps.length) :
    ∃ img1 kept, fixMatchesDepthOrDrop ext ms kps img = Except.ok (0, img1, kept) ∧
      kept.Sublist ms := by
  obtain ⟨img1, kept, hk, hsub⟩ := fixMatchesLoop_ok ext kps ms img [] h
  refine ⟨img1, kept, ?_, hsub⟩
  unfold fixMatchesDepthOrDrop
  rw [hk]
  simp

/-- The status of `fixMatchesDepthOrDrop` is 0 whenever it returns. -/
theorem fixMatchesDepthOrDrop_status (ext : Ext) (kps : List KeyPoint) (ms : List DMatch)
    (img : DepthImage) (r : Int × DepthImage × List DMatch)
    (h : fixMatchesDepthOrDrop ext ms kps img = Except.ok r) : r.1 = 0 := by
  unfold fixMatchesDepthOrDrop at h
  split at h
  · cases h
  · cases h; rfl

/-- Whenever the correspondence loop returns, it has appended one 3D point and one pixel
per match. -/
theorem get3dLoop_length (ext : Ext) (kkps akps : List KeyPoint) (img : DepthImage) (cam : CameraMatrix)
    (ms : List DMatch) :
    ∀ (p3 : List Point3f) (p2 : List Point2f) (r : List Point3f × List Point2f),
      get3dLoop ext kkps akps img cam ms p3 p2 = Except.ok r →
      r.1.length = p3.length + ms.length ∧ r.2.length = p2.length + ms.length := by
  induction ms with
  | nil =>
    intro p3 p2 r h
    simp only [get3dLoop] at h
    cases h
    simp
  | cons m rest ih =>
    intro p3 p2 r h
    rw [get3dLoop] at h
    split at h
    · cases h
    · split at h
      · cases h
      · have hl := ih _ _ _ h
        simp only [List.length_append, List.length_cons, List.length_nil] at hl ⊢
        omega

/-- The correspondence loop succeeds when every match is in range. -/
theorem get3dLoop_ok (ext : Ext) (kkps akps : List KeyPoint) (img : DepthImage) (cam : CameraMatrix)
    (ms : List DMatch) :
    ∀ (p3 : List Point3f) (p2 : List Point2f), MatchesInRange kkps akps ms →
      ∃ r, get3dLoop ext kkps akps img cam ms p3 p2 = Except.ok r := by
  induction ms with
  | nil =>
    intro p3 p2 _
    exact ⟨_, rfl⟩
  | cons m rest ih =>
    intro p3 p2 h
    have hm := h m (List.mem_cons_self _ _)
    obtain ⟨kkp, hk⟩ := atIdx_ok_of_lt kkps m.trainIdx hm.1 hm.2.1
    obtain ⟨akp, ha⟩ := atIdx_ok_of_lt akps m.queryIdx hm.2.2.1 hm.2.2.2
    rw [get3dLoop, hk]
    simp only
    rw [ha]
    exact ih _ _ (fun x hx => h x (List.mem_cons_of_mem _ hx))

/-- Function `get3dPositionsAndImagePositions` returns status 0 and two sequences as long
as the list of matches when every match is in range. -/
theorem get3dPositionsAndImagePositions_ok (ext : Ext) (kkps akps : List KeyPoint) (img : DepthImage)
    (cam : CameraMatrix) (ms : List DMatch) (h : MatchesInRange kkps akps ms) :
    ∃ p3 p2, get3dPositionsAndImagePositions ext ms kkps akps img cam
        = Except.ok (0, p3, p2) ∧
      p3.length = ms.length ∧ p2.length = ms.length := by
  obtain ⟨r, hr⟩ := get3dLoop_ok ext kkps akps img cam ms [] [] h
  have hl := get3dLoop_length ext kkps akps img cam ms [] [] r hr
  refine ⟨r.1, r.2, ?_, by simpa using hl.1, by simpa using hl.2⟩
  unfold get3dPositionsAndImagePositions
  rw [hr]

/-- Whenever `get3dPositionsAndImagePositions` returns, its status is 0 and both sequences
are as long as the list of matches. -/
theorem get3dPositionsAndImagePositions_length (ext : Ext) (kkps akps : List KeyPoint) (img : DepthImage)
    (cam : CameraMatrix) (ms : List DMatch) (r : Int × List Point3f × List Point2f)
    (h : get3dPositionsAndImagePositions ext ms kkps akps img cam = Except.ok r) :
    r.1 = 0 ∧ r.2.1.length = ms.length ∧ r.2.2.length = ms.length := by
  unfold get3dPositionsAndImagePositions at h
  split at h
  · cases h
  · rename_i r0 hr0
    cases h
    have hl := get3dLoop_length ext kkps akps img cam ms [] [] r0 hr0
    exact ⟨rfl, by simpa using hl.1, by simpa using hl.2⟩

/-! ## Properties of the update step -/

/-- The last part of `update` writes the members only on the path that returns 0. -/
theorem acceptOrReject_state_of_status_ne_zero (ext : Ext) (cfg : Config) (st : EstimatorState)
    (inp : UpdateInput) (depth : DepthImage) (goodMatches : List DMatch) (call : SolverCall)
    (pnp : PnPResult) (reprojError : ℚ)
    (h : (acceptOrReject ext cfg st inp depth goodMatches call pnp reprojError).status ≠ 0) :
    (acceptOrReject ext cfg st inp depth goodMatches call pnp reprojError).state = st := by
  simp only [acceptOrReject] at h ⊢
  split_ifs at h ⊢ <;> simp_all

/-- The middle part of `update` writes the members only on the path that returns 0. -/
theorem solveAndGate_state_of_status_ne_zero (ext : Ext) (cfg : Config) (st : EstimatorState)
    (inp : UpdateInput) (depth : DepthImage) (goodMatches : List DMatch)
    (pos3d : List Point3f) (imgPos : List Point2f) (out : Outcome)
    (hret : solveAndGate ext cfg st inp depth goodMatches pos3d imgPos = Except.ok out)
    (h : out.status ≠ 0) : out.state = st := by
  unfold solveAndGate at hret
  by_cases hc : goodMatches.length < 4 ∨ goodMatches.length < cfg.minimumMatchesNumber
  · rw [if_pos hc] at hret
    cases hret; rfl
  · rw [if_neg hc] at hret
    simp only at hret
    split at hret
    · cases hret
    · cases hret
      exact acceptOrReject_state_of_status_ne_zero _ _ _ _ _ _ _ _ _ h

/-- C1: whenever `update` returns a non-zero status (soft reject 1, 2, 3 or an internal
error), the persistent members are exactly what they were before the call, so the four
getters return the same values as before. -/
theorem update_nonzero_status_state_unchanged (ext : Ext) (cfg : Config) (st : EstimatorState)
    (inp : UpdateInput) (out : Outcome) (hret : update ext cfg st inp = Except.ok out)
    (hstatus : out.status ≠ 0) :
    out.state = st ∧
    getLastEstimate out.state = getLastEstimate st ∧
    getLastEstimateMatchesNumber out.state = getLastEstimateMatchesNumber st ∧
    getLastEstimateReprojectionError out.state = getLastEstimateReprojectionError st ∧
    hasEstimate out.state = hasEstimate st := by
  have key : out.state = st := by
    unfold update at hret
    simp only at hret
    split_ifs at hret
    · cases hret; rfl
    · cases hret; rfl
    · split at hret
      · cases hret
      · split_ifs at hret
        · cases hret; rfl
        · split at hret
          · cases hret
          · split_ifs at hret
            · cases hret; rfl
            · exact solveAndGate_state_of_status_ne_zero _ _ _ _ _ _ _ _ _ hret hstatus
  rw [key]
  exact ⟨rfl, rfl, rfl, rfl, rfl⟩

/-- Inversion of `update`: a call that returns has gone through the depth repair and the
construction of the correspondences, both with status 0, and returns what the rest of the
body returns. -/
theorem update_ok_inv (ext : Ext) (cfg : Config) (st : EstimatorState) (inp : UpdateInput)
    (out : Outcome) (hret : update ext cfg st inp = Except.ok out) :
    ∃ depth good p3 p2,
      depthRepairStage ext cfg inp = Except.ok (0, depth, good) ∧
      get3dPositionsAndImagePositions ext good inp.fixedKeypoints inp.arcoreKeypoints depth
        inp.fixedCameraMatrix = Except.ok (0, p3, p2) ∧
      solveAndGate ext cfg st inp depth good p3 p2 = Except.ok out := by
  unfold update at hret
  simp only [findOrbMatches, filterMatches, lt_self_iff_false, if_false] at hret
  split at hret
  · cases hret
  · rename_i fixed hfixed
    have hf := fixMatchesDepthOrDrop_status _ _ _ _ _ hfixed
    rw [if_neg (by omega)] at hret
    split at hret
    · cases hret
    · rename_i corr hcorr
      have hc := get3dPositionsAndImagePositions_length _ _ _ _ _ _ _ hcorr
      rw [if_neg (by omega)] at hret
      refine ⟨fixed.2.1, fixed.2.2, corr.2.1, corr.2.2, ?_, ?_, hret⟩
      · unfold depthRepairStage
        simp only [findOrbMatches, filterMatches]
        rw [hfixed, ← hf]
      · rw [hcorr, ← hc.1]

/-- Forward reading of `update`: once the depth repair and the construction of the
correspondences have returned, `update` is the rest of its body. -/
theorem update_eq_solveAndGate (ext : Ext) (cfg : Config) (st : EstimatorState)
    (inp : UpdateInput) (depth : DepthImage) (good : List DMatch) (p3 : List Point3f)
    (p2 : List Point2f)
    (hfix : depthRepairStage ext cfg inp = Except.ok (0, depth, good))
    (hcorr : get3dPositionsAndImagePositions ext good inp.fixedKeypoints inp.arcoreKeypoints depth
      inp.fixedCameraMatrix = Except.ok (0, p3, p2)) :
    update ext cfg st inp = solveAndGate ext cfg st inp depth good p3 p2 := by
  unfold depthRepairStage at hfix
  simp only [findOrbMatches, filterMatches] at hfix
  unfold update
  simp only [findOrbMatches, filterMatches, lt_self_iff_false, if_false]
  rw [hfix]
  simp only [lt_self_iff_false, if_false]
  rw [hcorr]
  simp only [lt_self_iff_false, if_false]

/-- Past the match-count gate, `update` returns what the last part of its body returns on
the computed reprojection error. -/
theorem update_eq_acceptOrReject (ext : Ext) (cfg : Config) (st : EstimatorState)
    (inp : UpdateInput) (depth : DepthImage) (good : List DMatch) (p3 : List Point3f)
    (p2 : List Point2f) (e : ℚ) (hreach : ReachesSolver ext cfg inp depth good p3 p2)
    (herr : reprojErrorOf ext inp (solverCallOf ext st p3 p2)
      (solverResultOf ext cfg inp (solverCallOf ext st p3 p2)) = Except.ok e) :
    update ext cfg st inp = Except.ok (acceptOrReject ext cfg st inp depth good
      (solverCallOf ext st p3 p2) (solverResultOf ext cfg inp (solverCallOf ext st p3 p2)) e) := by
  rw [update_eq_solveAndGate ext cfg st inp depth good p3 p2 hreach.1 hreach.2.1]
  unfold solveAndGate
  rw [if_neg hreach.2.2]
  unfold reprojErrorOf solverResultOf solverCallOf at herr
  simp only at herr ⊢
  rw [herr]
  rfl

/-- Inversion of the middle part of `update`. -/
theorem solveAndGate_ok_inv (ext : Ext) (cfg : Config) (st : EstimatorState)
    (inp : UpdateInput) (depth : DepthImage) (good : List DMatch) (p3 : List Point3f)
    (p2 : List Point2f) (out : Outcome)
    (hret : solveAndGate ext cfg st inp depth good p3 p2 = Except.ok out) :
    ((good.length < 4 ∨ good.length < cfg.minimumMatchesNumber) ∧ out = ⟨1, st, depth, []⟩) ∨
    (¬ (good.length < 4 ∨ good.length < cfg.minimumMatchesNumber) ∧
      ∃ e, reprojErrorOf ext inp (solverCallOf ext st p3 p2)
          (solverResultOf ext cfg inp (solverCallOf ext st p3 p2)) = Except.ok e ∧
        out = acceptOrReject ext cfg st inp depth good (solverCallOf ext st p3 p2)
          (solverResultOf ext cfg inp (solverCallOf ext st p3 p2)) e) := by
  unfold solveAndGate at hret
  by_cases hc : good.length < 4 ∨ good.length < cfg.minimumMatchesNumber
  · rw [if_pos hc] at hret
    cases hret
    exact Or.inl ⟨hc, rfl⟩
  · rw [if_neg hc] at hret
    simp only at hret
    split at hret
    · cases hret
    · rename_i e he
      cases hret
      exact Or.inr ⟨hc, e, he, rfl⟩

/-- Every path through the last part of `update` has invoked the solver exactly once. -/
theorem acceptOrReject_solverCalls (ext : Ext) (cfg : Config) (st : EstimatorState)
    (inp : UpdateInput) (depth : DepthImage) (goodMatches : List DMatch) (call : SolverCall)
    (pnp : PnPResult) (reprojError : ℚ) :
    (acceptOrReject ext cfg st inp depth goodMatches call pnp reprojError).solverCalls
      = [call] := by
  simp only [acceptOrReject]
  split_ifs <;> rfl

/-- Rounding of a whole number. -/
theorem cvRound_natCast (n : Nat) : cvRound (n : ℚ) = n := by
  unfold cvRound
  simp

/-- The filter keeps all five matches of the scenario. -/
theorem demo_filterMatches : (filterMatches demoConfig demoMatches []).2 = demoMatches := by
  simp [filterMatches, demoMatches, demoConfig]
  norm_num

/-- Depth repair in the scenario: no sample is zero, all matches are kept. -/
theorem demo_depthRepairStage :
    depthRepairStage demoExt demoConfig demoInput = Except.ok (0, demoDepth, demoMatches) := by
  unfold depthRepairStage
  simp only [findOrbMatches]
  have hm : demoExt.bfMatch demoInput.arcoreDescriptors demoInput.fixedDescriptors
      = demoMatches := rfl
  rw [hm, demo_filterMatches]
  simp [fixMatchesDepthOrDrop, fixMatchesLoop, fixMatchStep, demoMatches, demoInput,
    demoFixedKeypoints, atIdx, demoKeyPoint, DepthImage.atF, DepthImage.atI, demoDepth]

/-- The correspondences of the scenario. -/
theorem demo_get3dPositionsAndImagePositions :
    get3dPositionsAndImagePositions demoExt demoMatches demoFixedKeypoints demoArcoreKeypoints
      demoDepth demoCamera = Except.ok (0, demoPos3d, demoImgPos) := by
  simp [get3dPositionsAndImagePositions, get3dLoop, demoMatches, demoFixedKeypoints,
    demoArcoreKeypoints, atIdx, demoKeyPoint, DepthImage.atF, DepthImage.atI, demoDepth,
    get3dPoint, demoExt, demoCamera, demoPos3d, demoImgPos]

/-- The scenario gets past the match-count gate with its five matches. -/
theorem demo_reachesSolver :
    ReachesSolver demoExt demoConfig demoInput demoDepth demoMatches demoPos3d demoImgPos := by
  refine ⟨demo_depthRepairStage, demo_get3dPositionsAndImagePositions, ?_⟩
  simp [demoMatches, demoConfig]

/-- The reprojection error accumulated in the scenario: four inliers at distance 3, divided
by the five projected points. -/
theorem demo_reprojErrorOf :
    reprojErrorOf demoExt demoInput (solverCallOf demoExt demoState demoPos3d demoImgPos)
      (solverResultOf demoExt demoConfig demoInput
        (solverCallOf demoExt demoState demoPos3d demoImgPos)) = Except.ok (12 / 5) := by
  simp [reprojErrorOf, solverResultOf, solverCallOf, demoExt, reprojErrorLoop, atIdx,
    demoPos3d, demoImgPos, demoProject, demoInput, demoCamera]
  norm_num

/-- Statuses of the last part of `update`. -/
theorem acceptOrReject_status_cases (ext : Ext) (cfg : Config) (st : EstimatorState)
    (inp : UpdateInput) (depth : DepthImage) (goodMatches : List DMatch) (call : SolverCall)
    (pnp : PnPResult) (reprojError : ℚ) :
    (acceptOrReject ext cfg st inp depth goodMatches call pnp reprojError).status = 0 ∨
    (acceptOrReject ext cfg st inp depth goodMatches call pnp reprojError).status = 2 ∨
    (acceptOrReject ext cfg st inp depth goodMatches call pnp reprojError).status = 3 ∨
    (acceptOrReject ext cfg st inp depth goodMatches call pnp reprojError).status = -8 := by
  simp only [acceptOrReject]
  split_ifs <;> simp

/-- Statuses that a returning call of `update` can produce. -/
theorem update_status_cases (ext : Ext) (cfg : Config) (st : EstimatorState)
    (inp : UpdateInput) (out : Outcome) (hret : update ext cfg st inp = Except.ok out) :
    out.status = 0 ∨ out.status = 1 ∨ out.status = 2 ∨ out.status = 3 ∨ out.status = -8 := by
  obtain ⟨depth, good, p3, p2, _, _, hsg⟩ := update_ok_inv ext cfg st inp out hret
  rcases solveAndGate_ok_inv ext cfg st inp _ _ p3 p2 out hsg with ⟨_, ho⟩ | ⟨_, e, _, ho⟩
  · rw [ho]
    exact Or.inr (Or.inl rfl)
  · rw [ho]
    rcases acceptOrReject_status_cases ext cfg st inp depth good (solverCallOf ext st p3 p2)
      (solverResultOf ext cfg inp (solverCallOf ext st p3 p2)) e with h | h | h | h
    · exact Or.inl h
    · exact Or.inr (Or.inr (Or.inl h))
    · exact Or.inr (Or.inr (Or.inr (Or.inl h)))
    · exact Or.inr (Or.inr (Or.inr (Or.inr h)))

/-- With the three matches of `fewMatchesExt`, `update` returns status 1 on every input
that carries the key points and the depth image of the scenario, whatever the members
hold. -/
theorem fewMatches_update_of_keypoints (st : EstimatorState) (inp : UpdateInput)
    (h1 : inp.fixedKeypoints = demoFixedKeypoints)
    (h2 : inp.arcoreKeypoints = demoArcoreKeypoints) (h3 : inp.kinectDepthImage = demoDepth) :
    update fewMatchesExt demoConfig st inp = Except.ok ⟨1, st, demoDepth, []⟩ := by
  have hfix : depthRepairStage fewMatchesExt demoConfig inp
      = Except.ok (0, demoDepth, demoMatches.take 3) := by
    unfold depthRepairStage
    simp only [findOrbMatches]
    have hm : fewMatchesExt.bfMatch inp.arcoreDescriptors inp.fixedDescriptors
        = demoMatches.take 3 := rfl
    have hf : (filterMatches demoConfig (demoMatches.take 3) []).2 = demoMatches.take 3 := by
      simp [filterMatches, demoMatches, demoConfig]
      norm_num
    rw [hm, hf, h1, h3]
    simp [fixMatchesDepthOrDrop, fixMatchesLoop, fixMatchStep, demoMatches,
      demoFixedKeypoints, atIdx, demoKeyPoint, DepthImage.atF, DepthImage.atI, demoDepth]
  have hrange : MatchesInRange inp.fixedKeypoints inp.arcoreKeypoints
      (demoMatches.take 3) := by
    rw [h1, h2]
    decide
  obtain ⟨p3, p2, hcorr, _, _⟩ := get3dPositionsAndImagePositions_ok fewMatchesExt
    inp.fixedKeypoints inp.arcoreKeypoints demoDepth inp.fixedCameraMatrix _ hrange
  rw [update_eq_solveAndGate fewMatchesExt demoConfig st inp demoDepth (demoMatches.take 3)
    p3 p2 hfix hcorr]
  simp [solveAndGate, demoMatches]

/-- With three surviving matches `update` returns status 1 whatever the members hold. -/
theorem fewMatches_update (st : EstimatorState) :
    update fewMatchesExt demoConfig st demoInput = Except.ok ⟨1, st, demoDepth, []⟩ :=
  fewMatches_update_of_keypoints st demoInput rfl rfl rfl

/-- Decoding of the feature message of the scenario. -/
theorem fewMatches_readReceivedMessages_features :
    readReceivedMessages_features fewMatchesExt demoFeaturesMsg demoImageMsg demoImageMsg
      demoCameraInfo DecodedFeatures.default
    = (0, ⟨demoCamera, ⟨5, 32, 1, [1]⟩, demoArcoreKeypoints, 640, 480, demoCamera,
        ⟨1, 1, 1, [1]⟩, demoDepth, convertPhonePose fewMatchesExt Transform.identity,
        Mat.default⟩) := by
  simp [readReceivedMessages_features, demoFeaturesMsg, demoImageMsg, demoCameraInfo,
    DecodedFeatures.default, fewMatchesExt, demoExt, Mat.noData, arcoreCameraMatrixOf,
    kinectCameraMatrixOf, demoCamera, KeypointMsg.toKeyPoint, demoArcoreKeypoints, demoKeyPoint,
    demoDepth, Mat.default]

/-- The feature callback on the scenario with three matches: `update` is invoked, returns 1,
and the callback returns 10. -/
theorem fewMatches_featuresCallback :
    featuresCallback fewMatchesExt demoConfig demoState demoFeaturesMsg demoImageMsg
      demoImageMsg demoCameraInfo
      = Except.ok ⟨10, demoState, [⟨1, demoState, demoDepth, []⟩]⟩ := by
  unfold featuresCallback
  simp only [fewMatches_readReceivedMessages_features]
  have horb : computeOrbFeatures fewMatchesExt demoConfig ⟨1, 1, 1, [1]⟩ Mat.default
      = (0, demoFixedKeypoints, ⟨5, 32, 1, [1]⟩) := by
    simp [computeOrbFeatures, fewMatchesExt, demoExt, demoFixedKeypoints, Mat.empty]
  simp only [horb]
  rw [fewMatches_update_of_keypoints demoState _ rfl rfl rfl]
  simp

/-- The scenario is accepted: status 0, five matches and reprojection error 12/5 stored. -/
theorem demo_update :
    update demoExt demoConfig demoState demoInput
      = Except.ok ⟨0, demoAccepted, demoDepth,
          [solverCallOf demoExt demoState demoPos3d demoImgPos]⟩ := by
  rw [update_eq_acceptOrReject demoExt demoConfig demoState demoInput demoDepth demoMatches
    demoPos3d demoImgPos (12 / 5) demo_reachesSolver demo_reprojErrorOf]
  simp [acceptOrReject, demoConfig, demoExt, solverResultOf, phoneToCameraRotationAngle,
    angle, phoneOpticalAxis, Transform.rotationOnly, Transform.apply, Transform.inverse,
    Transform.mul, Matrix3x3.mul, Matrix3x3.tdotx, Matrix3x3.tdoty, Matrix3x3.tdotz,
    Matrix3x3.identity, Matrix3x3.transpose, Matrix3x3.mulVec, Vector3.dot, Vector3.add,
    Vector3.zero, Vector3.length2, Vector3.neg, demoAccepted, demoArcoreWorld, demoInput,
    demoPhonePose, demoKinectToWorld, demoMatches, getARDeviceId, Vec3d.zero]
  norm_num

/-- Closed form of the accumulation loop: whenever it returns, the result is the start
value plus the sum of the inlier distances divided by the number of projected points. -/
theorem reprojErrorLoop_eq (ext : Ext) (imgPos reprojPoints : List Point2f)
    (inliers : List Int) :
    ∀ (acc e : ℚ), reprojErrorLoop ext imgPos reprojPoints inliers acc = Except.ok e →
      e = acc + inlierDistanceSum ext imgPos reprojPoints inliers / reprojPoints.length := by
  induction inliers with
  | nil =>
    intro acc e h
    simp only [reprojErrorLoop] at h
    cases h
    simp [inlierDistanceSum]
  | cons i rest ih =>
    intro acc e h
    rw [reprojErrorLoop] at h
    split at h
    · cases h
    · rename_i pix hpix
      split at h
      · cases h
      · rename_i rp hrp
        have hrec := ih _ _ h
        rw [hrec]
        simp only [inlierDistanceSum, List.map_cons, List.sum_cons, pixelDistance, hpix, hrp]
        ring

/-- C4, the code at the failing input: with five correspondences of which four are inliers
at pixel distance 3 each, `update` accepts the frame and stores the reprojection error
12/5 (the sum 12 divided by the five projected points), whereas the mean over the inliers
is 3, which is above the discard threshold 5/2. -/
theorem reprojError_not_inlier_mean_demo :
    update demoExt demoConfig demoState demoInput
      = Except.ok ⟨0, demoAccepted, demoDepth,
          [solverCallOf demoExt demoState demoPos3d demoImgPos]⟩ ∧
    (solverResultOf demoExt demoConfig demoInput
      (solverCallOf demoExt demoState demoPos3d demoImgPos)).inliers = [0, 1, 2, 3] ∧
    getLastEstimateReprojectionError demoAccepted = 12 / 5 ∧
    meanInlierDistance demoExt demoImgPos
      (demoExt.projectPoints demoPos3d Vec3d.zero Vec3d.zero demoCamera) [0, 1, 2, 3] = 3 ∧
    demoConfig.reprojectionErrorDiscardThreshold = 5 / 2 := by
  refine ⟨demo_update, rfl, rfl, ?_, rfl⟩
  simp [meanInlierDistance, inlierDistanceSum, pixelDistance, atIdx, demoExt, demoImgPos,
    demoPos3d, demoProject, demoCamera]
  norm_num

/-- C5: for an input that reaches the pose solver, `update` returns status 2 exactly when
the computed reprojection error is strictly greater than
`reprojectionErrorDiscardThreshold`; an error at or below the threshold is never rejected
with status 2. -/
theorem update_status_two_iff (ext : Ext) (cfg : Config) (st : EstimatorState)
    (inp : UpdateInput) (depth : DepthImage) (good : List DMatch) (p3 : List Point3f)
    (p2 : List Point2f) (e : ℚ) (hreach : ReachesSolver ext cfg inp depth good p3 p2)
    (herr : reprojErrorOf ext inp (solverCallOf ext st p3 p2)
      (solverResultOf ext cfg inp (solverCallOf ext st p3 p2)) = Except.ok e) :
    ∃ out, update ext cfg st inp = Except.ok out ∧
      (out.status = 2 ↔ e > cfg.reprojectionErrorDiscardThreshold) ∧
      (e ≤ cfg.reprojectionErrorDiscardThreshold → out.status ≠ 2) := by
  refine ⟨_, update_eq_acceptOrReject ext cfg st inp depth good p3 p2 e hreach herr, ?_, ?_⟩
  · simp only [acceptOrReject]
    split_ifs with h1 h2 h3 <;> simp [h1]
  · intro hle
    simp only [acceptOrReject]
    rw [if_neg (not_lt.mpr hle)]
    split_ifs <;> simp

/-- Witness of C5: in the scenario the computed error 12/5 is at most the threshold 5/2 and
the returned status is not 2. -/
theorem update_status_two_iff_witness :
    ReachesSolver demoExt demoConfig demoInput demoDepth demoMatches demoPos3d demoImgPos ∧
    ∃ out, update demoExt demoConfig demoState demoInput = Except.ok out ∧
      (out.status = 2 ↔ (12 / 5 : ℚ) > demoConfig.reprojectionErrorDiscardThreshold) :=
  ⟨demo_reachesSolver,
    (update_status_two_iff demoExt demoConfig demoState demoInput demoDepth demoMatches
      demoPos3d demoImgPos (12 / 5) demo_reachesSolver demo_reprojErrorOf).imp
      (fun _ h => ⟨h.1, h.2.1⟩)⟩

/-- The last part of `update` returns 0 only on the path that writes the estimate. -/
theorem acceptOrReject_of_status_zero (ext : Ext) (cfg : Config) (st : EstimatorState)
    (inp : UpdateInput) (depth : DepthImage) (goodMatches : List DMatch) (call : SolverCall)
    (pnp : PnPResult) (reprojError : ℚ)
    (h : (acceptOrReject ext cfg st inp depth goodMatches call pnp reprojError).status = 0) :
    (acceptOrReject ext cfg st inp depth goodMatches call pnp reprojError).state
      = acceptedState cfg inp (arcoreWorldOf ext cfg inp pnp) goodMatches.length
          reprojError := by
  simp only [acceptOrReject] at h ⊢
  split_ifs at h ⊢ <;> first | rfl | simp at h

/-- Inversion of an accepting call of `update`: it went past the match-count gate, the
reprojection error was computed, and the members are those written on acceptance. -/
theorem update_accept_inv (ext : Ext) (cfg : Config) (st : EstimatorState)
    (inp : UpdateInput) (out : Outcome) (hret : update ext cfg st inp = Except.ok out)
    (h0 : out.status = 0) :
    ∃ depth good p3 p2 e, ReachesSolver ext cfg inp depth good p3 p2 ∧
      reprojErrorOf ext inp (solverCallOf ext st p3 p2)
        (solverResultOf ext cfg inp (solverCallOf ext st p3 p2)) = Except.ok e ∧
      out.solverCalls = [solverCallOf ext st p3 p2] ∧
      out.state = acceptedState cfg inp
        (arcoreWorldOf ext cfg inp (solverResultOf ext cfg inp (solverCallOf ext st p3 p2)))
        good.length e := by
  obtain ⟨depth, good, p3, p2, hfix, hcorr, hsg⟩ := update_ok_inv ext cfg st inp out hret
  rcases solveAndGate_ok_inv ext cfg st inp _ _ p3 p2 out hsg with ⟨_, ho⟩ | ⟨hc, e, he, ho⟩
  · rw [ho] at h0
    simp at h0
  · refine ⟨depth, good, p3, p2, e, ⟨hfix, hcorr, hc⟩, he, ?_, ?_⟩
    · rw [ho, acceptOrReject_solverCalls]
    · rw [ho] at h0 ⊢
      exact acceptOrReject_of_status_zero _ _ _ _ _ _ _ _ _ h0

/-- C8: whenever `update` returns 0, `hasEstimate` is true afterwards and `lastEstimate` is
the transform `(T_cameraToWorld * inverse(solverPose)) * inverse(devicePose)` for the pose
returned by the solver invocation of that call, stamped with the input time stamp. -/
theorem update_accept_lastEstimate (ext : Ext) (cfg : Config) (st : EstimatorState)
    (inp : UpdateInput) (out : Outcome) (hret : update ext cfg st inp = Except.ok out)
    (h0 : out.status = 0) :
    hasEstimate out.state = true ∧
    ∃ call, out.solverCalls = [call] ∧
      (getLastEstimate out.state).stamp = inp.timestamp ∧
      (getLastEstimate out.state).transform =
        (cfg.transformKinectToWorld.transform.mul
          (ext.opencvPoseToEigenPose (solverResultOf ext cfg inp call).rvec
            (solverResultOf ext cfg inp call).tvec).inverse).mul
          inp.phonePoseArcoreFrameConverted.inverse := by
  obtain ⟨depth, good, p3, p2, e, _, _, hcalls, hstate⟩ :=
    update_accept_inv ext cfg st inp out hret h0
  rw [hstate]
  exact ⟨rfl, _, hcalls, rfl, rfl⟩

/-- Witness of C8: the accepted scenario. -/
theorem update_accept_lastEstimate_witness :
    update demoExt demoConfig demoState demoInput
      = Except.ok ⟨0, demoAccepted, demoDepth,
          [solverCallOf demoExt demoState demoPos3d demoImgPos]⟩ ∧
    hasEstimate demoAccepted = true ∧
    ∃ call, [solverCallOf demoExt demoState demoPos3d demoImgPos] = [call] ∧
      (getLastEstimate demoAccepted).stamp = demoInput.timestamp ∧
      (getLastEstimate demoAccepted).transform =
        (demoConfig.transformKinectToWorld.transform.mul
          (demoExt.opencvPoseToEigenPose (solverResultOf demoExt demoConfig demoInput call).rvec
            (solverResultOf demoExt demoConfig demoInput call).tvec).inverse).mul
          demoInput.phonePoseArcoreFrameConverted.inverse :=
  ⟨demo_update, update_accept_lastEstimate demoExt demoConfig demoState demoInput _
    demo_update rfl⟩

/-- C9, counterexample: the accepted scenario stores 5 as `lastEstimateMatchesNumber`, the
number of surviving matches, while the pose solve of that call had 4 inliers. -/
theorem matchesNumber_not_inlier_count_demo :
    update demoExt demoConfig demoState demoInput
      = Except.ok ⟨0, demoAccepted, demoDepth,
          [solverCallOf demoExt demoState demoPos3d demoImgPos]⟩ ∧
    getLastEstimateMatchesNumber demoAccepted = 5 ∧
    (solverResultOf demoExt demoConfig demoInput
      (solverCallOf demoExt demoState demoPos3d demoImgPos)).inliers.length = 4 ∧
    getLastEstimateMatchesNumber demoAccepted ≠
      (solverResultOf demoExt demoConfig demoInput
        (solverCallOf demoExt demoState demoPos3d demoImgPos)).inliers.length :=
  ⟨demo_update, rfl, rfl, by decide⟩

/-- C9 as amended: whenever `update` returns 0, `getLastEstimateMatchesNumber` is the number
of matches that survived the depth repair in that call, which is the number of
correspondences handed to the solver, and `getLastEstimateReprojectionError` is the
reprojection error computed in that call. -/
theorem update_accept_diagnostics (ext : Ext) (cfg : Config) (st : EstimatorState)
    (inp : UpdateInput) (out : Outcome) (hret : update ext cfg st inp = Except.ok out)
    (h0 : out.status = 0) :
    ∃ depth good call e,
      depthRepairStage ext cfg inp = Except.ok (0, depth, good) ∧
      out.solverCalls = [call] ∧
      reprojErrorOf ext inp call (solverResultOf ext cfg inp call) = Except.ok e ∧
      getLastEstimateMatchesNumber out.state = good.length ∧
      getLastEstimateMatchesNumber out.state = call.objectPoints.length ∧
      getLastEstimateReprojectionError out.state = e := by
  obtain ⟨depth, good, p3, p2, e, hreach, herr, hcalls, hstate⟩ :=
    update_accept_inv ext cfg st inp out hret h0
  have hlen := get3dPositionsAndImagePositions_length _ _ _ _ _ _ _ hreach.2.1
  refine ⟨depth, good, _, e, hreach.1, hcalls, herr, ?_, ?_, ?_⟩
  · rw [hstate]
    rfl
  · rw [hstate]
    simp only [getLastEstimateMatchesNumber, solverCallOf, acceptedState]
    simp only at hlen
    rw [hlen.2.1]
  · rw [hstate]
    rfl

/-- Witness of the amended C9: the accepted scenario. -/
theorem update_accept_diagnostics_witness :
    demoAccepted.lastEstimateMatchesNumber = 5 ∧
    ∃ depth good call e,
      depthRepairStage demoExt demoConfig demoInput = Except.ok (0, depth, good) ∧
      [solverCallOf demoExt demoState demoPos3d demoImgPos] = [call] ∧
      reprojErrorOf demoExt demoInput call (solverResultOf demoExt demoConfig demoInput call)
        = Except.ok e ∧
      getLastEstimateMatchesNumber demoAccepted = good.length ∧
      getLastEstimateMatchesNumber demoAccepted = call.objectPoints.length ∧
      getLastEstimateReprojectionError demoAccepted = e :=
  ⟨rfl, update_accept_diagnostics demoExt demoConfig demoState demoInput _ demo_update rfl⟩

/-- Witness of C1: an estimator that holds an accepted estimate rejects a frame with three
matches with status 1 and still holds that estimate. -/
theorem update_nonzero_status_state_unchanged_witness :
    update fewMatchesExt demoConfig demoAccepted demoInput
      = Except.ok ⟨1, demoAccepted, demoDepth, []⟩ ∧
    (1 : Int) ≠ 0 ∧
    (⟨1, demoAccepted, demoDepth, []⟩ : Outcome).state = demoAccepted ∧
    hasEstimate (⟨1, demoAccepted, demoDepth, []⟩ : Outcome).state = hasEstimate demoAccepted :=
  ⟨fewMatches_update demoAccepted, by decide,
    (update_nonzero_status_state_unchanged fewMatchesExt demoConfig demoAccepted demoInput _
      (fewMatches_update demoAccepted) (by decide)).1,
    (update_nonzero_status_state_unchanged fewMatchesExt demoConfig demoAccepted demoInput _
      (fewMatches_update demoAccepted) (by decide)).2.2.2.2⟩

/-- The angle in degrees as the code computes it (with 3.14159 for pi) is at least the angle
in degrees, so an angle above the threshold in degrees is above it for the code. -/
theorem codeAngle_gt_of_degrees_gt (a th : ℚ)
    (h : (th : ℝ) < |(a : ℝ)| * 180 / Real.pi) :
    th < |a| * 180 / (314159 / 100000) := by
  have hpi : (314159 / 100000 : ℝ) < Real.pi := by
    have hd := Real.pi_gt_d6
    norm_num at hd ⊢
    linarith
  have hpos : (0 : ℝ) < 314159 / 100000 := by norm_num
  have hle : |(a : ℝ)| * 180 / Real.pi ≤ |(a : ℝ)| * 180 / (314159 / 100000) := by
    apply div_le_div_of_nonneg_left _ hpos hpi.le
    positivity
  have hreal : (th : ℝ) < |(a : ℝ)| * 180 / (314159 / 100000) := lt_of_lt_of_le h hle
  have hcast : ((|a| * 180 / (314159 / 100000) : ℚ) : ℝ)
      = |(a : ℝ)| * 180 / (314159 / 100000) := by
    push_cast
    rfl
  rw [← hcast] at hreal
  exact_mod_cast hreal

/-- C7: for an input that passes the match-count gate, the reprojection gate and the
pose-validity check, if the angle between the device optical axis (the inverted solver
rotation applied to the unit z vector) and the unit z vector, expressed in degrees, exceeds
`phoneOrientationDifferenceThreshold_deg`, then `update` returns status 3 and leaves the
members unchanged, whatever the reprojection error is. -/
theorem update_orientation_gate (ext : Ext) (cfg : Config) (st : EstimatorState)
    (inp : UpdateInput) (depth : DepthImage) (good : List DMatch) (p3 : List Point3f)
    (p2 : List Point2f) (e : ℚ) (hreach : ReachesSolver ext cfg inp depth good p3 p2)
    (herr : reprojErrorOf ext inp (solverCallOf ext st p3 p2)
      (solverResultOf ext cfg inp (solverCallOf ext st p3 p2)) = Except.ok e)
    (hreproj : e ≤ cfg.reprojectionErrorDiscardThreshold)
    (hvalid : ext.isPoseValid (arcoreWorldOf ext cfg inp
      (solverResultOf ext cfg inp (solverCallOf ext st p3 p2))) = true)
    (hangle : (cfg.phoneOrientationDifferenceThreshold_deg : ℝ) <
      |((angle ext (phoneOpticalAxis (phonePoseKinectOf ext
          (solverResultOf ext cfg inp (solverCallOf ext st p3 p2)))) ⟨0, 0, 1⟩ : ℚ) : ℝ)|
        * 180 / Real.pi) :
    update ext cfg st inp = Except.ok ⟨3, st, depth, [solverCallOf ext st p3 p2]⟩ := by
  have hcode := codeAngle_gt_of_degrees_gt _ _ hangle
  rw [update_eq_acceptOrReject ext cfg st inp depth good p3 p2 e hreach herr]
  simp only [acceptOrReject]
  rw [if_neg (not_lt.mpr hreproj)]
  have hv : ext.isPoseValid ((cfg.transformKinectToWorld.transform.mul
      (ext.opencvPoseToEigenPose (solverResultOf ext cfg inp (solverCallOf ext st p3 p2)).rvec
        (solverResultOf ext cfg inp (solverCallOf ext st p3 p2)).tvec).inverse).mul
      inp.phonePoseArcoreFrameConverted.inverse) = true := hvalid
  rw [hv]
  simp only [Bool.not_true, Bool.false_eq_true, if_false]
  have hc : phoneToCameraRotationAngle ext
      (ext.opencvPoseToEigenPose (solverResultOf ext cfg inp (solverCallOf ext st p3 p2)).rvec
        (solverResultOf ext cfg inp (solverCallOf ext st p3 p2)).tvec).inverse
      > cfg.phoneOrientationDifferenceThreshold_deg := hcode
  rw [if_pos hc]

/-- The tilted scenario has zero reprojection error. -/
theorem tilted_reprojErrorOf :
    reprojErrorOf tiltedExt demoInput (solverCallOf tiltedExt demoState demoPos3d demoImgPos)
      (solverResultOf tiltedExt demoConfig demoInput
        (solverCallOf tiltedExt demoState demoPos3d demoImgPos)) = Except.ok 0 := by
  simp [reprojErrorOf, solverResultOf, solverCallOf, tiltedExt, demoExt, reprojErrorLoop, atIdx,
    demoImgPos]

/-- The angle the tilted scenario computes between the device axis and the z axis, in
radians. -/
theorem tilted_angle :
    angle tiltedExt (phoneOpticalAxis (phonePoseKinectOf tiltedExt
      (solverResultOf tiltedExt demoConfig demoInput
        (solverCallOf tiltedExt demoState demoPos3d demoImgPos)))) ⟨0, 0, 1⟩
      = 1047185 / 1000000 := by
  simp [angle, phoneOpticalAxis, phonePoseKinectOf, tiltedExt, demoExt, tiltedPose,
    Transform.rotationOnly, Transform.apply, Transform.inverse, Matrix3x3.transpose,
    Matrix3x3.mulVec, Vector3.dot, Vector3.add, Vector3.zero, Vector3.length2]
  norm_num

/-- Witness of C7: a device axis turned by 60 degrees, threshold 45 degrees and zero
reprojection error: status 3, members unchanged. -/
theorem update_orientation_gate_witness :
    ReachesSolver tiltedExt demoConfig demoInput demoDepth demoMatches demoPos3d demoImgPos ∧
    (0 : ℚ) ≤ demoConfig.reprojectionErrorDiscardThreshold ∧
    demoConfig.phoneOrientationDifferenceThreshold_deg = 45 ∧
    update tiltedExt demoConfig demoState demoInput
      = Except.ok ⟨3, demoState, demoDepth,
          [solverCallOf tiltedExt demoState demoPos3d demoImgPos]⟩ := by
  have hreach : ReachesSolver tiltedExt demoConfig demoInput demoDepth demoMatches demoPos3d
      demoImgPos := demo_reachesSolver
  have hthr : (0 : ℚ) ≤ demoConfig.reprojectionErrorDiscardThreshold := by
    norm_num [demoConfig]
  refine ⟨hreach, hthr, rfl, ?_⟩
  refine update_orientation_gate tiltedExt demoConfig demoState demoInput demoDepth
    demoMatches demoPos3d demoImgPos 0 hreach tilted_reprojErrorOf hthr rfl ?_
  rw [tilted_angle]
  have hpi := Real.pi_lt_d2
  have hpos := Real.pi_pos
  rw [lt_div_iff₀ hpos]
  have h45 : ((demoConfig.phoneOrientationDifferenceThreshold_deg : ℚ) : ℝ) = 45 := by
    simp [demoConfig]
  rw [h45]
  push_cast
  rw [abs_of_pos (by norm_num)]
  norm_num at hpi ⊢
  linarith

/-- The conversion to a library matrix commutes with the product. -/
theorem Matrix3x3.toMatrix_mul (a b : Matrix3x3) :
    (a.mul b).toMatrix = a.toMatrix * b.toMatrix := by
  ext i j
  fin_cases i <;> fin_cases j <;>
    (simp [Matrix3x3.toMatrix, Matrix3x3.mul, Matrix3x3.tdotx, Matrix3x3.tdoty,
      Matrix3x3.tdotz, Matrix.mul_apply, Fin.sum_univ_three]; ring)

/-- The conversion to a library matrix sends the identity basis to the unit matrix. -/
theorem Matrix3x3.toMatrix_identity : Matrix3x3.identity.toMatrix = 1 := by
  ext i j
  fin_cases i <;> fin_cases j <;> rfl

/-- The conversion to a library matrix loses nothing. -/
theorem Matrix3x3.toMatrix_injective (a b : Matrix3x3) (h : a.toMatrix = b.toMatrix) :
    a = b := by
  have h00 := congrFun (congrFun h 0) 0
  have h01 := congrFun (congrFun h 0) 1
  have h02 := congrFun (congrFun h 0) 2
  have h10 := congrFun (congrFun h 1) 0
  have h11 := congrFun (congrFun h 1) 1
  have h12 := congrFun (congrFun h 1) 2
  have h20 := congrFun (congrFun h 2) 0
  have h21 := congrFun (congrFun h 2) 1
  have h22 := congrFun (congrFun h 2) 2
  simp [Matrix3x3.toMatrix] at h00 h01 h02 h10 h11 h12 h20 h21 h22
  rcases a with ⟨⟨a1, a2, a3⟩, ⟨a4, a5, a6⟩, ⟨a7, a8, a9⟩⟩
  rcases b with ⟨⟨b1, b2, b3⟩, ⟨b4, b5, b6⟩, ⟨b7, b8, b9⟩⟩
  simp_all

/-- For an orthonormal basis the transpose is an inverse on the right as well. -/
theorem Matrix3x3.mul_transpose_of_orthonormal (m : Matrix3x3) (h : m.IsOrthonormal) :
    m.mul m.transpose = Matrix3x3.identity := by
  apply Matrix3x3.toMatrix_injective
  rw [Matrix3x3.toMatrix_mul, Matrix3x3.toMatrix_identity]
  have h1 : m.transpose.toMatrix * m.toMatrix = 1 := by
    rw [← Matrix3x3.toMatrix_mul, ← Matrix3x3.toMatrix_identity]
    exact congrArg Matrix3x3.toMatrix h
  exact Matrix.mul_eq_one_comm.mp h1

/-- Composition of transforms is associative. -/
theorem Transform.mul_assoc (a b c : Transform) : (a.mul b).mul c = a.mul (b.mul c) := by
  rcases a with ⟨⟨⟨a1, a2, a3⟩, ⟨a4, a5, a6⟩, ⟨a7, a8, a9⟩⟩, ⟨a10, a11, a12⟩⟩
  rcases b with ⟨⟨⟨b1, b2, b3⟩, ⟨b4, b5, b6⟩, ⟨b7, b8, b9⟩⟩, ⟨b10, b11, b12⟩⟩
  rcases c with ⟨⟨⟨c1, c2, c3⟩, ⟨c4, c5, c6⟩, ⟨c7, c8, c9⟩⟩, ⟨c10, c11, c12⟩⟩
  simp only [Transform.mul, Transform.apply, Matrix3x3.mul, Matrix3x3.tdotx, Matrix3x3.tdoty,
    Matrix3x3.tdotz, Matrix3x3.mulVec, Vector3.dot, Vector3.add, Transform.mk.injEq,
    Matrix3x3.mk.injEq, Vector3.mk.injEq]
  refine ⟨⟨⟨?_, ?_, ?_⟩, ⟨?_, ?_, ?_⟩, ⟨?_, ?_, ?_⟩⟩, ⟨?_, ?_, ?_⟩⟩ <;> ring

/-- The identity transform is neutral on the right. -/
theorem Transform.mul_identity (a : Transform) : a.mul Transform.identity = a := by
  rcases a with ⟨⟨⟨a1, a2, a3⟩, ⟨a4, a5, a6⟩, ⟨a7, a8, a9⟩⟩, ⟨a10, a11, a12⟩⟩
  simp [Transform.mul, Transform.apply, Transform.identity, Matrix3x3.mul, Matrix3x3.tdotx,
    Matrix3x3.tdoty, Matrix3x3.tdotz, Matrix3x3.mulVec, Vector3.dot, Vector3.add,
    Matrix3x3.identity, Vector3.zero]

/-- The inverse of a rigid pose composed with the pose is the identity. -/
theorem Transform.inverse_mul_self (a : Transform) (h : a.IsRigid) :
    a.inverse.mul a = Transform.identity := by
  have h1 : a.basis.transpose.mul a.basis = Matrix3x3.identity := h
  rcases a with ⟨⟨⟨a1, a2, a3⟩, ⟨a4, a5, a6⟩, ⟨a7, a8, a9⟩⟩, ⟨a10, a11, a12⟩⟩
  simp only [Transform.mul, Transform.inverse, Transform.identity, Transform.mk.injEq]
  refine ⟨h1, ?_⟩
  simp only [Transform.apply, Matrix3x3.transpose, Matrix3x3.mulVec, Vector3.dot, Vector3.add,
    Vector3.neg, Vector3.zero, Vector3.mk.injEq]
  refine ⟨?_, ?_, ?_⟩ <;> ring

/-- A rigid pose composed with its inverse is the identity. -/
theorem Transform.mul_inverse_self (a : Transform) (h : a.IsRigid) :
    a.mul a.inverse = Transform.identity := by
  have h1 : a.basis.mul a.basis.transpose = Matrix3x3.identity :=
    Matrix3x3.mul_transpose_of_orthonormal a.basis h
  rcases a with ⟨⟨⟨a1, a2, a3⟩, ⟨a4, a5, a6⟩, ⟨a7, a8, a9⟩⟩, ⟨a10, a11, a12⟩⟩
  simp only [Transform.mul, Transform.inverse, Transform.identity, Transform.mk.injEq]
  refine ⟨h1, ?_⟩
  simp only [Matrix3x3.mul, Matrix3x3.transpose, Matrix3x3.tdotx, Matrix3x3.tdoty,
    Matrix3x3.tdotz, Matrix3x3.identity, Matrix3x3.mk.injEq, Vector3.mk.injEq] at h1
  obtain ⟨⟨h11, h12, h13⟩, ⟨h21, h22, h23⟩, ⟨h31, h32, h33⟩⟩ := h1
  simp only [Transform.apply, Matrix3x3.transpose, Matrix3x3.mulVec, Vector3.dot, Vector3.add,
    Vector3.neg, Vector3.zero, Vector3.mk.injEq]
  refine ⟨?_, ?_, ?_⟩
  · linear_combination (-a10) * h11 - a11 * h12 - a12 * h13
  · linear_combination (-a10) * h21 - a11 * h22 - a12 * h23
  · linear_combination (-a10) * h31 - a11 * h32 - a12 * h33

/-- C10: for every valid rigid pose `Pa` and every pose `Pr`, the transform
`A = Pr * inverse(Pa)` satisfies `A * Pa = Pr`, and so does the `arcoreWorld` computed by
`update` from `phonePoseTf` and the device self-pose; this rests on a rigid pose composed
with its own inverse, on either side, being the identity transform. -/
theorem arcoreWorld_mul_devicePose (Pa Pr : Transform) (hPa : Pa.IsRigid) :
    (Pr.mul Pa.inverse).mul Pa = Pr ∧
    Pa.inverse.mul Pa = Transform.identity ∧
    Pa.mul Pa.inverse = Transform.identity ∧
    (∀ (ext : Ext) (cfg : Config) (inp : UpdateInput) (pnp : PnPResult),
      inp.phonePoseArcoreFrameConverted = Pa →
      (arcoreWorldOf ext cfg inp pnp).mul Pa = phonePoseTfOf ext cfg pnp) := by
  have hinv := Transform.inverse_mul_self Pa hPa
  have key : ∀ P : Transform, (P.mul Pa.inverse).mul Pa = P := by
    intro P
    rw [Transform.mul_assoc, hinv, Transform.mul_identity]
  refine ⟨key Pr, hinv, Transform.mul_inverse_self Pa hPa, ?_⟩
  intro ext cfg inp pnp hp
  unfold arcoreWorldOf
  rw [hp]
  exact key _

/-- Witness of C10: the device self-pose of the scenario is rigid, and composing the
accepted transform with it gives back the device pose in the world frame. -/
theorem arcoreWorld_mul_devicePose_witness :
    demoPhonePose.IsRigid ∧
    (demoKinectToWorld.transform.mul demoPhonePose.inverse).mul demoPhonePose
      = demoKinectToWorld.transform := by
  have hrigid : demoPhonePose.IsRigid := by
    simp [Transform.IsRigid, Matrix3x3.IsOrthonormal, demoPhonePose, Matrix3x3.mul,
      Matrix3x3.transpose, Matrix3x3.tdotx, Matrix3x3.tdoty, Matrix3x3.tdotz,
      Matrix3x3.identity]
  exact ⟨hrigid, (arcoreWorld_mul_devicePose demoPhonePose demoKinectToWorld.transform
    hrigid).1⟩

/-! ## Properties of the match filter, the depth repair and the correspondences -/

/-- C11: for every list of matches and every `matchingThreshold`, `filterMatches` called
with an empty output returns 0 and leaves in the output exactly the input matches whose
distance is at most the threshold, in their input order and with their multiplicity: no
match above the threshold is kept and none at or below it is dropped. -/
theorem filterMatches_keeps_exactly (cfg : Config) (ms : List DMatch) :
    (filterMatches cfg ms []).1 = 0 ∧
    (filterMatches cfg ms []).2
      = ms.filter (fun m => decide (m.distance ≤ cfg.matchingThreshold)) ∧
    (filterMatches cfg ms []).2.Sublist ms ∧
    (∀ m, m ∈ (filterMatches cfg ms []).2 ↔ m ∈ ms ∧ m.distance ≤ cfg.matchingThreshold) ∧
    (∀ m, (filterMatches cfg ms []).2.count m
      = if m.distance ≤ cfg.matchingThreshold then ms.count m else 0) := by
  have h := filterMatches_snd cfg ms []
  rw [List.nil_append] at h
  refine ⟨rfl, h, ?_, ?_, ?_⟩
  · rw [h]
    exact List.filter_sublist ms
  · intro m
    rw [h, List.mem_filter]
    simp
  · intro m
    rw [h]
    by_cases hm : m.distance ≤ cfg.matchingThreshold
    · rw [if_pos hm]
      exact List.count_filter (by simpa using hm)
    · rw [if_neg hm]
      apply List.count_eq_zero_of_not_mem
      intro hmem
      exact hm (by simpa using (List.mem_filter.mp hmem).2)

/-- C12: for every list of matches and thresholds `t1 ≤ t2`, the matches kept by
`filterMatches` with `matchingThreshold = t1` are a sub-list of those kept with
`matchingThreshold = t2`, and there are at most as many of them. -/
theorem filterMatches_monotone (cfg : Config) (ms : List DMatch) (t1 t2 : ℚ) (h : t1 ≤ t2) :
    (filterMatches { cfg with matchingThreshold := t1 } ms []).2.Sublist
      (filterMatches { cfg with matchingThreshold := t2 } ms []).2 ∧
    (filterMatches { cfg with matchingThreshold := t1 } ms []).2.length ≤
      (filterMatches { cfg with matchingThreshold := t2 } ms []).2.length := by
  have hsub : (filterMatches { cfg with matchingThreshold := t1 } ms []).2.Sublist
      (filterMatches { cfg with matchingThreshold := t2 } ms []).2 := by
    rw [filterMatches_snd, filterMatches_snd]
    simp only [List.nil_append]
    apply List.monotone_filter_right
    intro m hm
    simp only [decide_eq_true_eq] at hm ⊢
    exact le_trans hm h
  exact ⟨hsub, hsub.length_le⟩

/-- Witness of C12: the five matches of the scenario filtered at thresholds 10 and 15; two
are kept at 10, four at 15. -/
theorem filterMatches_monotone_witness :
    (10 : ℚ) ≤ 15 ∧
    (filterMatches { demoConfig with matchingThreshold := 10 } demoMatches []).2.length = 2 ∧
    (filterMatches { demoConfig with matchingThreshold := 15 } demoMatches []).2.length = 4 ∧
    (filterMatches { demoConfig with matchingThreshold := 10 } demoMatches []).2.Sublist
      (filterMatches { demoConfig with matchingThreshold := 15 } demoMatches []).2 := by
  refine ⟨by norm_num, ?_, ?_,
    (filterMatches_monotone demoConfig demoMatches 10 15 (by norm_num)).1⟩
  · simp [filterMatches, demoMatches]
    norm_num
  · simp [filterMatches, demoMatches]
    norm_num

/-- Whenever the correspondence loop returns, it has appended, match by match, the
unprojected fixed-camera pixel and the device pixel. -/
theorem get3dLoop_pointwise (ext : Ext) (kkps akps : List KeyPoint) (img : DepthImage)
    (cam : CameraMatrix) (ms : List DMatch) :
    ∀ (p3 : List Point3f) (p2 : List Point2f) (r : List Point3f × List Point2f),
      get3dLoop ext kkps akps img cam ms p3 p2 = Except.ok r →
      ∃ q3 q2, r.1 = p3 ++ q3 ∧ r.2 = p2 ++ q2 ∧
        List.Forall₂ (fun m pt => ∃ kkp, atIdx kkps m.trainIdx = Except.ok kkp ∧
          pt = ext.get3dPoint kkp.pt.x kkp.pt.y (img.atF kkp.pt) cam.m00 cam.m11 cam.m02
            cam.m12) ms q3 ∧
        List.Forall₂ (fun m pt => ∃ akp, atIdx akps m.queryIdx = Except.ok akp ∧ pt = akp.pt)
          ms q2 := by
  induction ms with
  | nil =>
    intro p3 p2 r h
    simp only [get3dLoop] at h
    cases h
    exact ⟨[], [], by simp, by simp, List.Forall₂.nil, List.Forall₂.nil⟩
  | cons m rest ih =>
    intro p3 p2 r h
    rw [get3dLoop] at h
    split at h
    · cases h
    · rename_i kkp hk
      split at h
      · cases h
      · rename_i akp ha
        obtain ⟨q3, q2, h3, h2, f3, f2⟩ := ih _ _ _ h
        refine ⟨_ :: q3, akp.pt :: q2, ?_, ?_, List.Forall₂.cons ⟨kkp, hk, rfl⟩ f3,
          List.Forall₂.cons ⟨akp, ha, rfl⟩ f2⟩
        · rw [h3]; simp
        · rw [h2]; simp

/-- C15: for every list of in-range matches, `get3dPositionsAndImagePositions` returns 0 and
two sequences as long as the list of matches; at every index the 2D point is the pixel of
the device key point at `queryIdx` and the 3D point is the unprojection of the fixed-camera
key point at `trainIdx` with the depth `d` stored at that pixel: `X = (px - cx) * d / fx`,
`Y = (py - cy) * d / fy`, `Z = d`, with `fx, fy, cx, cy` the entries (0,0), (1,1), (0,2),
(1,2) of the camera matrix (for the helper `get3dPoint` as the spec describes it). -/
theorem get3dPositionsAndImagePositions_unprojects (ext : Ext) (kkps akps : List KeyPoint)
    (img : DepthImage) (cam : CameraMatrix) (ms : List DMatch)
    (hrange : MatchesInRange kkps akps ms) (hget : ext.get3dPoint = get3dPoint) :
    ∃ p3 p2, get3dPositionsAndImagePositions ext ms kkps akps img cam
        = Except.ok (0, p3, p2) ∧
      p3.length = ms.length ∧ p2.length = ms.length ∧
      ∀ (i : Nat) (hm : i < ms.length) (h3 : i < p3.length) (h2 : i < p2.length),
        ∃ kkp akp, atIdx kkps (ms.get ⟨i, hm⟩).trainIdx = Except.ok kkp ∧
          atIdx akps (ms.get ⟨i, hm⟩).queryIdx = Except.ok akp ∧
          p2.get ⟨i, h2⟩ = akp.pt ∧
          p3.get ⟨i, h3⟩ =
            ⟨(kkp.pt.x - cam.m02) * (img.atF kkp.pt : ℚ) / cam.m00,
             (kkp.pt.y - cam.m12) * (img.atF kkp.pt : ℚ) / cam.m11,
             (img.atF kkp.pt : ℚ)⟩ := by
  obtain ⟨r, hr⟩ := get3dLoop_ok ext kkps akps img cam ms [] [] hrange
  obtain ⟨q3, q2, h3, h2, f3, f2⟩ := get3dLoop_pointwise ext kkps akps img cam ms [] [] r hr
  rw [List.nil_append] at h3 h2
  refine ⟨r.1, r.2, ?_, ?_, ?_, ?_⟩
  · unfold get3dPositionsAndImagePositions
    rw [hr]
  · rw [h3]; exact f3.length_eq.symm
  · rw [h2]; exact f2.length_eq.symm
  · intro i hm hi3 hi2
    subst h3 h2
    obtain ⟨kkp, hk, hp3⟩ := f3.get hm hi3
    obtain ⟨akp, ha, hp2⟩ := f2.get hm hi2
    refine ⟨kkp, akp, hk, ha, hp2, ?_⟩
    rw [hp3, hget]
    rfl

/-- Witness of C15: the five in-range matches of the scenario give five 3D points and five
device pixels. -/
theorem get3dPositionsAndImagePositions_unprojects_witness :
    MatchesInRange demoFixedKeypoints demoArcoreKeypoints demoMatches ∧
    demoExt.get3dPoint = get3dPoint ∧
    ∃ p3 p2, get3dPositionsAndImagePositions demoExt demoMatches demoFixedKeypoints
        demoArcoreKeypoints demoDepth demoCamera = Except.ok (0, p3, p2) ∧
      p3.length = demoMatches.length ∧ p2.length = demoMatches.length := by
  have hrange : MatchesInRange demoFixedKeypoints demoArcoreKeypoints demoMatches := by
    decide
  obtain ⟨p3, p2, h, h3, h2, _⟩ := get3dPositionsAndImagePositions_unprojects demoExt
    demoFixedKeypoints demoArcoreKeypoints demoDepth demoCamera demoMatches hrange rfl
  exact ⟨hrange, rfl, p3, p2, h, h3, h2⟩

/-- The pixels of an image are the integer positions inside its bounds. -/
theorem mem_pixelsOf (img : DepthImage) (p : Point2i) :
    p ∈ pixelsOf img ↔ 0 ≤ p.y ∧ p.y < img.rows ∧ 0 ≤ p.x ∧ p.x < img.cols := by
  unfold pixelsOf
  simp only [List.mem_flatMap, List.mem_range, List.mem_map]
  constructor
  · rintro ⟨r, hr, c, hc, rfl⟩
    simp only
    omega
  · rintro ⟨h1, h2, h3, h4⟩
    refine ⟨p.y.toNat, by omega, p.x.toNat, by omega, ?_⟩
    rcases p with ⟨px, py⟩
    simp only [Point2i.mk.injEq] at h1 h2 h3 h4 ⊢
    omega

/-- The selection `pickMin` finds nothing exactly on the empty list. -/
theorem pickMin_none (key : Point2i → ℚ) (l : List Point2i) :
    pickMin key l = none ↔ l = [] := by
  cases l with
  | nil => simp [pickMin]
  | cons p rest =>
    simp only [pickMin]
    split
    · simp
    · split <;> simp

/-- The selection `pickMin` returns an element of the list with the least key. -/
theorem pickMin_some (key : Point2i → ℚ) (l : List Point2i) (q : Point2i)
    (h : pickMin key l = some q) : q ∈ l ∧ ∀ p ∈ l, key q ≤ key p := by
  induction l generalizing q with
  | nil => simp [pickMin] at h
  | cons a rest ih =>
    simp only [pickMin] at h
    split at h
    · rename_i hnone
      cases h
      rw [pickMin_none] at hnone
      subst hnone
      simp
    · rename_i q0 hq0
      obtain ⟨hm, hle⟩ := ih q0 hq0
      split at h
      · rename_i hlt
        cases h
        refine ⟨List.mem_cons_of_mem _ hm, ?_⟩
        intro p hp
        rcases List.mem_cons.mp hp with rfl | hp
        · exact le_of_lt hlt
        · exact hle p hp
      · rename_i hnlt
        cases h
        refine ⟨List.mem_cons_self _ _, ?_⟩
        intro p hp
        rcases List.mem_cons.mp hp with rfl | hp
        · exact le_refl _
        · exact le_trans (not_lt.mp hnlt) (hle p hp)

/-- One step of the loop of `fixMatchesDepthOrDrop` in terms of the repaired image: the
match is appended exactly when its pixel is non-zero after the repair attempt. -/
theorem fixMatchStep_eq (ext : Ext) (kps : List KeyPoint) (img : DepthImage)
    (out : List DMatch) (m : DMatch) (kp : KeyPoint)
    (hkp : atIdx kps m.trainIdx = Except.ok kp) :
    fixMatchStep ext kps img out m
      = Except.ok (repairedDepthImage ext img kp.pt,
          if (repairedDepthImage ext img kp.pt).atF kp.pt = 0 then out else out ++ [m]) := by
  unfold fixMatchStep repairedDepthImage
  rw [hkp]
  by_cases hz0 : img.atF kp.pt = 0
  · simp only [hz0, if_true]
    split_ifs <;> rfl
  · simp only [hz0, if_false]

/-- Reading back the sample that was just written. -/
theorem DepthImage.atF_set (img : DepthImage) (p : Point2f) (v : Nat) :
    (img.set p v).atF p = v := by
  simp [DepthImage.set, DepthImage.atF, DepthImage.atI]

/-- The repair attempt leaves every non-zero sample as it was. -/
theorem repairedDepthImage_stable (ext : Ext) (img : DepthImage) (imgPos : Point2f)
    (r c : Int) (h : img.px r c ≠ 0) : (repairedDepthImage ext img imgPos).px r c = img.px r c := by
  unfold repairedDepthImage
  split_ifs with hz
  · simp only [DepthImage.set]
    split_ifs with hrc
    · exfalso
      apply h
      rw [hrc.1, hrc.2]
      exact hz
    · rfl
  · rfl

/-- No repair takes place at a pixel whose depth is non-zero. -/
theorem repairedDepthImage_of_ne_zero (ext : Ext) (img : DepthImage) (imgPos : Point2f)
    (h : img.atF imgPos ≠ 0) : repairedDepthImage ext img imgPos = img := by
  unfold repairedDepthImage
  rw [if_neg h]

/-- The loop of `fixMatchesDepthOrDrop` on in-range matches: it returns, the kept matches are
a sub-list of the input, non-zero samples are never changed, every kept match has a non-zero
sample in the final image and every match whose sample was non-zero on entry is kept. -/
theorem fixMatchesLoop_spec (ext : Ext) (kps : List KeyPoint) (ms : List DMatch) :
    ∀ (img : DepthImage) (out : List DMatch),
      (∀ m ∈ ms, 0 ≤ m.trainIdx ∧ m.trainIdx < kps.length) →
      ∃ img1 kept, fixMatchesLoop ext kps ms img out = Except.ok (img1, out ++ kept) ∧
        kept.Sublist ms ∧
        (∀ r c, img.px r c ≠ 0 → img1.px r c = img.px r c) ∧
        (∀ m ∈ kept, ∃ kp, atIdx kps m.trainIdx = Except.ok kp ∧ img1.atF kp.pt ≠ 0) ∧
        (∀ m ∈ ms, ∀ kp, atIdx kps m.trainIdx = Except.ok kp → img.atF kp.pt ≠ 0 →
          m ∈ kept ∧ img1.atF kp.pt = img.atF kp.pt) := by
  induction ms with
  | nil =>
    intro img out _
    refine ⟨img, [], by simp [fixMatchesLoop], List.Sublist.refl _, fun _ _ _ => rfl, ?_, ?_⟩
    · intro m hm
      cases hm
    · intro m hm
      cases hm
  | cons m rest ih =>
    intro img out h
    have hm := h m (List.mem_cons_self _ _)
    have hrest : ∀ x ∈ rest, 0 ≤ x.trainIdx ∧ x.trainIdx < kps.length :=
      fun x hx => h x (List.mem_cons_of_mem _ hx)
    obtain ⟨kp, hkp⟩ := atIdx_ok_of_lt kps m.trainIdx hm.1 hm.2
    have hstep := fixMatchStep_eq ext kps img out m kp hkp
    have hstab := repairedDepthImage_stable ext img kp.pt
    by_cases hz : (repairedDepthImage ext img kp.pt).atF kp.pt = 0
    · rw [if_pos hz] at hstep
      obtain ⟨img2, kept, hk, hsub, hst2, hkept, hnz⟩ :=
        ih (repairedDepthImage ext img kp.pt) out hrest
      refine ⟨img2, kept, ?_, hsub.cons _, ?_, hkept, ?_⟩
      · rw [fixMatchesLoop, hstep]
        exact hk
      · intro r c hrc
        rw [hst2 r c (by rw [hstab r c hrc]; exact hrc), hstab r c hrc]
      · intro x hx kpx hkpx hxnz
        have hxnz1 : (repairedDepthImage ext img kp.pt).atF kpx.pt = img.atF kpx.pt :=
          hstab _ _ hxnz
        rcases List.mem_cons.mp hx with rfl | hx
        · exfalso
          rw [hkp] at hkpx
          cases hkpx
          rw [hxnz1] at hz
          exact hxnz hz
        · obtain ⟨h1, h2⟩ := hnz x hx kpx hkpx (by rw [hxnz1]; exact hxnz)
          exact ⟨h1, by rw [h2, hxnz1]⟩
    · rw [if_neg hz] at hstep
      obtain ⟨img2, kept, hk, hsub, hst2, hkept, hnz⟩ :=
        ih (repairedDepthImage ext img kp.pt) (out ++ [m]) hrest
      refine ⟨img2, m :: kept, ?_, hsub.cons₂ _, ?_, ?_, ?_⟩
      · rw [fixMatchesLoop, hstep]
        simpa using hk
      · intro r c hrc
        rw [hst2 r c (by rw [hstab r c hrc]; exact hrc), hstab r c hrc]
      · intro x hx
        rcases List.mem_cons.mp hx with rfl | hx
        · refine ⟨kp, hkp, ?_⟩
          have : img2.atF kp.pt = (repairedDepthImage ext img kp.pt).atF kp.pt := hst2 _ _ hz
          rw [this]
          exact hz
        · exact hkept x hx
      · intro x hx kpx hkpx hxnz
        have hxnz1 : (repairedDepthImage ext img kp.pt).atF kpx.pt = img.atF kpx.pt :=
          hstab _ _ hxnz
        have h2 : img2.atF kpx.pt = (repairedDepthImage ext img kp.pt).atF kpx.pt :=
          hst2 _ _ (by
            have := hxnz1
            simp only [DepthImage.atF, DepthImage.atI] at this hxnz ⊢
            rw [this]; exact hxnz)
        refine ⟨?_, by rw [h2, hxnz1]⟩
        rcases List.mem_cons.mp hx with rfl | hx
        · exact List.mem_cons_self _ _
        · exact List.mem_cons_of_mem _ (hnz x hx kpx hkpx (by rw [hxnz1]; exact hxnz)).1

/-- Without a non-zero pixel within `maxDist` the first search returns the pixel of the
position itself. -/
theorem findNearestNonZeroPixel_of_none (img : DepthImage) (x y maxDist : ℚ)
    (h : ∀ p ∈ pixelsOf img, img.atI p ≠ 0 → ¬ dist2 p x y ≤ maxDist * maxDist) :
    findNearestNonZeroPixel img x y maxDist = ⟨cvRound x, cvRound y⟩ := by
  have hnil : nearCandidates img x y maxDist = [] := by
    unfold nearCandidates
    rw [List.filter_eq_nil_iff]
    intro p hp
    simp only [decide_eq_true_eq, not_and]
    exact h p hp
  unfold findNearestNonZeroPixel
  rw [hnil]
  rfl

/-- With a non-zero pixel within `maxDist` the first search returns a non-zero pixel within
`maxDist` that is at least as close as every other non-zero pixel. -/
theorem findNearestNonZeroPixel_of_some (img : DepthImage) (x y maxDist : ℚ) (q : Point2i)
    (hq : q ∈ pixelsOf img) (hnz : img.atI q ≠ 0) (hd : dist2 q x y ≤ maxDist * maxDist) :
    findNearestNonZeroPixel img x y maxDist ∈ pixelsOf img ∧
    img.atI (findNearestNonZeroPixel img x y maxDist) ≠ 0 ∧
    dist2 (findNearestNonZeroPixel img x y maxDist) x y ≤ maxDist * maxDist ∧
    ∀ p ∈ pixelsOf img, img.atI p ≠ 0 →
      dist2 (findNearestNonZeroPixel img x y maxDist) x y ≤ dist2 p x y := by
  have hmem : q ∈ nearCandidates img x y maxDist := by
    unfold nearCandidates
    rw [List.mem_filter]
    exact ⟨hq, by simpa using ⟨hnz, hd⟩⟩
  cases hpick : pickMin (fun p => dist2 p x y) (nearCandidates img x y maxDist) with
  | none =>
    rw [pickMin_none] at hpick
    rw [hpick] at hmem
    cases hmem
  | some r =>
    have hr : findNearestNonZeroPixel img x y maxDist = r := by
      unfold findNearestNonZeroPixel
      rw [hpick]
    rw [hr]
    obtain ⟨hrm, hle⟩ := pickMin_some _ _ _ hpick
    unfold nearCandidates at hrm hle
    rw [List.mem_filter] at hrm
    have hrc : img.atI r ≠ 0 ∧ dist2 r x y ≤ maxDist * maxDist := by simpa using hrm.2
    refine ⟨hrm.1, hrc.1, hrc.2, ?_⟩
    intro p hp hpnz
    by_cases hpd : dist2 p x y ≤ maxDist * maxDist
    · exact hle p (List.mem_filter.mpr ⟨hp, by simpa using ⟨hpnz, hpd⟩⟩)
    · exact le_trans hrc.2 (le_of_lt (not_le.mp hpd))

/-- Without a non-zero pixel in the ring the second search returns the pixel of the position
itself. -/
theorem findLowestNonZeroInRing_of_none (img : DepthImage) (x y maxRadius minRadius : ℚ)
    (h : ∀ p ∈ pixelsOf img, img.atI p ≠ 0 →
      ¬ (minRadius * minRadius ≤ dist2 p x y ∧ dist2 p x y ≤ maxRadius * maxRadius)) :
    findLowestNonZeroInRing img x y maxRadius minRadius = ⟨cvRound x, cvRound y⟩ := by
  have hnil : ringCandidates img x y maxRadius minRadius = [] := by
    unfold ringCandidates
    rw [List.filter_eq_nil_iff]
    intro p hp
    simp only [decide_eq_true_eq, not_and]
    intro hnz h1 h2
    exact h p hp hnz ⟨h1, h2⟩
  unfold findLowestNonZeroInRing
  rw [hnil]
  rfl

/-- With a non-zero pixel in the ring the second search returns a non-zero pixel of the ring
whose depth is at most the depth of every other non-zero pixel of the ring. -/
theorem findLowestNonZeroInRing_of_some (img : DepthImage) (x y maxRadius minRadius : ℚ)
    (q : Point2i) (hq : q ∈ pixelsOf img) (hnz : img.atI q ≠ 0)
    (hmin : minRadius * minRadius ≤ dist2 q x y) (hmax : dist2 q x y ≤ maxRadius * maxRadius) :
    findLowestNonZeroInRing img x y maxRadius minRadius ∈ pixelsOf img ∧
    img.atI (findLowestNonZeroInRing img x y maxRadius minRadius) ≠ 0 ∧
    minRadius * minRadius ≤ dist2 (findLowestNonZeroInRing img x y maxRadius minRadius) x y ∧
    dist2 (findLowestNonZeroInRing img x y maxRadius minRadius) x y ≤ maxRadius * maxRadius ∧
    ∀ p ∈ pixelsOf img, img.atI p ≠ 0 → minRadius * minRadius ≤ dist2 p x y →
      dist2 p x y ≤ maxRadius * maxRadius →
      img.atI (findLowestNonZeroInRing img x y maxRadius minRadius) ≤ img.atI p := by
  have hmem : q ∈ ringCandidates img x y maxRadius minRadius := by
    unfold ringCandidates
    rw [List.mem_filter]
    exact ⟨hq, by simpa using ⟨hnz, hmin, hmax⟩⟩
  cases hpick : pickMin (fun p => (img.atI p : ℚ)) (ringCandidates img x y maxRadius minRadius) with
  | none =>
    rw [pickMin_none] at hpick
    rw [hpick] at hmem
    cases hmem
  | some r =>
    have hr : findLowestNonZeroInRing img x y maxRadius minRadius = r := by
      unfold findLowestNonZeroInRing
      rw [hpick]
    rw [hr]
    obtain ⟨hrm, hle⟩ := pickMin_some _ _ _ hpick
    unfold ringCandidates at hrm hle
    rw [List.mem_filter] at hrm
    have hrc : img.atI r ≠ 0 ∧ minRadius * minRadius ≤ dist2 r x y ∧
        dist2 r x y ≤ maxRadius * maxRadius := by simpa using hrm.2
    refine ⟨hrm.1, hrc.1, hrc.2.1, hrc.2.2, ?_⟩
    intro p hp hpnz h1 h2
    have := hle p (List.mem_filter.mpr ⟨hp, by simpa using ⟨hpnz, h1, h2⟩⟩)
    exact_mod_cast this

/-- The repair when the nearest non-zero pixel lies at distance `D`. -/
theorem repairedDepthImage_of_nearest (ext : Ext) (img : DepthImage) (imgPos : Point2f)
    (n : Point2i) (D : ℚ)
    (hnear : ext.findNearestNonZeroPixel = findNearestNonZeroPixel)
    (hring : ext.findLowestNonZeroInRing = findLowestNonZeroInRing)
    (hz : img.atF imgPos = 0) (hD0 : 0 ≤ D) (hD : D ≤ 100)
    (hn : n ∈ pixelsOf img) (hnnz : img.atI n ≠ 0)
    (hnd : dist2 n imgPos.x imgPos.y = D * D)
    (hclosest : ∀ p ∈ pixelsOf img, img.atI p ≠ 0 → D * D ≤ dist2 p imgPos.x imgPos.y)
    (hhypot : ∀ p ∈ pixelsOf img, dist2 p imgPos.x imgPos.y = D * D →
      ext.hypot (p.x - imgPos.x) (p.y - imgPos.y) = D) :
    repairedDepthImage ext img imgPos
      = img.set imgPos (img.atI (findLowestNonZeroInRing img imgPos.x imgPos.y (D + 10) D)) ∧
    findLowestNonZeroInRing img imgPos.x imgPos.y (D + 10) D ∈ pixelsOf img ∧
    img.atI (findLowestNonZeroInRing img imgPos.x imgPos.y (D + 10) D) ≠ 0 ∧
    D * D ≤ dist2 (findLowestNonZeroInRing img imgPos.x imgPos.y (D + 10) D) imgPos.x imgPos.y ∧
    dist2 (findLowestNonZeroInRing img imgPos.x imgPos.y (D + 10) D) imgPos.x imgPos.y
      ≤ (D + 10) * (D + 10) ∧
    (∀ p ∈ pixelsOf img, img.atI p ≠ 0 → D * D ≤ dist2 p imgPos.x imgPos.y →
      dist2 p imgPos.x imgPos.y ≤ (D + 10) * (D + 10) →
      img.atI (findLowestNonZeroInRing img imgPos.x imgPos.y (D + 10) D) ≤ img.atI p) := by
  have hDD : D * D ≤ 100 * 100 := by nlinarith
  obtain ⟨hm, hnz1, _, hmin⟩ := findNearestNonZeroPixel_of_some img imgPos.x imgPos.y 100 n hn
    hnnz (by rw [hnd]; exact hDD)
  have hd1 : dist2 (findNearestNonZeroPixel img imgPos.x imgPos.y 100) imgPos.x imgPos.y
      = D * D :=
    le_antisymm (by rw [← hnd]; exact hmin n hn hnnz) (hclosest _ hm hnz1)
  have hh := hhypot _ hm hd1
  have hmax : dist2 n imgPos.x imgPos.y ≤ (D + 10) * (D + 10) := by
    rw [hnd]; nlinarith
  obtain ⟨h1, h2, h3, h4, h5⟩ := findLowestNonZeroInRing_of_some img imgPos.x imgPos.y
    (D + 10) D n hn hnnz (by rw [hnd]) hmax
  refine ⟨?_, h1, h2, h3, h4, h5⟩
  unfold repairedDepthImage
  rw [if_pos hz, hnear, hring]
  simp only
  rw [hh]

/-- Pixel of the key point at (0, 0). -/
theorem pt00_toPoint2i : (demoKeyPoint 0 0).pt.toPoint2i = ⟨0, 0⟩ := by
  simp [demoKeyPoint, Point2f.toPoint2i, cvRound]

/-- Pixel of the key point at (60, 0). -/
theorem pt60_toPoint2i : (demoKeyPoint 60 0).pt.toPoint2i = ⟨60, 0⟩ := by
  simp [demoKeyPoint, Point2f.toPoint2i, cvRound]

/-- First step on `farImage`: the only known sample lies 120 pixels from (0, 0), beyond the
bound 100; the sample stays zero. -/
theorem far_step_A :
    repairedDepthImage depthExt farImage (demoKeyPoint 0 0).pt
      = farImage.set (demoKeyPoint 0 0).pt 0 := by
  have hz : farImage.atF (demoKeyPoint 0 0).pt = 0 := by
    simp [farImage, DepthImage.atF, DepthImage.atI, demoKeyPoint, Point2f.toPoint2i, cvRound]
  have hnz : ∀ p : Point2i, farImage.atI p ≠ 0 → p = ⟨120, 0⟩ := by
    intro p hp
    rcases p with ⟨px, py⟩
    simp only [farImage, DepthImage.atI] at hp
    by_cases h : py = 0 ∧ px = 120
    · rw [h.1, h.2]
    · rw [if_neg h] at hp
      exact absurd rfl hp
  have hnear : findNearestNonZeroPixel farImage (demoKeyPoint 0 0).pt.x (demoKeyPoint 0 0).pt.y 100
      = ⟨0, 0⟩ := by
    rw [findNearestNonZeroPixel_of_none]
    · simp [demoKeyPoint, cvRound]
    · intro p _ hp
      rw [hnz p hp]
      norm_num [dist2, demoKeyPoint]
  have hring : findLowestNonZeroInRing farImage (demoKeyPoint 0 0).pt.x (demoKeyPoint 0 0).pt.y
      (0 + 10) 0 = ⟨0, 0⟩ := by
    rw [findLowestNonZeroInRing_of_none]
    · simp [demoKeyPoint, cvRound]
    · intro p _ hp
      rw [hnz p hp]
      norm_num [dist2, demoKeyPoint]
  have e1 : depthExt.findNearestNonZeroPixel = findNearestNonZeroPixel := rfl
  have e2 : depthExt.findLowestNonZeroInRing = findLowestNonZeroInRing := rfl
  unfold repairedDepthImage
  rw [if_pos hz, e1, e2]
  simp only
  rw [hnear]
  have hh : depthExt.hypot (((⟨0, 0⟩ : Point2i).x : ℚ) - (demoKeyPoint 0 0).pt.x)
      (((⟨0, 0⟩ : Point2i).y : ℚ) - (demoKeyPoint 0 0).pt.y) = 0 := by
    simp [depthExt, demoExt, demoKeyPoint]
  rw [hh, hring]
  simp [farImage, DepthImage.atI]

/-- The only non-zero sample after the first step is the one at column 120. -/
theorem far_nonzero_A (p : Point2i)
    (hp : (farImage.set (demoKeyPoint 0 0).pt 0).atI p ≠ 0) : p = ⟨120, 0⟩ := by
  rcases p with ⟨px, py⟩
  simp only [farImage, DepthImage.atI, DepthImage.set, pt00_toPoint2i, pt60_toPoint2i] at hp
  by_cases h0 : py = 0 ∧ px = 0
  · rw [if_pos h0] at hp
    exact absurd rfl hp
  · rw [if_neg h0] at hp
    by_cases h : py = 0 ∧ px = 120
    · rw [h.1, h.2]
    · rw [if_neg h] at hp
      exact absurd rfl hp

/-- On a one-row image the scenario distance is exact. -/
theorem far_hypot (x : ℚ) (D : ℚ) (hD : 0 ≤ D) (img : DepthImage) (hrows : img.rows = 1)
    (p : Point2i) (hp : p ∈ pixelsOf img)
    (hd : dist2 p (demoKeyPoint x 0).pt.x (demoKeyPoint x 0).pt.y = D * D) :
    depthExt.hypot (p.x - (demoKeyPoint x 0).pt.x) (p.y - (demoKeyPoint x 0).pt.y) = D := by
  rw [mem_pixelsOf] at hp
  have hy : p.y = 0 := by
    have := hp.2.1
    rw [hrows] at this
    omega
  simp only [dist2, demoKeyPoint, hy, Int.cast_zero, sub_zero, mul_zero, add_zero] at hd
  simp only [depthExt, demoExt, demoKeyPoint, hy, Int.cast_zero, sub_zero, if_true]
  have habs : |(p.x : ℚ) - x| * |(p.x : ℚ) - x| = D * D := by
    rw [abs_mul_abs_self]; exact hd
  have hnn := abs_nonneg ((p.x : ℚ) - x)
  nlinarith

/-- Second step on `farImage`: the sample at column 120 lies at distance 60 of (60, 0) and
repairs that pixel with depth 7. -/
theorem far_step_B :
    repairedDepthImage depthExt (farImage.set (demoKeyPoint 0 0).pt 0) (demoKeyPoint 60 0).pt
      = (farImage.set (demoKeyPoint 0 0).pt 0).set (demoKeyPoint 60 0).pt 7 := by
  have hz : (farImage.set (demoKeyPoint 0 0).pt 0).atF (demoKeyPoint 60 0).pt = 0 := by
    simp [farImage, DepthImage.atF, DepthImage.atI, DepthImage.set, pt00_toPoint2i, pt60_toPoint2i]
  have hn : (⟨120, 0⟩ : Point2i) ∈ pixelsOf (farImage.set (demoKeyPoint 0 0).pt 0) := by
    rw [mem_pixelsOf]; simp [farImage, DepthImage.set]
  have hv : (farImage.set (demoKeyPoint 0 0).pt 0).atI ⟨120, 0⟩ = 7 := by
    simp [farImage, DepthImage.atI, DepthImage.set, pt00_toPoint2i, pt60_toPoint2i]
  obtain ⟨hrep, _, hnz, _, _, _⟩ := repairedDepthImage_of_nearest depthExt
    (farImage.set (demoKeyPoint 0 0).pt 0) (demoKeyPoint 60 0).pt ⟨120, 0⟩ 60 rfl rfl hz
    (by norm_num) (by norm_num) hn (by rw [hv]; decide)
    (by norm_num [dist2, demoKeyPoint])
    (by
      intro p _ hp
      rw [far_nonzero_A p hp]
      norm_num [dist2, demoKeyPoint])
    (fun p hp hd => far_hypot 60 60 (by norm_num) _ rfl p hp hd)
  rw [hrep, far_nonzero_A _ hnz, hv]

/-- The non-zero samples after the second step lie at columns 60 and 120. -/
theorem far_nonzero_B (p : Point2i)
    (hp : ((farImage.set (demoKeyPoint 0 0).pt 0).set (demoKeyPoint 60 0).pt 7).atI p ≠ 0) :
    p = ⟨60, 0⟩ ∨ p = ⟨120, 0⟩ := by
  by_cases h1 : p = ⟨60, 0⟩
  · exact Or.inl h1
  · right
    apply far_nonzero_A
    rcases p with ⟨px, py⟩
    simp only [DepthImage.atI, DepthImage.set, pt00_toPoint2i, pt60_toPoint2i] at hp ⊢
    simp only [Point2i.mk.injEq, not_and] at h1
    have hne : ¬ (py = 0 ∧ px = 60) := by
      rintro ⟨ha, hb⟩
      exact h1 (by simpa using hb) (by simpa using ha)
    rw [if_neg hne] at hp
    exact hp

/-- Third step on `farImage`: pixel (0, 0) is now repaired from the sample at
column 60, at distance 60. -/
theorem far_step_C :
    repairedDepthImage depthExt
        ((farImage.set (demoKeyPoint 0 0).pt 0).set (demoKeyPoint 60 0).pt 7)
        (demoKeyPoint 0 0).pt
      = (((farImage.set (demoKeyPoint 0 0).pt 0).set (demoKeyPoint 60 0).pt 7).set
          (demoKeyPoint 0 0).pt 7) := by
  have hz : ((farImage.set (demoKeyPoint 0 0).pt 0).set (demoKeyPoint 60 0).pt 7).atF
      (demoKeyPoint 0 0).pt = 0 := by
    simp [farImage, DepthImage.atF, DepthImage.atI, DepthImage.set, pt00_toPoint2i, pt60_toPoint2i]
  have hn : (⟨60, 0⟩ : Point2i) ∈
      pixelsOf ((farImage.set (demoKeyPoint 0 0).pt 0).set (demoKeyPoint 60 0).pt 7) := by
    rw [mem_pixelsOf]; simp [farImage, DepthImage.set]
  have hv : ((farImage.set (demoKeyPoint 0 0).pt 0).set (demoKeyPoint 60 0).pt 7).atI ⟨60, 0⟩
      = 7 := by
    simp [DepthImage.atI, DepthImage.set, pt00_toPoint2i, pt60_toPoint2i]
  obtain ⟨hrep, _, hnz, _, hmax, _⟩ := repairedDepthImage_of_nearest depthExt
    ((farImage.set (demoKeyPoint 0 0).pt 0).set (demoKeyPoint 60 0).pt 7)
    (demoKeyPoint 0 0).pt ⟨60, 0⟩ 60 rfl rfl hz
    (by norm_num) (by norm_num) hn (by rw [hv]; decide)
    (by norm_num [dist2, demoKeyPoint])
    (by
      intro p _ hp
      rcases far_nonzero_B p hp with rfl | rfl <;> norm_num [dist2, demoKeyPoint])
    (fun p hp hd => far_hypot 0 60 (by norm_num) _ rfl p hp hd)
  have hlow : findLowestNonZeroInRing
      ((farImage.set (demoKeyPoint 0 0).pt 0).set (demoKeyPoint 60 0).pt 7)
      (demoKeyPoint 0 0).pt.x (demoKeyPoint 0 0).pt.y (60 + 10) 60 = ⟨60, 0⟩ := by
    rcases far_nonzero_B _ hnz with h | h
    · exact h
    · rw [h] at hmax
      norm_num [dist2, demoKeyPoint] at hmax
  rw [hrep, hlow, hv]

/-- Counterexample of C13 as stated: on `farImage` the first match is dropped because nothing
lies within 100 pixels of (0, 0) (the only sample is 120 away); the second match repairs
pixel (60, 0) from that sample, 60 away; the third match, on the same key point as the
first, is then repaired from pixel (60, 0), 60 away. The first match is not
in the output although its pixel holds depth 7 in the image as the call leaves it. -/
theorem fixMatchesDepthOrDrop_dropped_pixel_repaired_later :
    (∀ m ∈ farMatches, 0 ≤ m.trainIdx ∧ m.trainIdx < farKeypoints.length) ∧
    ∃ img1, fixMatchesDepthOrDrop depthExt farMatches farKeypoints farImage
        = Except.ok (0, img1, [⟨1, 1, 0, 10⟩, ⟨2, 0, 0, 10⟩]) ∧
      (⟨0, 0, 0, 10⟩ : DMatch) ∈ farMatches ∧
      (⟨0, 0, 0, 10⟩ : DMatch) ∉ [(⟨1, 1, 0, 10⟩ : DMatch), ⟨2, 0, 0, 10⟩] ∧
      atIdx farKeypoints (⟨0, 0, 0, 10⟩ : DMatch).trainIdx = Except.ok (demoKeyPoint 0 0) ∧
      img1.atF (demoKeyPoint 0 0).pt = 7 := by
  have hk0 : ∀ q : Int, atIdx farKeypoints (⟨q, 0, 0, 10⟩ : DMatch).trainIdx
      = Except.ok (demoKeyPoint 0 0) := by
    intro q; simp [atIdx, farKeypoints]
  have hk1 : atIdx farKeypoints (⟨1, 1, 0, 10⟩ : DMatch).trainIdx
      = Except.ok (demoKeyPoint 60 0) := by
    simp [atIdx, farKeypoints]
  have hA : (farImage.set (demoKeyPoint 0 0).pt 0).atF (demoKeyPoint 0 0).pt = 0 :=
    DepthImage.atF_set _ _ _
  have hB : ((farImage.set (demoKeyPoint 0 0).pt 0).set (demoKeyPoint 60 0).pt 7).atF
      (demoKeyPoint 60 0).pt ≠ 0 := by
    rw [DepthImage.atF_set]; decide
  have hC : (((farImage.set (demoKeyPoint 0 0).pt 0).set (demoKeyPoint 60 0).pt 7).set
      (demoKeyPoint 0 0).pt 7).atF (demoKeyPoint 0 0).pt = 7 := DepthImage.atF_set _ _ _
  refine ⟨by decide, _, ?_, by simp [farMatches], by decide, hk0 0, hC⟩
  unfold fixMatchesDepthOrDrop farMatches
  rw [fixMatchesLoop, fixMatchStep_eq _ _ _ _ _ _ (hk0 0), far_step_A]
  simp only [hA, if_true]
  rw [fixMatchesLoop, fixMatchStep_eq _ _ _ _ _ _ hk1, far_step_B]
  simp only [hB, if_false]
  rw [fixMatchesLoop, fixMatchStep_eq _ _ _ _ _ _ (hk0 2), far_step_C]
  simp only [hC]
  simp [fixMatchesLoop]

/-- The loop of `fixMatchesDepthOrDrop` over a concatenation runs the two parts in turn. -/
theorem fixMatchesLoop_append (ext : Ext) (kps : List KeyPoint) (pre post : List DMatch) :
    ∀ (img : DepthImage) (out : List DMatch),
      fixMatchesLoop ext kps (pre ++ post) img out
        = match fixMatchesLoop ext kps pre img out with
          | Except.error e => Except.error e
          | Except.ok r => fixMatchesLoop ext kps post r.1 r.2 := by
  induction pre with
  | nil => intro img out; rfl
  | cons m rest ih =>
    intro img out
    simp only [List.cons_append, fixMatchesLoop]
    cases hs : fixMatchStep ext kps img out m with
    | error e => rfl
    | ok r => exact ih r.1 r.2

/-- The loop of `fixMatchesDepthOrDrop` around one match of the input: the match is kept
exactly when its sample is non-zero right after its own repair attempt. -/
theorem fixMatchesLoop_split (ext : Ext) (kps : List KeyPoint) (img : DepthImage)
    (pre post : List DMatch) (m : DMatch)
    (h : ∀ x ∈ pre ++ m :: post, 0 ≤ x.trainIdx ∧ x.trainIdx < kps.length) :
    ∃ imgPre keptPre kp img1 keptPost,
      fixMatchesLoop ext kps pre img [] = Except.ok (imgPre, keptPre) ∧
      atIdx kps m.trainIdx = Except.ok kp ∧
      fixMatchesLoop ext kps (pre ++ m :: post) img []
        = Except.ok (img1, keptPre ++
            (if (repairedDepthImage ext imgPre kp.pt).atF kp.pt = 0 then [] else [m])
            ++ keptPost) ∧
      keptPre.Sublist pre ∧ keptPost.Sublist post := by
  have hpre : ∀ x ∈ pre, 0 ≤ x.trainIdx ∧ x.trainIdx < kps.length :=
    fun x hx => h x (List.mem_append_left _ hx)
  have hm : 0 ≤ m.trainIdx ∧ m.trainIdx < kps.length :=
    h m (List.mem_append_right _ (List.mem_cons_self _ _))
  have hpost : ∀ x ∈ post, 0 ≤ x.trainIdx ∧ x.trainIdx < kps.length :=
    fun x hx => h x (List.mem_append_right _ (List.mem_cons_of_mem _ hx))
  obtain ⟨imgPre, keptPre, hk1, hsub1, _, _, _⟩ := fixMatchesLoop_spec ext kps pre img [] hpre
  rw [List.nil_append] at hk1
  obtain ⟨kp, hkp⟩ := atIdx_ok_of_lt kps m.trainIdx hm.1 hm.2
  obtain ⟨img1, keptPost, hk2, hsub2, _, _, _⟩ :=
    fixMatchesLoop_spec ext kps post (repairedDepthImage ext imgPre kp.pt)
      (if (repairedDepthImage ext imgPre kp.pt).atF kp.pt = 0 then keptPre
        else keptPre ++ [m]) hpost
  refine ⟨imgPre, keptPre, kp, img1, keptPost, hk1, hkp, ?_, hsub1, hsub2⟩
  rw [fixMatchesLoop_append, hk1]
  simp only [fixMatchesLoop]
  rw [fixMatchStep_eq ext kps imgPre keptPre m kp hkp]
  simp only
  rw [hk2]
  by_cases hz : (repairedDepthImage ext imgPre kp.pt).atF kp.pt = 0
  · simp only [hz, if_true, List.append_nil]
  · simp only [hz, if_false]

/-- C13, amended: on in-range matches `fixMatchesDepthOrDrop` returns status 0 and a sub-list
of the input in input order; non-zero samples are never changed; every kept match has a
non-zero sample in the image as the call leaves it; a match whose sample was non-zero on
entry is kept with that depth; a match is kept exactly when its sample is non-zero right
after its own repair attempt (a dropped match may see its pixel repaired by a later match);
and every correspondence built from the output and the repaired image has non-zero
depth. -/
theorem fixMatchesDepthOrDrop_keeps_nonzero (ext : Ext) (kps : List KeyPoint)
    (ms : List DMatch) (img : DepthImage)
    (h : ∀ m ∈ ms, 0 ≤ m.trainIdx ∧ m.trainIdx < kps.length) :
    ∃ img1 kept, fixMatchesDepthOrDrop ext ms kps img = Except.ok (0, img1, kept) ∧
      kept.Sublist ms ∧
      (∀ r c, img.px r c ≠ 0 → img1.px r c = img.px r c) ∧
      (∀ m ∈ kept, ∃ kp, atIdx kps m.trainIdx = Except.ok kp ∧ img1.atF kp.pt ≠ 0) ∧
      (∀ m ∈ ms, ∀ kp, atIdx kps m.trainIdx = Except.ok kp → img.atF kp.pt ≠ 0 →
        m ∈ kept ∧ img1.atF kp.pt = img.atF kp.pt) ∧
      (∀ (pre post : List DMatch) (m : DMatch), ms = pre ++ m :: post →
        ∃ imgPre keptPre kp keptPost,
          fixMatchesDepthOrDrop ext pre kps img = Except.ok (0, imgPre, keptPre) ∧
          atIdx kps m.trainIdx = Except.ok kp ∧
          kept = keptPre ++
            (if (repairedDepthImage ext imgPre kp.pt).atF kp.pt = 0 then [] else [m])
            ++ keptPost ∧
          keptPre.Sublist pre ∧ keptPost.Sublist post) ∧
      (∀ (akps : List KeyPoint) (cam : CameraMatrix), MatchesInRange kps akps ms →
        ∃ p3 p2, get3dPositionsAndImagePositions ext kept kps akps img1 cam
            = Except.ok (0, p3, p2) ∧
          List.Forall₂ (fun m pt => ∃ kkp, atIdx kps m.trainIdx = Except.ok kkp ∧
            img1.atF kkp.pt ≠ 0 ∧
            pt = ext.get3dPoint kkp.pt.x kkp.pt.y (img1.atF kkp.pt) cam.m00 cam.m11 cam.m02
              cam.m12) kept p3) := by
  obtain ⟨img1, kept, hk, hsub, hst, hkept, hnz⟩ := fixMatchesLoop_spec ext kps ms img [] h
  rw [List.nil_append] at hk
  refine ⟨img1, kept, ?_, hsub, hst, hkept, hnz, ?_, ?_⟩
  · unfold fixMatchesDepthOrDrop
    rw [hk]
  · intro pre post m hms
    subst hms
    obtain ⟨imgPre, keptPre, kp, img2, keptPost, h1, hkp, h2, hs1, hs2⟩ :=
      fixMatchesLoop_split ext kps img pre post m h
    rw [hk] at h2
    cases h2
    refine ⟨imgPre, keptPre, kp, keptPost, ?_, hkp, rfl, hs1, hs2⟩
    unfold fixMatchesDepthOrDrop
    rw [h1]
  · intro akps cam hrange
    have hrk : MatchesInRange kps akps kept := fun m hm => hrange m (hsub.subset hm)
    obtain ⟨r0, hr0⟩ := get3dLoop_ok ext kps akps img1 cam kept [] [] hrk
    obtain ⟨q3, q2, h3, _, f3, _⟩ := get3dLoop_pointwise ext kps akps img1 cam kept [] [] r0 hr0
    rw [List.nil_append] at h3
    refine ⟨r0.1, r0.2, ?_, ?_⟩
    · unfold get3dPositionsAndImagePositions
      rw [hr0]
    · rw [h3]
      refine List.forall₂_of_length_eq_of_get f3.length_eq ?_
      intro i h1 h2
      obtain ⟨kkp, hkkp, hpt⟩ := f3.get h1 h2
      obtain ⟨kp, hkp, hne⟩ := hkept _ (List.get_mem kept i h1)
      rw [hkkp] at hkp
      cases hkp
      exact ⟨kkp, hkkp, hne, hpt⟩

/-- Witness of C13: the three in-range matches of the `farImage` scenario. -/
theorem fixMatchesDepthOrDrop_keeps_nonzero_witness :
    (∀ m ∈ farMatches, 0 ≤ m.trainIdx ∧ m.trainIdx < farKeypoints.length) ∧
    ∃ img1 kept, fixMatchesDepthOrDrop depthExt farMatches farKeypoints farImage
        = Except.ok (0, img1, kept) ∧
      kept.Sublist farMatches ∧
      (∀ m ∈ kept, ∃ kp, atIdx farKeypoints m.trainIdx = Except.ok kp ∧
        img1.atF kp.pt ≠ 0) := by
  have h : ∀ m ∈ farMatches, 0 ≤ m.trainIdx ∧ m.trainIdx < farKeypoints.length := by
    decide
  obtain ⟨img1, kept, h1, h2, _, h4, _⟩ :=
    fixMatchesDepthOrDrop_keeps_nonzero depthExt farKeypoints farMatches farImage h
  exact ⟨h, img1, kept, h1, h2, h4⟩

/-! ## Properties of the position filter -/

/-- Entry 0 of a column of 9. -/
theorem vec9_0 {α : Type} (a0 a1 a2 a3 a4 a5 a6 a7 a8 : α) :
    (![a0, a1, a2, a3, a4, a5, a6, a7, a8] : Fin 9 → α) 0 = a0 := rfl

/-- Entry 1 of a column of 9. -/
theorem vec9_1 {α : Type} (a0 a1 a2 a3 a4 a5 a6 a7 a8 : α) :
    (![a0, a1, a2, a3, a4, a5, a6, a7, a8] : Fin 9 → α) 1 = a1 := rfl

/-- Entry 2 of a column of 9. -/
theorem vec9_2 {α : Type} (a0 a1 a2 a3 a4 a5 a6 a7 a8 : α) :
    (![a0, a1, a2, a3, a4, a5, a6, a7, a8] : Fin 9 → α) 2 = a2 := rfl

/-- Entry 3 of a column of 9. -/
theorem vec9_3 {α : Type} (a0 a1 a2 a3 a4 a5 a6 a7 a8 : α) :
    (![a0, a1, a2, a3, a4, a5, a6, a7, a8] : Fin 9 → α) 3 = a3 := rfl

/-- Entry 4 of a column of 9. -/
theorem vec9_4 {α : Type} (a0 a1 a2 a3 a4 a5 a6 a7 a8 : α) :
    (![a0, a1, a2, a3, a4, a5, a6, a7, a8] : Fin 9 → α) 4 = a4 := rfl

/-- Entry 5 of a column of 9. -/
theorem vec9_5 {α : Type} (a0 a1 a2 a3 a4 a5 a6 a7 a8 : α) :
    (![a0, a1, a2, a3, a4, a5, a6, a7, a8] : Fin 9 → α) 5 = a5 := rfl

/-- Entry 6 of a column of 9. -/
theorem vec9_6 {α : Type} (a0 a1 a2 a3 a4 a5 a6 a7 a8 : α) :
    (![a0, a1, a2, a3, a4, a5, a6, a7, a8] : Fin 9 → α) 6 = a6 := rfl

/-- Entry 7 of a column of 9. -/
theorem vec9_7 {α : Type} (a0 a1 a2 a3 a4 a5 a6 a7 a8 : α) :
    (![a0, a1, a2, a3, a4, a5, a6, a7, a8] : Fin 9 → α) 7 = a7 := rfl

/-- Entry 8 of a column of 9. -/
theorem vec9_8 {α : Type} (a0 a1 a2 a3 a4 a5 a6 a7 a8 : α) :
    (![a0, a1, a2, a3, a4, a5, a6, a7, a8] : Fin 9 → α) 8 = a8 := rfl

/-- Entry 0 of a column of 3. -/
theorem vec3_0 {α : Type} (a0 a1 a2 : α) : (![a0, a1, a2] : Fin 3 → α) 0 = a0 := rfl

/-- Entry 1 of a column of 3. -/
theorem vec3_1 {α : Type} (a0 a1 a2 : α) : (![a0, a1, a2] : Fin 3 → α) 1 = a1 := rfl

/-- Entry 2 of a column of 3. -/
theorem vec3_2 {α : Type} (a0 a1 a2 : α) : (![a0, a1, a2] : Fin 3 → α) 2 = a2 := rfl

/-- Two columns of 9 are equal when their entries are. -/
theorem funext9 {α : Type} {f g : Fin 9 → α} (h0 : f 0 = g 0) (h1 : f 1 = g 1)
    (h2 : f 2 = g 2) (h3 : f 3 = g 3) (h4 : f 4 = g 4) (h5 : f 5 = g 5) (h6 : f 6 = g 6)
    (h7 : f 7 = g 7) (h8 : f 8 = g 8) : f = g := by
  funext i
  fin_cases i
  · exact h0
  · exact h1
  · exact h2
  · exact h3
  · exact h4
  · exact h5
  · exact h6
  · exact h7
  · exact h8

/-- Two columns of 3 are equal when their entries are. -/
theorem funext3 {α : Type} {f g : Fin 3 → α} (h0 : f 0 = g 0) (h1 : f 1 = g 1)
    (h2 : f 2 = g 2) : f = g := by
  funext i
  fin_cases i
  · exact h0
  · exact h1
  · exact h2

/-- A sum over 9 indices, written out. -/
theorem sum9 (f : Fin 9 → ℚ) :
    ∑ i, f i = f 0 + f 1 + f 2 + f 3 + f 4 + f 5 + f 6 + f 7 + f 8 := by
  rw [Fin.sum_univ_castSucc, Fin.sum_univ_eight]
  rfl

/-- A row of a matrix with 9 columns applied to a column of 9, written out. -/
theorem mulVec9 {n : Type} (A : Matrix n (Fin 9) ℚ) (s : Fin 9 → ℚ) (i : n) :
    A.mulVec s i = A i 0 * s 0 + A i 1 * s 1 + A i 2 * s 2 + A i 3 * s 3 + A i 4 * s 4
      + A i 5 * s 5 + A i 6 * s 6 + A i 7 * s 7 + A i 8 * s 8 := by
  simp only [Matrix.mulVec, Matrix.dotProduct, sum9]

/-- The transition matrix of timestep 0 is the identity. -/
theorem transitionMatrix_zero : transitionMatrix 0 = 1 := by
  apply funext9 <;> apply funext9 <;>
    simp only [transitionMatrix, Matrix.of_apply, vec9_0, vec9_1, vec9_2, vec9_3, vec9_4,
      vec9_5, vec9_6, vec9_7, vec9_8] <;>
    first
    | (rw [Matrix.one_apply_eq]; try norm_num)
    | (rw [Matrix.one_apply_ne (by decide)]; try norm_num)

/-- The transition matrix applied to a state, entry by entry. -/
theorem transitionMatrix_mulVec (t : ℚ) (s : StateVec) :
    (transitionMatrix t).mulVec s
      = ![s 0 + s 3 * t + s 6 * (t * t / 2), s 1 + s 4 * t + s 7 * (t * t / 2),
          s 2 + s 5 * t + s 8 * (t * t / 2),
          s 3 + s 6 * t, s 4 + s 7 * t, s 5 + s 8 * t, s 6, s 7, s 8] := by
  apply funext9 <;>
    simp only [mulVec9, transitionMatrix, Matrix.of_apply, vec9_0, vec9_1, vec9_2, vec9_3,
      vec9_4, vec9_5, vec9_6, vec9_7, vec9_8] <;> ring

/-- The measurement matrix of the constructor selects the position. -/
theorem positionMeasurementMatrix_mulVec (s : StateVec) :
    positionMeasurementMatrix.mulVec s = ![s 0, s 1, s 2] := by
  apply funext3 <;>
    simp only [mulVec9, positionMeasurementMatrix, Matrix.of_apply, vec9_0, vec9_1, vec9_2,
      vec9_3, vec9_4, vec9_5, vec9_6, vec9_7, vec9_8, vec3_0, vec3_1, vec3_2] <;> ring

/-- A state with zero velocity and acceleration is predicted onto itself. -/
theorem transitionMatrix_mulVec_restingState (t : ℚ) (m : Vector3) :
    (transitionMatrix t).mulVec (restingState m) = restingState m := by
  rw [transitionMatrix_mulVec]
  apply funext9 <;>
    simp only [restingState, vec9_0, vec9_1, vec9_2, vec9_3, vec9_4, vec9_5, vec9_6, vec9_7,
      vec9_8] <;> ring

/-- Measuring `m` on the state that rests at `m` leaves no innovation. -/
theorem innovation_restingState (m : Vector3) :
    (![m.x, m.y, m.z] : MeasVec) - positionMeasurementMatrix.mulVec (restingState m) = 0 := by
  rw [positionMeasurementMatrix_mulVec]
  apply funext3 <;>
    simp only [restingState, Pi.sub_apply, Pi.zero_apply, vec9_0, vec9_1, vec9_2, vec3_0,
      vec3_1, vec3_2] <;> ring

/-- The entries of the state that rests at `m`. -/
theorem ofFn_restingState (m : Vector3) :
    List.ofFn (restingState m) = [m.x, m.y, m.z, 0, 0, 0, 0, 0, 0] := by
  rfl

/-- The entries of a measured column. -/
theorem ofFn_measurement (m : Vector3) :
    List.ofFn (![m.x, m.y, m.z] : MeasVec) = [m.x, m.y, m.z] := by
  rfl

/-- The first call of `update(cv::Mat)`: no call on the library filter, the state is the
measurement with zero velocity and acceleration, the flag is set. -/
theorem updateMat_first (solve : Solve) (f : Position3DKalmanFilter) (z : MeasVec) (t : ℚ)
    (hflag : f.mDidEverComputeState = false) :
    (f.updateMat solve z t).returned = List.ofFn z ∧
    (f.updateMat solve z t).calls = [] ∧
    (f.updateMat solve z t).filter.mDidEverComputeState = true ∧
    (f.updateMat solve z t).filter.kalmanFilter.statePost
      = ![z 0, z 1, z 2, 0, 0, 0, 0, 0, 0] ∧
    (f.updateMat solve z t).filter.kalmanFilter.measurementMatrix
      = f.kalmanFilter.measurementMatrix ∧
    (f.updateMat solve z t).filter.kalmanFilter.statePre = f.kalmanFilter.statePre ∧
    (f.updateMat solve z t).filter.kalmanFilter.errorCovPre = f.kalmanFilter.errorCovPre ∧
    (f.updateMat solve z t).filter.kalmanFilter.errorCovPost = f.kalmanFilter.errorCovPost ∧
    (f.updateMat solve z t).filter.kalmanFilter.gain = f.kalmanFilter.gain ∧
    (f.updateMat solve z t).filter.lastStateEstimate = f.lastStateEstimate := by
  unfold Position3DKalmanFilter.updateMat
  simp only [hflag]
  exact ⟨rfl, rfl, rfl, rfl, rfl, rfl, rfl, rfl, rfl, rfl⟩

/-- A later call of `update(cv::Mat)` on a filter that rests at `m`, fed `m` again: the
predicted state rests at `m`, the innovation is zero and the corrected state rests at `m`,
whatever the gain. -/
theorem updateMat_resting (solve : Solve) (f : Position3DKalmanFilter) (m : Vector3) (t : ℚ)
    (hflag : f.mDidEverComputeState = true)
    (hpost : f.kalmanFilter.statePost = restingState m)
    (hH : f.kalmanFilter.measurementMatrix = positionMeasurementMatrix) :
    (f.updateMat solve ![m.x, m.y, m.z] t).returned = [m.x, m.y, m.z, 0, 0, 0, 0, 0, 0] ∧
    (f.updateMat solve ![m.x, m.y, m.z] t).calls = [KalmanCall.predict, KalmanCall.correct] ∧
    (f.updateMat solve ![m.x, m.y, m.z] t).filter.mDidEverComputeState = true ∧
    (f.updateMat solve ![m.x, m.y, m.z] t).filter.kalmanFilter.statePost = restingState m ∧
    (f.updateMat solve ![m.x, m.y, m.z] t).filter.kalmanFilter.measurementMatrix
      = positionMeasurementMatrix ∧
    (f.updateMat solve ![m.x, m.y, m.z] t).filter.kalmanFilter.statePre = restingState m ∧
    (f.updateMat solve ![m.x, m.y, m.z] t).filter.lastStateEstimate = f.lastStateEstimate := by
  have hpre : (transitionMatrix t).mulVec f.kalmanFilter.statePost = restingState m := by
    rw [hpost, transitionMatrix_mulVec_restingState]
  have hcorr : restingState m + (solve
      (f.kalmanFilter.measurementMatrix *
          (transitionMatrix t * f.kalmanFilter.errorCovPost * (transitionMatrix t).transpose
            + f.processNoiseCovariance t) * f.kalmanFilter.measurementMatrix.transpose
        + f.kalmanFilter.measurementNoiseCov)
      (f.kalmanFilter.measurementMatrix *
          (transitionMatrix t * f.kalmanFilter.errorCovPost * (transitionMatrix t).transpose
            + f.processNoiseCovariance t))).transpose.mulVec
        ((![m.x, m.y, m.z] : MeasVec)
          - f.kalmanFilter.measurementMatrix.mulVec (restingState m)) = restingState m := by
    rw [hH, innovation_restingState, Matrix.mulVec_zero, add_zero]
  unfold Position3DKalmanFilter.updateMat
  simp only [hflag, if_true, KalmanFilter.predict, KalmanFilter.correct, hpre, hcorr]
  exact ⟨ofFn_restingState m, trivial, trivial, trivial, hH, trivial, trivial⟩

/-- The overload on `tf::Vector3` returns the first three entries of the column. -/
theorem update_eq (solve : Solve) (f : Position3DKalmanFilter) (m : Vector3) (t : ℚ) :
    (f.update solve m t).filter = (f.updateMat solve ![m.x, m.y, m.z] t).filter ∧
    (f.update solve m t).calls = (f.updateMat solve ![m.x, m.y, m.z] t).calls ∧
    (f.update solve m t).returned
      = ⟨(f.updateMat solve ![m.x, m.y, m.z] t).returned.getD 0 0,
         (f.updateMat solve ![m.x, m.y, m.z] t).returned.getD 1 0,
         (f.updateMat solve ![m.x, m.y, m.z] t).returned.getD 2 0⟩ :=
  ⟨rfl, rfl, rfl⟩

/-- The flag is set after every call of `update`, and `lastStateEstimate` is as before. -/
theorem update_flag (solve : Solve) (f : Position3DKalmanFilter) (m : Vector3) (t : ℚ) :
    (f.update solve m t).filter.mDidEverComputeState = true ∧
    (f.update solve m t).filter.lastStateEstimate = f.lastStateEstimate := by
  unfold Position3DKalmanFilter.update Position3DKalmanFilter.updateMat
  cases h : f.mDidEverComputeState <;> simp

/-- The first call of `update` on any filter that has not computed a state. -/
theorem update_first (solve : Solve) (f : Position3DKalmanFilter) (m : Vector3) (t : ℚ)
    (hflag : f.mDidEverComputeState = false) :
    (f.update solve m t).returned = m ∧
    (f.update solve m t).calls = [] ∧
    (f.update solve m t).filter.mDidEverComputeState = true ∧
    (f.update solve m t).filter.kalmanFilter.statePost = restingState m ∧
    (f.update solve m t).filter.kalmanFilter.measurementMatrix
      = f.kalmanFilter.measurementMatrix := by
  obtain ⟨h1, h2, h3, h4, h5, _⟩ := updateMat_first solve f ![m.x, m.y, m.z] t hflag
  obtain ⟨e1, e2, e3⟩ := update_eq solve f m t
  rw [e1, e2, e3, h1]
  exact ⟨rfl, h2, h3, h4, h5⟩

/-- A later call of `update` on a filter that rests at `m`, fed `m` again. -/
theorem update_resting (solve : Solve) (f : Position3DKalmanFilter) (m : Vector3) (t : ℚ)
    (hflag : f.mDidEverComputeState = true)
    (hpost : f.kalmanFilter.statePost = restingState m)
    (hH : f.kalmanFilter.measurementMatrix = positionMeasurementMatrix) :
    (f.update solve m t).returned = m ∧
    (f.update solve m t).calls = [KalmanCall.predict, KalmanCall.correct] ∧
    (f.update solve m t).filter.mDidEverComputeState = true ∧
    (f.update solve m t).filter.kalmanFilter.statePost = restingState m ∧
    (f.update solve m t).filter.kalmanFilter.measurementMatrix = positionMeasurementMatrix ∧
    (f.update solve m t).filter.kalmanFilter.statePre = restingState m := by
  obtain ⟨h1, h2, h3, h4, h5, h6, _⟩ := updateMat_resting solve f m t hflag hpost hH
  obtain ⟨e1, e2, e3⟩ := update_eq solve f m t
  rw [e1, e2, e3, h1]
  exact ⟨rfl, h2, h3, h4, h5, h6⟩

/-- A run of calls fed the same measurement, from a filter that rests at it. -/
theorem updates_resting (solve : Solve) (m : Vector3) (ts : List ℚ) :
    ∀ f : Position3DKalmanFilter, f.mDidEverComputeState = true →
      f.kalmanFilter.statePost = restingState m →
      f.kalmanFilter.measurementMatrix = positionMeasurementMatrix →
      (Position3DKalmanFilter.updates solve f (ts.map (fun t => (m, t)))).2
          = List.replicate ts.length m ∧
      (Position3DKalmanFilter.updates solve f
          (ts.map (fun t => (m, t)))).1.mDidEverComputeState = true ∧
      (Position3DKalmanFilter.updates solve f
          (ts.map (fun t => (m, t)))).1.kalmanFilter.statePost = restingState m ∧
      (Position3DKalmanFilter.updates solve f
          (ts.map (fun t => (m, t)))).1.kalmanFilter.measurementMatrix
        = positionMeasurementMatrix := by
  induction ts with
  | nil =>
    intro f h1 h2 h3
    exact ⟨rfl, h1, h2, h3⟩
  | cons t rest ih =>
    intro f h1 h2 h3
    obtain ⟨r1, _, r3, r4, r5, _⟩ := update_resting solve f m t h1 h2 h3
    obtain ⟨i1, i2, i3, i4⟩ := ih (f.update solve m t).filter r3 r4 r5
    simp only [List.map_cons, Position3DKalmanFilter.updates, List.length_cons,
      List.replicate_succ]
    rw [i1, r1]
    exact ⟨rfl, i2, i3, i4⟩

/-- The constructed filter has not computed a state and measures the position. -/
theorem create_facts (l0 : Vector3) :
    (Position3DKalmanFilter.create l0).mDidEverComputeState = false ∧
    (Position3DKalmanFilter.create l0).kalmanFilter.measurementMatrix
      = positionMeasurementMatrix ∧
    (Position3DKalmanFilter.create l0).lastStateEstimate = l0 :=
  ⟨rfl, rfl, rfl⟩

/-- The filter after one or more calls fed the same measurement rests at it. -/
theorem updates_create_resting (solve : Solve) (l0 m : Vector3) (t0 : ℚ) (ts : List ℚ) :
    (Position3DKalmanFilter.updates solve (Position3DKalmanFilter.create l0)
        ((t0 :: ts).map (fun t => (m, t)))).2 = List.replicate (ts.length + 1) m ∧
    (Position3DKalmanFilter.updates solve (Position3DKalmanFilter.create l0)
        ((t0 :: ts).map (fun t => (m, t)))).1.mDidEverComputeState = true ∧
    (Position3DKalmanFilter.updates solve (Position3DKalmanFilter.create l0)
        ((t0 :: ts).map (fun t => (m, t)))).1.kalmanFilter.statePost = restingState m ∧
    (Position3DKalmanFilter.updates solve (Position3DKalmanFilter.create l0)
        ((t0 :: ts).map (fun t => (m, t)))).1.kalmanFilter.measurementMatrix
      = positionMeasurementMatrix := by
  obtain ⟨c1, c2, _⟩ := create_facts l0
  obtain ⟨r1, _, r3, r4, r5⟩ :=
    update_first solve (Position3DKalmanFilter.create l0) m t0 c1
  rw [c2] at r5
  obtain ⟨i1, i2, i3, i4⟩ := updates_resting solve m ts _ r3 r4 r5
  simp only [List.map_cons, Position3DKalmanFilter.updates, List.replicate_succ]
  rw [i1, r1]
  exact ⟨rfl, i2, i3, i4⟩

/-- A run of calls of `update` never changes `lastStateEstimate`, and sets the flag as soon
as there is one call. -/
theorem updates_flag (solve : Solve) (calls : List (Vector3 × ℚ)) :
    ∀ f : Position3DKalmanFilter,
      (Position3DKalmanFilter.updates solve f calls).1.lastStateEstimate
        = f.lastStateEstimate ∧
      (Position3DKalmanFilter.updates solve f calls).1.mDidEverComputeState
        = (f.mDidEverComputeState || !calls.isEmpty) ∧
      (Position3DKalmanFilter.updates solve f calls).2.length = calls.length := by
  induction calls with
  | nil =>
    intro f
    simp [Position3DKalmanFilter.updates]
  | cons c rest ih =>
    intro f
    obtain ⟨m, t⟩ := c
    obtain ⟨h1, h2⟩ := update_flag solve f m t
    obtain ⟨i1, i2, i3⟩ := ih (f.update solve m t).filter
    simp only [Position3DKalmanFilter.updates]
    rw [i1, i2, h1, h2]
    simp [i3]

/-- A predict step whose transition matrix is that of timestep 0 keeps the state. -/
theorem predict_timestep_zero (kf : KalmanFilter) :
    ({ kf with transitionMatrix := transitionMatrix 0 } : KalmanFilter).predict.2
      = kf.statePost ∧
    ({ kf with transitionMatrix := transitionMatrix 0 } : KalmanFilter).predict.1.statePre
      = kf.statePost ∧
    ({ kf with transitionMatrix := transitionMatrix 0 } : KalmanFilter).predict.1.statePost
      = kf.statePost := by
  simp only [KalmanFilter.predict, transitionMatrix_zero, Matrix.one_mulVec]
  exact ⟨trivial, trivial, trivial⟩

/-- The predicted state of a later call of `update(cv::Mat)` with timestep 0 is the
corrected state of the call before. -/
theorem updateMat_timestep_zero (solve : Solve) (f : Position3DKalmanFilter) (z : MeasVec) :
    (({ f with mDidEverComputeState := true } : Position3DKalmanFilter).updateMat solve z
      0).filter.kalmanFilter.statePre = f.kalmanFilter.statePost := by
  simp only [Position3DKalmanFilter.updateMat, KalmanFilter.predict, KalmanFilter.correct,
    transitionMatrix_zero, Matrix.one_mulVec, if_true]

/-- C16: the first call of `Position3DKalmanFilter::update` on a newly constructed filter, for
every measurement `m` and every timestep, returns `m` (the `cv::Mat` overload returns the
measured column), sets the state to `(m.x, m.y, m.z, 0, 0, 0, 0, 0, 0)`, calls neither
`predict` nor `correct` (the predicted state, both error covariances and the gain are as the
constructor left them) and makes `didEverComputeState()` true. -/
theorem update_first_call_bootstraps (solve : Solve) (l0 m : Vector3) (t : ℚ) :
    (Position3DKalmanFilter.create l0).didEverComputeState = false ∧
    ((Position3DKalmanFilter.create l0).update solve m t).returned = m ∧
    ((Position3DKalmanFilter.create l0).updateMat solve ![m.x, m.y, m.z] t).returned
      = [m.x, m.y, m.z] ∧
    ((Position3DKalmanFilter.create l0).update solve m t).filter.kalmanFilter.statePost
      = ![m.x, m.y, m.z, 0, 0, 0, 0, 0, 0] ∧
    ((Position3DKalmanFilter.create l0).update solve m t).calls = [] ∧
    ((Position3DKalmanFilter.create l0).update solve m t).filter.kalmanFilter.statePre
      = (Position3DKalmanFilter.create l0).kalmanFilter.statePre ∧
    ((Position3DKalmanFilter.create l0).update solve m t).filter.kalmanFilter.errorCovPre
      = (Position3DKalmanFilter.create l0).kalmanFilter.errorCovPre ∧
    ((Position3DKalmanFilter.create l0).update solve m t).filter.kalmanFilter.errorCovPost
      = (Position3DKalmanFilter.create l0).kalmanFilter.errorCovPost ∧
    ((Position3DKalmanFilter.create l0).update solve m t).filter.kalmanFilter.gain
      = (Position3DKalmanFilter.create l0).kalmanFilter.gain ∧
    ((Position3DKalmanFilter.create l0).update solve m t).filter.didEverComputeState
      = true := by
  obtain ⟨c1, _, _⟩ := create_facts l0
  obtain ⟨h1, h2, h3, h4, _, h6, h7, h8, h9, _⟩ :=
    updateMat_first solve (Position3DKalmanFilter.create l0) ![m.x, m.y, m.z] t c1
  obtain ⟨e1, e2, e3⟩ := update_eq solve (Position3DKalmanFilter.create l0) m t
  refine ⟨c1, ?_, ?_, ?_, ?_, ?_, ?_, ?_, ?_, ?_⟩
  · rw [e3, h1]
    rfl
  · rw [h1]
    rfl
  · rw [e1, h4]
    rfl
  · rw [e2, h2]
  · rw [e1, h6]
  · rw [e1, h7]
  · rw [e1, h8]
  · rw [e1, h9]
  · rw [e1]
    exact h3

/-- C17: when every call of `Position3DKalmanFilter::update` on a new filter is fed the same
measurement `m`, with any timesteps `t0 :: ts`, every call returns `m` and the state stays
`(m.x, m.y, m.z, 0, 0, 0, 0, 0, 0)`. One more call with any timestep `t` runs `predict` and
`correct`, its predicted state is again that state, the innovation is zero, and it returns
`m` (the `cv::Mat` overload returns the whole state column), whatever the solver of the gain
returns. -/
theorem update_same_measurement_stays (solve : Solve) (l0 m : Vector3) (t0 : ℚ)
    (ts : List ℚ) (t : ℚ) :
    (Position3DKalmanFilter.updates solve (Position3DKalmanFilter.create l0)
        ((t0 :: ts).map (fun t => (m, t)))).2 = List.replicate (ts.length + 1) m ∧
    (Position3DKalmanFilter.updates solve (Position3DKalmanFilter.create l0)
        ((t0 :: ts).map (fun t => (m, t)))).1.kalmanFilter.statePost
      = ![m.x, m.y, m.z, 0, 0, 0, 0, 0, 0] ∧
    ((Position3DKalmanFilter.updates solve (Position3DKalmanFilter.create l0)
        ((t0 :: ts).map (fun t => (m, t)))).1.update solve m t).returned = m ∧
    ((Position3DKalmanFilter.updates solve (Position3DKalmanFilter.create l0)
        ((t0 :: ts).map (fun t => (m, t)))).1.updateMat solve ![m.x, m.y, m.z] t).returned
      = [m.x, m.y, m.z, 0, 0, 0, 0, 0, 0] ∧
    ((Position3DKalmanFilter.updates solve (Position3DKalmanFilter.create l0)
        ((t0 :: ts).map (fun t => (m, t)))).1.update solve m t).calls
      = [KalmanCall.predict, KalmanCall.correct] ∧
    ((Position3DKalmanFilter.updates solve (Position3DKalmanFilter.create l0)
        ((t0 :: ts).map (fun t => (m, t)))).1.update solve m t).filter.kalmanFilter.statePre
      = ![m.x, m.y, m.z, 0, 0, 0, 0, 0, 0] ∧
    (![m.x, m.y, m.z] : MeasVec)
      - ((Position3DKalmanFilter.updates solve (Position3DKalmanFilter.create l0)
          ((t0 :: ts).map (fun t => (m, t)))).1.update solve m
            t).filter.kalmanFilter.measurementMatrix.mulVec
        ((Position3DKalmanFilter.updates solve (Position3DKalmanFilter.create l0)
          ((t0 :: ts).map (fun t => (m, t)))).1.update solve m
            t).filter.kalmanFilter.statePre = 0 ∧
    ((Position3DKalmanFilter.updates solve (Position3DKalmanFilter.create l0)
        ((t0 :: ts).map (fun t => (m, t)))).1.update solve m t).filter.kalmanFilter.statePost
      = ![m.x, m.y, m.z, 0, 0, 0, 0, 0, 0] := by
  obtain ⟨r1, r2, r3, r4⟩ := updates_create_resting solve l0 m t0 ts
  obtain ⟨u1, u2, _, u4, u5, u6⟩ := update_resting solve _ m t r2 r3 r4
  obtain ⟨v1, _⟩ := updateMat_resting solve _ m t r2 r3 r4
  refine ⟨r1, r3, u1, v1, u2, u6, ?_, u4⟩
  rw [u5, u6]
  exact innovation_restingState m

/-- C18: `Position3DKalmanFilter::getState` throws `logic_error` exactly when
`didEverComputeState()` is false; after a call of `update` (either overload) it returns a
value; and on a new filter it throws exactly when no call of `update` has been made. -/
theorem getState_throws_iff (solve : Solve) (f : Position3DKalmanFilter) (l0 m : Vector3)
    (z : MeasVec) (t : ℚ) (calls : List (Vector3 × ℚ)) :
    (f.getState = Except.error FilterExn.logic_error ↔ f.didEverComputeState = false) ∧
    (f.update solve m t).filter.getState
      = Except.ok (f.update solve m t).filter.lastStateEstimate ∧
    (f.updateMat solve z t).filter.getState
      = Except.ok (f.updateMat solve z t).filter.lastStateEstimate ∧
    ((Position3DKalmanFilter.updates solve (Position3DKalmanFilter.create l0) calls).1.getState
        = Except.error FilterExn.logic_error ↔ calls = []) := by
  have key : ∀ g : Position3DKalmanFilter,
      (g.getState = Except.error FilterExn.logic_error ↔ g.mDidEverComputeState = false) ∧
      (g.mDidEverComputeState = true → g.getState = Except.ok g.lastStateEstimate) := by
    intro g
    unfold Position3DKalmanFilter.getState Position3DKalmanFilter.didEverComputeState
    cases g.mDidEverComputeState <;> simp
  refine ⟨(key f).1, (key _).2 (update_flag solve f m t).1, (key _).2 ?_, ?_⟩
  · unfold Position3DKalmanFilter.updateMat
    cases h : f.mDidEverComputeState <;> simp
  · rw [(key _).1, (updates_flag solve calls _).2.1, (create_facts l0).1]
    cases calls <;> simp

/-- C19, the defect: `getState` returns the member `lastStateEstimate`, which no call of
`update` assigns. On a new filter whose `lastStateEstimate` holds `l0`, the first call of
`update` returns the measurement `m`, yet `getState` then returns `l0`, and it still returns
`l0` after any further calls; it agrees with the returned position only when `l0` happens
to be `m`. -/
theorem getState_returns_stale_estimate (solve : Solve) (l0 m : Vector3) (t : ℚ)
    (calls : List (Vector3 × ℚ)) :
    ((Position3DKalmanFilter.create l0).update solve m t).returned = m ∧
    ((Position3DKalmanFilter.create l0).update solve m t).filter.getState = Except.ok l0 ∧
    (((Position3DKalmanFilter.create l0).update solve m t).filter.getState
      = Except.ok ((Position3DKalmanFilter.create l0).update solve m t).returned ↔ l0 = m) ∧
    (Position3DKalmanFilter.updates solve (Position3DKalmanFilter.create l0)
      ((m, t) :: calls)).1.getState = Except.ok l0 := by
  obtain ⟨c1, _, c3⟩ := create_facts l0
  obtain ⟨h1, _⟩ := update_first solve (Position3DKalmanFilter.create l0) m t c1
  obtain ⟨f1, f2⟩ := update_flag solve (Position3DKalmanFilter.create l0) m t
  have g1 : ((Position3DKalmanFilter.create l0).update solve m t).filter.getState
      = Except.ok l0 := by
    unfold Position3DKalmanFilter.getState Position3DKalmanFilter.didEverComputeState
    rw [f1, f2, c3]
    rfl
  obtain ⟨k1, k2, _⟩ := updates_flag solve ((m, t) :: calls) (Position3DKalmanFilter.create l0)
  refine ⟨h1, g1, ?_, ?_⟩
  · rw [g1, h1]
    constructor
    · intro h
      cases h
      rfl
    · intro h
      rw [h]
  · unfold Position3DKalmanFilter.getState Position3DKalmanFilter.didEverComputeState
    rw [k1, k2, c3]
    simp

/-- C20: for every timestep `t` and every state `(p, v, a)` ordered
`(x, y, z, vx, vy, vz, ax, ay, az)`, `transitionMatrix(t)` applied to the state gives on each
axis position `p + v*t + a*t*t/2`, velocity `v + a*t` and acceleration `a`;
`transitionMatrix(0)` is the 9×9 identity, so a predict step with timestep 0 returns and
stores the previous corrected state, also inside `update`. -/
theorem transitionMatrix_kinematics (solve : Solve) (t : ℚ) (p v a : Vector3)
    (kf : KalmanFilter) (f : Position3DKalmanFilter) (z : MeasVec) :
    (transitionMatrix t).mulVec ![p.x, p.y, p.z, v.x, v.y, v.z, a.x, a.y, a.z]
      = ![p.x + v.x * t + a.x * t * t / 2, p.y + v.y * t + a.y * t * t / 2,
          p.z + v.z * t + a.z * t * t / 2,
          v.x + a.x * t, v.y + a.y * t, v.z + a.z * t, a.x, a.y, a.z] ∧
    transitionMatrix 0 = 1 ∧
    ({ kf with transitionMatrix := transitionMatrix 0 } : KalmanFilter).predict.2
      = kf.statePost ∧
    ({ kf with transitionMatrix := transitionMatrix 0 } : KalmanFilter).predict.1.statePre
      = kf.statePost ∧
    ({ kf with transitionMatrix := transitionMatrix 0 } : KalmanFilter).predict.1.statePost
      = kf.statePost ∧
    (({ f with mDidEverComputeState := true } : Position3DKalmanFilter).updateMat solve z
      0).filter.kalmanFilter.statePre = f.kalmanFilter.statePost := by
  obtain ⟨p1, p2, p3⟩ := predict_timestep_zero kf
  refine ⟨?_, transitionMatrix_zero, p1, p2, p3, updateMat_timestep_zero solve f z⟩
  rw [transitionMatrix_mulVec]
  apply funext9 <;>
    simp only [vec9_0, vec9_1, vec9_2, vec9_3, vec9_4, vec9_5, vec9_6, vec9_7, vec9_8] <;>
    ring

/-! ## Properties of the public contract: indices, exceptions and status codes -/

/-- The loop over the inliers returns when every inlier addresses a device pixel and a
reprojected point. -/
theorem reprojErrorLoop_ok (ext : Ext) (imgPos reprojPoints : List Point2f)
    (inliers : List Int) :
    ∀ acc : ℚ, (∀ i ∈ inliers, 0 ≤ i ∧ i < imgPos.length ∧ i < reprojPoints.length) →
      ∃ e, reprojErrorLoop ext imgPos reprojPoints inliers acc = Except.ok e := by
  induction inliers with
  | nil =>
    intro acc _
    exact ⟨acc, rfl⟩
  | cons i rest ih =>
    intro acc h
    obtain ⟨h0, h1, h2⟩ := h i (List.mem_cons_self _ _)
    obtain ⟨pix, hpix⟩ := atIdx_ok_of_lt imgPos i h0 h1
    obtain ⟨rp, hrp⟩ := atIdx_ok_of_lt reprojPoints i h0 h2
    simp only [reprojErrorLoop, hpix, hrp]
    exact ih _ (fun j hj => h j (List.mem_cons_of_mem _ hj))

/-- The call of `update` returns when the matcher's indices address key points and the
solver's inliers address correspondences. -/
theorem update_ok_of_in_range (ext : Ext) (cfg : Config) (st : EstimatorState)
    (inp : UpdateInput)
    (hm : MatchesInRange inp.fixedKeypoints inp.arcoreKeypoints
      (findOrbMatches ext inp.arcoreKeypoints inp.arcoreDescriptors inp.fixedKeypoints
        inp.fixedDescriptors).2)
    (hin : ∀ depth good p3 p2, ReachesSolver ext cfg inp depth good p3 p2 →
      ∀ i ∈ (solverResultOf ext cfg inp (solverCallOf ext st p3 p2)).inliers,
        0 ≤ i ∧ i < p2.length ∧
        i < (ext.projectPoints p3 (solverResultOf ext cfg inp (solverCallOf ext st p3 p2)).rvec
          (solverResultOf ext cfg inp (solverCallOf ext st p3 p2)).tvec
          inp.arcoreCameraMatrix).length) :
    ∃ out, update ext cfg st inp = Except.ok out := by
  have hf : MatchesInRange inp.fixedKeypoints inp.arcoreKeypoints
      (filterMatches cfg (findOrbMatches ext inp.arcoreKeypoints inp.arcoreDescriptors
        inp.fixedKeypoints inp.fixedDescriptors).2 []).2 :=
    fun m hmem => hm m (filterMatches_subset cfg _ m hmem)
  obtain ⟨depth, good, hfix, hsub⟩ := fixMatchesDepthOrDrop_ok ext inp.fixedKeypoints _
    inp.kinectDepthImage (fun m hmem => ⟨(hf m hmem).1, (hf m hmem).2.1⟩)
  have hfix2 : depthRepairStage ext cfg inp = Except.ok (0, depth, good) := hfix
  have hg : MatchesInRange inp.fixedKeypoints inp.arcoreKeypoints good :=
    fun m hmem => hf m (hsub.subset hmem)
  obtain ⟨p3, p2, hcorr, _, _⟩ := get3dPositionsAndImagePositions_ok ext inp.fixedKeypoints
    inp.arcoreKeypoints depth inp.fixedCameraMatrix good hg
  rw [update_eq_solveAndGate ext cfg st inp depth good p3 p2 hfix2 hcorr]
  by_cases hgate : good.length < 4 ∨ good.length < cfg.minimumMatchesNumber
  · refine ⟨⟨1, st, depth, []⟩, ?_⟩
    simp only [solveAndGate, if_pos hgate]
  · have hreach : ReachesSolver ext cfg inp depth good p3 p2 := ⟨hfix2, hcorr, hgate⟩
    obtain ⟨e, he⟩ := reprojErrorLoop_ok ext p2 _ _ 0 (hin depth good p3 p2 hreach)
    have he2 : reprojErrorOf ext inp (solverCallOf ext st p3 p2)
        (solverResultOf ext cfg inp (solverCallOf ext st p3 p2)) = Except.ok e := he
    rw [← update_eq_solveAndGate ext cfg st inp depth good p3 p2 hfix2 hcorr,
      update_eq_acceptOrReject ext cfg st inp depth good p3 p2 e hreach he2]
    exact ⟨_, rfl⟩

/-- The status of `readReceivedMessages_features` depends neither on the key points of the
message nor on the announced number of descriptor rows. -/
theorem readReceivedMessages_features_status_indep (ext : Ext) (msg : ArcoreCameraFeatures)
    (cam depth : ImageMsg) (info : CameraInfo) (out : DecodedFeatures)
    (kps : List KeypointMsg) (rows : Int) :
    (readReceivedMessages_features ext
      { msg with keypoints := kps, descriptors_mat_rows := rows } cam depth info out).1
      = (readReceivedMessages_features ext msg cam depth info out).1 := by
  simp only [readReceivedMessages_features]
  split_ifs <;> first | rfl | (split <;> rfl)

/-- Decoding of the feature message with three key points and five descriptor rows: it is
accepted. -/
theorem short_readReceivedMessages_features :
    readReceivedMessages_features demoExt shortFeaturesMsg demoImageMsg demoImageMsg
      demoCameraInfo DecodedFeatures.default
    = (0, ⟨demoCamera, ⟨5, 32, 1, [1]⟩, demoArcoreKeypoints.take 3, 640, 480, demoCamera,
        ⟨1, 1, 1, [1]⟩, demoDepth, convertPhonePose demoExt Transform.identity,
        Mat.default⟩) := by
  simp [readReceivedMessages_features, shortFeaturesMsg, demoFeaturesMsg, demoImageMsg,
    demoCameraInfo, DecodedFeatures.default, demoExt, Mat.noData, arcoreCameraMatrixOf,
    kinectCameraMatrixOf, demoCamera, KeypointMsg.toKeyPoint, demoArcoreKeypoints, demoKeyPoint,
    demoDepth, Mat.default]

/-- With three device key points and five matches the lookup of the fourth device key point
fails. -/
theorem short_update (st : EstimatorState) (inp : UpdateInput)
    (h1 : inp.fixedKeypoints = demoFixedKeypoints)
    (h2 : inp.arcoreKeypoints = demoArcoreKeypoints.take 3)
    (h3 : inp.kinectDepthImage = demoDepth) :
    update demoExt demoConfig st inp = Except.error Exn.out_of_range := by
  have hfix : fixMatchesDepthOrDrop demoExt
      (filterMatches demoConfig (findOrbMatches demoExt inp.arcoreKeypoints
        inp.arcoreDescriptors inp.fixedKeypoints inp.fixedDescriptors).2 []).2
      inp.fixedKeypoints inp.kinectDepthImage = Except.ok (0, demoDepth, demoMatches) := by
    simp only [findOrbMatches]
    have hm : demoExt.bfMatch inp.arcoreDescriptors inp.fixedDescriptors = demoMatches := rfl
    rw [hm, demo_filterMatches, h1, h3]
    simp [fixMatchesDepthOrDrop, fixMatchesLoop, fixMatchStep, demoMatches,
      demoFixedKeypoints, atIdx, demoKeyPoint, DepthImage.atF, DepthImage.atI, demoDepth]
  have hcorr : get3dPositionsAndImagePositions demoExt demoMatches inp.fixedKeypoints
      inp.arcoreKeypoints demoDepth inp.fixedCameraMatrix = Except.error Exn.out_of_range := by
    rw [h1, h2]
    simp [get3dPositionsAndImagePositions, get3dLoop, demoMatches, demoFixedKeypoints,
      demoArcoreKeypoints, atIdx, demoKeyPoint]
  unfold update
  simp only [findOrbMatches, filterMatches] at hfix ⊢
  simp only [hfix, hcorr]
  simp

/-- Counterexample of C21 as stated: the feature message with three key points and five
descriptor rows is accepted by `readReceivedMessages_features` (status 0), the matcher
returns one match per descriptor row, and the call of `update` made by `featuresCallback`
raises `out_of_range` at the lookup of the fourth device key point. -/
theorem featuresCallback_raises_on_count_mismatch :
    (readReceivedMessages_features demoExt shortFeaturesMsg demoImageMsg demoImageMsg
      demoCameraInfo DecodedFeatures.default).1 = 0 ∧
    (readReceivedMessages_features demoExt shortFeaturesMsg demoImageMsg demoImageMsg
      demoCameraInfo DecodedFeatures.default).2.arcoreDescriptors.rows = 5 ∧
    (readReceivedMessages_features demoExt shortFeaturesMsg demoImageMsg demoImageMsg
      demoCameraInfo DecodedFeatures.default).2.arcoreKeypoints.length = 3 ∧
    featuresCallback demoExt demoConfig demoState shortFeaturesMsg demoImageMsg demoImageMsg
      demoCameraInfo = Except.error Exn.out_of_range := by
  refine ⟨?_, ?_, ?_, ?_⟩
  · rw [short_readReceivedMessages_features]
  · rw [short_readReceivedMessages_features]
  · rw [short_readReceivedMessages_features]
    rfl
  · unfold featuresCallback
    simp only [short_readReceivedMessages_features]
    have horb : computeOrbFeatures demoExt demoConfig ⟨1, 1, 1, [1]⟩ Mat.default
        = (0, demoFixedKeypoints, ⟨5, 32, 1, [1]⟩) := by
      simp [computeOrbFeatures, demoExt, demoFixedKeypoints, Mat.empty]
    simp only [horb]
    rw [short_update demoState _ rfl rfl rfl]
    simp

/-- The correspondences of the scenario are the only ones that reach the solver. -/
theorem demo_reachesSolver_unique (depth : DepthImage) (good : List DMatch)
    (p3 : List Point3f) (p2 : List Point2f)
    (h : ReachesSolver demoExt demoConfig demoInput depth good p3 p2) :
    depth = demoDepth ∧ good = demoMatches ∧ p3 = demoPos3d ∧ p2 = demoImgPos := by
  obtain ⟨h1, h2, _⟩ := h
  rw [demo_depthRepairStage] at h1
  cases h1
  have h3 : get3dPositionsAndImagePositions demoExt demoMatches demoFixedKeypoints
      demoArcoreKeypoints demoDepth demoCamera = Except.ok (0, p3, p2) := h2
  rw [demo_get3dPositionsAndImagePositions] at h3
  cases h3
  exact ⟨rfl, rfl, rfl, rfl⟩

/-- The inliers of the scenario address correspondences. -/
theorem demo_inliers_in_range (st : EstimatorState) :
    ∀ depth good p3 p2, ReachesSolver demoExt demoConfig demoInput depth good p3 p2 →
      ∀ i ∈ (solverResultOf demoExt demoConfig demoInput
          (solverCallOf demoExt st p3 p2)).inliers,
        0 ≤ i ∧ i < p2.length ∧
        i < (demoExt.projectPoints p3
          (solverResultOf demoExt demoConfig demoInput (solverCallOf demoExt st p3 p2)).rvec
          (solverResultOf demoExt demoConfig demoInput (solverCallOf demoExt st p3 p2)).tvec
          demoInput.arcoreCameraMatrix).length := by
  intro depth good p3 p2 h i hi
  obtain ⟨_, _, rfl, rfl⟩ := demo_reachesSolver_unique depth good p3 p2 h
  have hl : (solverResultOf demoExt demoConfig demoInput
      (solverCallOf demoExt st demoPos3d demoImgPos)).inliers = [0, 1, 2, 3] := rfl
  rw [hl] at hi
  have h5 : (demoExt.projectPoints demoPos3d
      (solverResultOf demoExt demoConfig demoInput
        (solverCallOf demoExt st demoPos3d demoImgPos)).rvec
      (solverResultOf demoExt demoConfig demoInput
        (solverCallOf demoExt st demoPos3d demoImgPos)).tvec
      demoInput.arcoreCameraMatrix).length = 5 := by
    simp [demoExt, demoPos3d]
  have h5b : demoImgPos.length = 5 := rfl
  rw [h5, h5b]
  simp only [List.mem_cons, List.mem_singleton, List.not_mem_nil, or_false] at hi
  rcases hi with rfl | rfl | rfl | rfl <;> decide

/-- With three key points of the fixed camera and five matches the lookup of the fourth
key point fails in `fixMatchesDepthOrDrop`. -/
theorem shortFixed_fixMatchesDepthOrDrop :
    fixMatchesDepthOrDrop demoExt demoMatches (demoFixedKeypoints.take 3) demoDepth
      = Except.error Exn.out_of_range := by
  simp [fixMatchesDepthOrDrop, fixMatchesLoop, fixMatchStep, demoMatches,
    demoFixedKeypoints, atIdx, demoKeyPoint, DepthImage.atF, DepthImage.atI, demoDepth]

/-- Counterexample of C30 as stated: on the input of the scenario with only three key points
of the fixed camera, `fixMatchesDepthOrDrop` does not return 0, it raises `out_of_range` at
the match with `trainIdx` 3, and `update` returns no status at all. -/
theorem update_raises_on_short_fixed_keypoints :
    fixMatchesDepthOrDrop demoExt demoMatches shortFixedInput.fixedKeypoints
      shortFixedInput.kinectDepthImage = Except.error Exn.out_of_range ∧
    update demoExt demoConfig demoState shortFixedInput = Except.error Exn.out_of_range ∧
    ¬ ∃ out, update demoExt demoConfig demoState shortFixedInput = Except.ok out := by
  have hu : update demoExt demoConfig demoState shortFixedInput
      = Except.error Exn.out_of_range := by
    have hfix : fixMatchesDepthOrDrop demoExt
        (filterMatches demoConfig (findOrbMatches demoExt shortFixedInput.arcoreKeypoints
          shortFixedInput.arcoreDescriptors shortFixedInput.fixedKeypoints
          shortFixedInput.fixedDescriptors).2 []).2
        shortFixedInput.fixedKeypoints shortFixedInput.kinectDepthImage
        = Except.error Exn.out_of_range := by
      simp only [findOrbMatches]
      have hm : demoExt.bfMatch shortFixedInput.arcoreDescriptors
          shortFixedInput.fixedDescriptors = demoMatches := rfl
      rw [hm, demo_filterMatches]
      exact shortFixed_fixMatchesDepthOrDrop
    unfold update
    simp only [findOrbMatches, filterMatches] at hfix ⊢
    simp only [hfix]
    simp
  refine ⟨shortFixed_fixMatchesDepthOrDrop, hu, ?_⟩
  rintro ⟨out, hout⟩
  rw [hu] at hout
  cases hout

/-! ## Properties of the quality gate on exact solutions -/

/-- The loop over the inliers adds nothing when every inlier reprojects exactly onto its
device pixel. -/
theorem reprojErrorLoop_exact (ext : Ext) (imgPos reprojPoints : List Point2f)
    (inliers : List Int) (hh : ext.hypot 0 0 = 0) :
    ∀ acc : ℚ, (∀ i ∈ inliers, ∃ pix, atIdx imgPos i = Except.ok pix ∧
        atIdx reprojPoints i = Except.ok pix) →
      reprojErrorLoop ext imgPos reprojPoints inliers acc = Except.ok acc := by
  induction inliers with
  | nil =>
    intro acc _
    rfl
  | cons i rest ih =>
    intro acc h
    obtain ⟨pix, h1, h2⟩ := h i (List.mem_cons_self _ _)
    simp only [reprojErrorLoop, h1, h2, sub_self, hh, zero_div, add_zero]
    exact ih acc (fun j hj => h j (List.mem_cons_of_mem _ hj))

/-- The scenario without noise gets past the match-count gate with its five matches. -/
theorem steep_reachesSolver :
    ReachesSolver steepExt demoConfig steepInput demoDepth demoMatches demoPos3d
      steepImgPos := by
  refine ⟨?_, ?_, ?_⟩
  · unfold depthRepairStage
    simp only [findOrbMatches]
    have hm : steepExt.bfMatch steepInput.arcoreDescriptors steepInput.fixedDescriptors
        = demoMatches := rfl
    rw [hm, demo_filterMatches]
    simp [fixMatchesDepthOrDrop, fixMatchesLoop, fixMatchStep, demoMatches, steepInput,
      demoInput, demoFixedKeypoints, atIdx, demoKeyPoint, DepthImage.atF, DepthImage.atI,
      demoDepth]
  · simp [get3dPositionsAndImagePositions, get3dLoop, demoMatches, steepInput, demoInput,
      demoFixedKeypoints, steepArcoreKeypoints, steepImgPos, atIdx, demoKeyPoint,
      DepthImage.atF, DepthImage.atI, demoDepth, get3dPoint, steepExt, demoExt, demoCamera,
      demoPos3d]
  · simp [demoMatches, demoConfig]

/-- In the scenario without noise every correspondence reprojects exactly. -/
theorem steep_exact :
    ∀ i ∈ (solverResultOf steepExt demoConfig steepInput
        (solverCallOf steepExt demoState demoPos3d steepImgPos)).inliers,
      ∃ pix, atIdx steepImgPos i = Except.ok pix ∧
        atIdx (steepExt.projectPoints demoPos3d
          (solverResultOf steepExt demoConfig steepInput
            (solverCallOf steepExt demoState demoPos3d steepImgPos)).rvec
          (solverResultOf steepExt demoConfig steepInput
            (solverCallOf steepExt demoState demoPos3d steepImgPos)).tvec
          steepInput.arcoreCameraMatrix) i = Except.ok pix := by
  intro i hi
  have hl : (solverResultOf steepExt demoConfig steepInput
      (solverCallOf steepExt demoState demoPos3d steepImgPos)).inliers = [0, 1, 2, 3, 4] := rfl
  have hp : steepExt.projectPoints demoPos3d
      (solverResultOf steepExt demoConfig steepInput
        (solverCallOf steepExt demoState demoPos3d steepImgPos)).rvec
      (solverResultOf steepExt demoConfig steepInput
        (solverCallOf steepExt demoState demoPos3d steepImgPos)).tvec
      steepInput.arcoreCameraMatrix = steepImgPos := rfl
  rw [hl] at hi
  rw [hp]
  have h5 : (0 : Int) ≤ i ∧ i < steepImgPos.length := by
    have : steepImgPos.length = 5 := rfl
    rw [this]
    simp only [List.mem_cons, List.mem_singleton, List.not_mem_nil, or_false] at hi
    rcases hi with rfl | rfl | rfl | rfl | rfl <;> decide
  obtain ⟨pix, hpix⟩ := atIdx_ok_of_lt steepImgPos i h5.1 h5.2
  exact ⟨pix, hpix, hpix⟩

/-- The angle between the device axis and the z axis in the scenario without noise, in
radians. -/
theorem steep_angle :
    angle steepExt (phoneOpticalAxis (phonePoseKinectOf steepExt
      (solverResultOf steepExt demoConfig steepInput
        (solverCallOf steepExt demoState demoPos3d steepImgPos)))) ⟨0, 0, 1⟩
      = 927295 / 1000000 := by
  simp [angle, phoneOpticalAxis, phonePoseKinectOf, steepExt, demoExt, steepPose,
    Transform.rotationOnly, Transform.apply, Transform.inverse, Matrix3x3.transpose,
    Matrix3x3.mulVec, Vector3.dot, Vector3.add, Vector3.zero, Vector3.length2]
  norm_num

/-- The last part of `update` when the reprojection error is zero and the threshold is not
negative: the status is decided by the validity check and the orientation gate alone. -/
theorem acceptOrReject_zero_error (ext : Ext) (cfg : Config) (st : EstimatorState)
    (inp : UpdateInput) (depth : DepthImage) (good : List DMatch) (call : SolverCall)
    (pnp : PnPResult) (hthr : 0 ≤ cfg.reprojectionErrorDiscardThreshold) :
    (acceptOrReject ext cfg st inp depth good call pnp 0).status ≠ 1 ∧
    (acceptOrReject ext cfg st inp depth good call pnp 0).status ≠ 2 ∧
    ((acceptOrReject ext cfg st inp depth good call pnp 0).status = -8 ↔
      ext.isPoseValid (arcoreWorldOf ext cfg inp pnp) = false) ∧
    ((acceptOrReject ext cfg st inp depth good call pnp 0).status = 3 ↔
      ext.isPoseValid (arcoreWorldOf ext cfg inp pnp) = true ∧
      phoneToCameraRotationAngle ext (phonePoseKinectOf ext pnp)
        > cfg.phoneOrientationDifferenceThreshold_deg) ∧
    ((acceptOrReject ext cfg st inp depth good call pnp 0).status = 0 ↔
      ext.isPoseValid (arcoreWorldOf ext cfg inp pnp) = true ∧
      ¬ phoneToCameraRotationAngle ext (phonePoseKinectOf ext pnp)
        > cfg.phoneOrientationDifferenceThreshold_deg) := by
  have hv : ext.isPoseValid ((cfg.transformKinectToWorld.transform.mul
      (ext.opencvPoseToEigenPose pnp.rvec pnp.tvec).inverse).mul
      inp.phonePoseArcoreFrameConverted.inverse)
      = ext.isPoseValid (arcoreWorldOf ext cfg inp pnp) := rfl
  have ha : phoneToCameraRotationAngle ext (ext.opencvPoseToEigenPose pnp.rvec pnp.tvec).inverse
      = phoneToCameraRotationAngle ext (phonePoseKinectOf ext pnp) := rfl
  simp only [acceptOrReject]
  rw [if_neg (not_lt.mpr hthr), hv, ha]
  cases hvalid : ext.isPoseValid (arcoreWorldOf ext cfg inp pnp)
  · simp
  · by_cases hang : phoneToCameraRotationAngle ext (phonePoseKinectOf ext pnp)
        > cfg.phoneOrientationDifferenceThreshold_deg
    · simp [hang]
    · simp [hang]

/-- Counterexample of C22 as stated: five correspondences without noise (the device pixels
are the exact projections of the five points at the pose the solver reports, the
reprojection error is 0), yet `update` does not accept: the device axis is turned by about
53 degrees against the axis of the fixed camera, more than the threshold of 45 degrees, and
the status is 3. -/
theorem update_rejects_noise_free_steep_pose :
    steepExt.projectPoints demoPos3d
      (solverResultOf steepExt demoConfig steepInput
        (solverCallOf steepExt demoState demoPos3d steepImgPos)).rvec
      (solverResultOf steepExt demoConfig steepInput
        (solverCallOf steepExt demoState demoPos3d steepImgPos)).tvec
      steepInput.arcoreCameraMatrix = steepImgPos ∧
    steepInput.arcoreKeypoints.map (fun k => k.pt) = steepImgPos ∧
    4 ≤ steepImgPos.length ∧
    reprojErrorOf steepExt steepInput (solverCallOf steepExt demoState demoPos3d steepImgPos)
      (solverResultOf steepExt demoConfig steepInput
        (solverCallOf steepExt demoState demoPos3d steepImgPos)) = Except.ok 0 ∧
    update steepExt demoConfig demoState steepInput
      = Except.ok ⟨3, demoState, demoDepth,
          [solverCallOf steepExt demoState demoPos3d steepImgPos]⟩ := by
  have herr : reprojErrorOf steepExt steepInput
      (solverCallOf steepExt demoState demoPos3d steepImgPos)
      (solverResultOf steepExt demoConfig steepInput
        (solverCallOf steepExt demoState demoPos3d steepImgPos)) = Except.ok 0 :=
    reprojErrorLoop_exact steepExt _ _ _ (by simp [steepExt, demoExt]) 0 steep_exact
  refine ⟨rfl, ?_, by decide, herr, ?_⟩
  · simp only [steepInput, steepArcoreKeypoints, demoKeyPoint, List.map_map]
    exact List.map_id _
  · rw [update_eq_acceptOrReject steepExt demoConfig demoState steepInput demoDepth demoMatches
      demoPos3d steepImgPos 0 steep_reachesSolver herr]
    have hang : phoneToCameraRotationAngle steepExt
        (steepExt.opencvPoseToEigenPose
          (solverResultOf steepExt demoConfig steepInput
            (solverCallOf steepExt demoState demoPos3d steepImgPos)).rvec
          (solverResultOf steepExt demoConfig steepInput
            (solverCallOf steepExt demoState demoPos3d steepImgPos)).tvec).inverse
        > demoConfig.phoneOrientationDifferenceThreshold_deg := by
      have ha := steep_angle
      unfold phonePoseKinectOf at ha
      unfold phoneToCameraRotationAngle
      rw [ha]
      rw [abs_of_pos (by norm_num)]
      norm_num [demoConfig]
    have hthr : ¬ (0 : ℚ) > demoConfig.reprojectionErrorDiscardThreshold := by
      norm_num [demoConfig]
    simp only [acceptOrReject]
    rw [if_neg hthr, if_pos hang]
    simp [steepExt, demoExt]

/-! ## Properties of the calibration refinement -/

/-- The conversion to a library matrix commutes with the transpose. -/
theorem Matrix3x3.toMatrix_transpose (a : Matrix3x3) :
    a.transpose.toMatrix = a.toMatrix.transpose := by
  ext i j
  fin_cases i <;> fin_cases j <;> rfl

/-- The product of two orthonormal bases is orthonormal. -/
theorem Matrix3x3.isOrthonormal_mul (a b : Matrix3x3) (ha : a.IsOrthonormal)
    (hb : b.IsOrthonormal) : (a.mul b).IsOrthonormal := by
  have h1 : a.toMatrix.transpose * a.toMatrix = 1 := by
    rw [← Matrix3x3.toMatrix_transpose, ← Matrix3x3.toMatrix_mul, ← Matrix3x3.toMatrix_identity]
    exact congrArg Matrix3x3.toMatrix ha
  have h2 : b.toMatrix.transpose * b.toMatrix = 1 := by
    rw [← Matrix3x3.toMatrix_transpose, ← Matrix3x3.toMatrix_mul, ← Matrix3x3.toMatrix_identity]
    exact congrArg Matrix3x3.toMatrix hb
  apply Matrix3x3.toMatrix_injective
  rw [Matrix3x3.toMatrix_mul, Matrix3x3.toMatrix_transpose, Matrix3x3.toMatrix_mul,
    Matrix3x3.toMatrix_identity, Matrix.transpose_mul, Matrix.mul_assoc,
    ← Matrix.mul_assoc a.toMatrix.transpose, h1, Matrix.one_mul, h2]

/-- The composition of two rigid poses is rigid. -/
theorem Transform.isRigid_mul (a b : Transform) (ha : a.IsRigid) (hb : b.IsRigid) :
    (a.mul b).IsRigid :=
  Matrix3x3.isOrthonormal_mul a.basis b.basis ha hb

/-! ## Properties of the process noise of the position filter -/

/-- C24, the defect: the rows of `G` in `processNoiseCovariance` are ordered axis by axis
(x, vx, ax, y, vy, ay, z, vz, az), while the transition matrix, the measurement matrix and
the initial state order the state as (x, y, z, vx, vy, vz, ax, ay, az). In that ordering the
entry (0, 1) of the computed covariance couples the x position with the y position and is
`t*t/2 * t * factor`, not 0, and the entry (0, 3), x position with x velocity, is 0; the
covariance the specification describes has 0 and `t*t/2 * t * factor` there. For timestep 1
and factor 1 the two matrices differ. The computed matrix is symmetric. -/
theorem processNoiseCovariance_couples_axes (f : Position3DKalmanFilter) (t : ℚ)
    (l0 : Vector3) :
    f.processNoiseCovariance t 0 1 = t * t / 2 * t * f.processNoiseVarianceFactor ∧
    processNoiseCovarianceSpec f.processNoiseVarianceFactor t 0 1 = 0 ∧
    f.processNoiseCovariance t 0 3 = 0 ∧
    processNoiseCovarianceSpec f.processNoiseVarianceFactor t 0 3
      = t * t / 2 * t * f.processNoiseVarianceFactor ∧
    (Position3DKalmanFilter.create l0).processNoiseCovariance 1 0 1 = 1 / 2 ∧
    (Position3DKalmanFilter.create l0).processNoiseCovariance 1
      ≠ processNoiseCovarianceSpec 1 1 ∧
    (f.processNoiseCovariance t).transpose = f.processNoiseCovariance t := by
  have e01 : ∀ (g : Position3DKalmanFilter) (s : ℚ),
      g.processNoiseCovariance s 0 1 = s * s / 2 * s * g.processNoiseVarianceFactor := by
    intro g s
    simp only [Position3DKalmanFilter.processNoiseCovariance, Matrix.map_apply,
      Matrix.mul_apply, Matrix.transpose_apply, Fin.sum_univ_three, Matrix.of_apply, vec9_0,
      vec9_1, vec3_0, vec3_1, vec3_2]
    ring
  have s01 : ∀ (c s : ℚ), processNoiseCovarianceSpec c s 0 1 = 0 := by
    intro c s
    simp only [processNoiseCovarianceSpec, Matrix.map_apply, Matrix.mul_apply,
      Matrix.transpose_apply, Fin.sum_univ_three, Matrix.of_apply, vec9_0, vec9_1, vec3_0,
      vec3_1, vec3_2]
    ring
  refine ⟨e01 f t, s01 _ t, ?_, ?_, ?_, ?_, ?_⟩
  · simp only [Position3DKalmanFilter.processNoiseCovariance, Matrix.map_apply,
      Matrix.mul_apply, Matrix.transpose_apply, Fin.sum_univ_three, Matrix.of_apply, vec9_0,
      vec9_3, vec3_0, vec3_1, vec3_2]
    ring
  · simp only [processNoiseCovarianceSpec, Matrix.map_apply, Matrix.mul_apply,
      Matrix.transpose_apply, Fin.sum_univ_three, Matrix.of_apply, vec9_0, vec9_3, vec3_0,
      vec3_1, vec3_2]
    ring
  · rw [e01]
    have hf : (Position3DKalmanFilter.create l0).processNoiseVarianceFactor = 1 := rfl
    rw [hf]
    norm_num
  · intro h
    have h1 := congrFun (congrFun h 0) 1
    rw [e01, s01] at h1
    have hf : (Position3DKalmanFilter.create l0).processNoiseVarianceFactor = 1 := rfl
    rw [hf] at h1
    norm_num at h1
  · simp only [Position3DKalmanFilter.processNoiseCovariance]
    ext i j
    simp only [Matrix.transpose_apply, Matrix.map_apply, Matrix.mul_apply]
    congr 1
    apply Finset.sum_congr rfl
    intro k _
    ring

/-! ## Properties of the seed of the pose solver -/

/-- The worked scenario reaches the solver with the conversion of `seedExt` as well. -/
theorem seed_reachesSolver :
    ReachesSolver seedExt demoConfig demoInput demoDepth demoMatches demoPos3d demoImgPos := by
  refine ⟨?_, ?_, ?_⟩
  · unfold depthRepairStage
    simp only [findOrbMatches]
    have hm : seedExt.bfMatch demoInput.arcoreDescriptors demoInput.fixedDescriptors
        = demoMatches := rfl
    rw [hm, demo_filterMatches]
    simp [fixMatchesDepthOrDrop, fixMatchesLoop, fixMatchStep, demoMatches, demoInput,
      demoFixedKeypoints, atIdx, demoKeyPoint, DepthImage.atF, DepthImage.atI, demoDepth]
  · simp [get3dPositionsAndImagePositions, get3dLoop, demoMatches, demoInput,
      demoFixedKeypoints, demoArcoreKeypoints, atIdx, demoKeyPoint, DepthImage.atF,
      DepthImage.atI, demoDepth, get3dPoint, seedExt, demoExt, demoCamera, demoPos3d,
      demoImgPos]
  · simp [demoMatches, demoConfig]

/-- The reprojection error of the worked scenario does not depend on the members. -/
theorem seed_reprojErrorOf (st : EstimatorState) :
    reprojErrorOf seedExt demoInput (solverCallOf seedExt st demoPos3d demoImgPos)
      (solverResultOf seedExt demoConfig demoInput
        (solverCallOf seedExt st demoPos3d demoImgPos)) = Except.ok (12 / 5) := by
  simp [reprojErrorOf, solverResultOf, solverCallOf, seedExt, demoExt, reprojErrorLoop, atIdx,
    demoPos3d, demoImgPos, demoProject, demoInput, demoCamera]
  norm_num

/-- The accepted update of the worked scenario, from the members of a new estimator. -/
theorem seed_update_first :
    update seedExt demoConfig demoState demoInput
      = Except.ok ⟨0, demoAccepted, demoDepth,
          [⟨demoPos3d, demoImgPos, Vec3d.zero, Vec3d.zero, false⟩]⟩ := by
  rw [update_eq_acceptOrReject seedExt demoConfig demoState demoInput demoDepth demoMatches
    demoPos3d demoImgPos (12 / 5) seed_reachesSolver (seed_reprojErrorOf demoState)]
  simp [acceptOrReject, demoConfig, seedExt, demoExt, solverResultOf, solverCallOf,
    initialGuess, demoState, phoneToCameraRotationAngle,
    angle, phoneOpticalAxis, Transform.rotationOnly, Transform.apply, Transform.inverse,
    Transform.mul, Matrix3x3.mul, Matrix3x3.tdotx, Matrix3x3.tdoty, Matrix3x3.tdotz,
    Matrix3x3.identity, Matrix3x3.transpose, Matrix3x3.mulVec, Vector3.dot, Vector3.add,
    Vector3.zero, Vector3.length2, Vector3.neg, demoAccepted, demoArcoreWorld, demoInput,
    demoPhonePose, demoKinectToWorld, demoMatches, getARDeviceId, Vec3d.zero]
  norm_num

/-- C25, the defect: in the worked scenario the first update is accepted; its solve ran
without a seed and found the zero translation (the device camera sits at the fixed camera).
The update that follows runs the solver with `useExtrinsicGuess` set and a seed whose
translation is (-4, -2, 9): the origin of `lastEstimate`, the transform from the device
world frame to the world frame, not the translation (0, 0, 0) the previous solve found for
the device camera relative to the fixed camera. -/
theorem update_seeds_solver_with_world_transform :
    update seedExt demoConfig demoState demoInput
      = Except.ok ⟨0, demoAccepted, demoDepth,
          [⟨demoPos3d, demoImgPos, Vec3d.zero, Vec3d.zero, false⟩]⟩ ∧
    (solverResultOf seedExt demoConfig demoInput
      ⟨demoPos3d, demoImgPos, Vec3d.zero, Vec3d.zero, false⟩).tvec = ⟨0, 0, 0⟩ ∧
    (phonePoseKinectOf seedExt (solverResultOf seedExt demoConfig demoInput
      ⟨demoPos3d, demoImgPos, Vec3d.zero, Vec3d.zero, false⟩)).origin = ⟨0, 0, 0⟩ ∧
    demoAccepted.lastEstimate.transform.origin = ⟨-4, -2, 9⟩ ∧
    (∃ out, update seedExt demoConfig demoAccepted demoInput = Except.ok out ∧
      out.solverCalls = [⟨demoPos3d, demoImgPos, Vec3d.zero, ⟨-4, -2, 9⟩, true⟩]) ∧
    (⟨-4, -2, 9⟩ : Vec3d) ≠ ⟨0, 0, 0⟩ := by
  refine ⟨seed_update_first, rfl, ?_, rfl, ?_, by decide⟩
  · simp [phonePoseKinectOf, solverResultOf, seedExt, demoExt, Transform.inverse,
      Matrix3x3.identity, Matrix3x3.transpose, Matrix3x3.mulVec, Vector3.dot, Vector3.neg,
      Vec3d.zero]
  · refine ⟨_, update_eq_acceptOrReject seedExt demoConfig demoAccepted demoInput demoDepth
      demoMatches demoPos3d demoImgPos (12 / 5) seed_reachesSolver
      (seed_reprojErrorOf demoAccepted), ?_⟩
    rw [acceptOrReject_solverCalls]
    simp [solverCallOf, initialGuess, seedExt, demoAccepted, demoArcoreWorld]

/-! ## Properties of the conversion of the device pose -/

/-- The origin of a rotation-only transform composed with a transform of zero origin. -/
theorem Transform.rotationOnly_mul_origin (a b : Transform) (hb : b.origin = Vector3.zero) :
    (a.rotationOnly.mul b).origin = Vector3.zero := by
  simp only [Transform.mul, Transform.apply, Transform.rotationOnly, hb, Matrix3x3.mulVec,
    Vector3.dot, Vector3.add, Vector3.zero, Vector3.mk.injEq]
  refine ⟨?_, ?_, ?_⟩ <;> ring

/-- The basis `tf::Quaternion(1, 0, 0, 0)` stands for: x = 1 and w = 0, half a turn around
the x axis. -/
theorem Matrix3x3.ofQuaternion_x : Matrix3x3.ofQuaternion ⟨1, 0, 0, 0⟩
    = ⟨⟨1, 0, 0⟩, ⟨0, -1, 0⟩, ⟨0, 0, -1⟩⟩ := by
  norm_num [Matrix3x3.ofQuaternion]

/-- Half a turn around x applied twice changes nothing. -/
theorem Matrix3x3.half_turn_twice (m : Matrix3x3) :
    (⟨⟨1, 0, 0⟩, ⟨0, -1, 0⟩, ⟨0, 0, -1⟩⟩ : Matrix3x3).mul
      ((⟨⟨1, 0, 0⟩, ⟨0, -1, 0⟩, ⟨0, 0, -1⟩⟩ : Matrix3x3).mul m) = m := by
  rcases m with ⟨⟨a1, a2, a3⟩, ⟨a4, a5, a6⟩, ⟨a7, a8, a9⟩⟩
  simp only [Matrix3x3.mul, Matrix3x3.tdotx, Matrix3x3.tdoty, Matrix3x3.tdotz,
    Matrix3x3.mk.injEq, Vector3.mk.injEq]
  refine ⟨⟨?_, ?_, ?_⟩, ⟨?_, ?_, ?_⟩, ⟨?_, ?_, ?_⟩⟩ <;> ring

/-- The origin of the converted pose is the origin of the device pose. -/
theorem convertPhonePose_origin (ext : Ext) (M : Transform) :
    (convertPhonePose ext M).origin = (ext.convertPoseUnityToRos M).origin := by
  have h0 : (justRotation ext (ext.convertPoseUnityToRos M)).origin = Vector3.zero :=
    Transform.rotationOnly_mul_origin _ _ rfl
  simp only [convertPhonePose, Transform.mul, Transform.apply, h0, justTranslation,
    cameraConventionTransform, Transform.ofQuaternion, Matrix3x3.mulVec, Vector3.dot,
    Vector3.add, Vector3.zero]
  rcases (ext.convertPoseUnityToRos M).origin with ⟨x, y, z⟩
  simp only [Vector3.mk.injEq]
  refine ⟨?_, ?_, ?_⟩ <;> ring

/-- The basis of the converted pose, as a product of four bases. -/
theorem convertPhonePose_basis (ext : Ext) (M : Transform) :
    (convertPhonePose ext M).basis
      = (Matrix3x3.ofQuaternion ⟨1, 0, 0, 0⟩).mul
          ((cameraConventionTransform ext).basis.mul
            ((ext.convertPoseUnityToRos M).basis.mul (portraitToLandscape ext).basis)) := by
  have h := congrArg Transform.basis
    (Transform.mul_assoc (justTranslation (ext.convertPoseUnityToRos M))
      (cameraConventionTransform ext) (justRotation ext (ext.convertPoseUnityToRos M)))
  simp only [convertPhonePose]
  rw [h]
  rfl

/-- C26, the defect: `justTranslation` is built with `tf::Quaternion(1, 0, 0, 0)`, whose
arguments are (x, y, z, w): its rotation is half a turn around the x axis, not the identity.
The other parts of the claim hold: the translation of `justTranslation` is the device
position, `justRotation` has zero translation and the device rotation composed with the
portrait-to-landscape rotation, and the converted pose is the product
`justTranslation * cameraConventionTransform * justRotation`. -/
theorem justTranslation_is_half_turn (ext : Ext) (M : Transform) :
    (justTranslation (ext.convertPoseUnityToRos M)).origin
      = (ext.convertPoseUnityToRos M).origin ∧
    (justTranslation (ext.convertPoseUnityToRos M)).basis
      = ⟨⟨1, 0, 0⟩, ⟨0, -1, 0⟩, ⟨0, 0, -1⟩⟩ ∧
    (justTranslation (ext.convertPoseUnityToRos M)).basis ≠ Matrix3x3.identity ∧
    (justRotation ext (ext.convertPoseUnityToRos M)).origin = Vector3.zero ∧
    (justRotation ext (ext.convertPoseUnityToRos M)).basis
      = (ext.convertPoseUnityToRos M).basis.mul (portraitToLandscape ext).basis ∧
    convertPhonePose ext M
      = ((justTranslation (ext.convertPoseUnityToRos M)).mul
          (cameraConventionTransform ext)).mul
          (justRotation ext (ext.convertPoseUnityToRos M)) := by
  have hb : (justTranslation (ext.convertPoseUnityToRos M)).basis
      = ⟨⟨1, 0, 0⟩, ⟨0, -1, 0⟩, ⟨0, 0, -1⟩⟩ := Matrix3x3.ofQuaternion_x
  refine ⟨rfl, hb, ?_, Transform.rotationOnly_mul_origin _ _ rfl, rfl, rfl⟩
  rw [hb]
  decide

/-- C29: for every device pose with rotation `R` and position `t` after the Unity-to-ROS
conversion, the converted pose has translation exactly `t` and rotation
`Rx(pi) * Rx(theta) * R * Rz(theta / 2)`, with `theta = 3.1415926535897`, where `Rx(pi)` is the
basis of the quaternion (x = 1, y = 0, z = 0, w = 0) given to `justTranslation`, and
`Rx(theta)`, `Rz(theta / 2)` are the bases of the axis-angle quaternions of
`cameraConventionTransform` and `portraitToLandscape`. When `theta` is taken as exactly pi
(`sin (theta / 2) = 1`, `cos (theta / 2) = 0`, `sqrt 1 = 1`) the two half turns cancel and
the rotation is `R * Rz(theta / 2)`. -/
theorem convertPhonePose_decomposition (ext : Ext) (M : Transform) :
    (convertPhonePose ext M).origin = (ext.convertPoseUnityToRos M).origin ∧
    (convertPhonePose ext M).basis
      = (Matrix3x3.ofQuaternion ⟨1, 0, 0, 0⟩).mul
          ((Matrix3x3.ofQuaternion
              (Quaternion.ofAxisAngle ext ⟨1, 0, 0⟩ (31415926535897 / 10000000000000))).mul
            ((ext.convertPoseUnityToRos M).basis.mul
              (Matrix3x3.ofQuaternion (Quaternion.ofAxisAngle ext ⟨0, 0, 1⟩
                (31415926535897 / 10000000000000 / 2))))) ∧
    Matrix3x3.ofQuaternion ⟨1, 0, 0, 0⟩ = ⟨⟨1, 0, 0⟩, ⟨0, -1, 0⟩, ⟨0, 0, -1⟩⟩ ∧
    (ext.sqrt 1 = 1 → ext.sin (31415926535897 / 10000000000000 * (1 / 2)) = 1 →
      ext.cos (31415926535897 / 10000000000000 * (1 / 2)) = 0 →
      (convertPhonePose ext M).basis
        = (ext.convertPoseUnityToRos M).basis.mul
            (Matrix3x3.ofQuaternion (Quaternion.ofAxisAngle ext ⟨0, 0, 1⟩
              (31415926535897 / 10000000000000 / 2)))) := by
  have hbasis := convertPhonePose_basis ext M
  refine ⟨convertPhonePose_origin ext M, hbasis, Matrix3x3.ofQuaternion_x, ?_⟩
  intro hsqrt hsin hcos
  have hl : Vector3.length2 ⟨1, 0, 0⟩ = 1 := by
    simp [Vector3.length2, Vector3.dot]
  have hq : Quaternion.ofAxisAngle ext ⟨1, 0, 0⟩ (31415926535897 / 10000000000000)
      = ⟨1, 0, 0, 0⟩ := by
    simp only [Quaternion.ofAxisAngle, hl, hsqrt, hsin, hcos]
    norm_num
  have hc : (cameraConventionTransform ext).basis = ⟨⟨1, 0, 0⟩, ⟨0, -1, 0⟩, ⟨0, 0, -1⟩⟩ := by
    simp only [cameraConventionTransform, Transform.ofQuaternion, hq]
    exact Matrix3x3.ofQuaternion_x
  rw [hbasis, hc, Matrix3x3.ofQuaternion_x, Matrix3x3.half_turn_twice]
  rfl

/-- Witness of C29: the functions of the worked scenario take `theta` as exactly pi. -/
theorem convertPhonePose_decomposition_witness :
    demoExt.sqrt 1 = 1 ∧ demoExt.sin (31415926535897 / 10000000000000 * (1 / 2)) = 1 ∧
    demoExt.cos (31415926535897 / 10000000000000 * (1 / 2)) = 0 ∧
    (convertPhonePose demoExt demoPhonePose).origin = ⟨4, 5, 6⟩ ∧
    (convertPhonePose demoExt demoPhonePose).basis
      = demoPhonePose.basis.mul
          (Matrix3x3.ofQuaternion (Quaternion.ofAxisAngle demoExt ⟨0, 0, 1⟩
            (31415926535897 / 10000000000000 / 2))) := by
  have h1 : demoExt.sqrt 1 = 1 := by simp [demoExt]
  have h2 : demoExt.sin (31415926535897 / 10000000000000 * (1 / 2)) = 1 := by
    simp only [demoExt]
    norm_num
  have h3 : demoExt.cos (31415926535897 / 10000000000000 * (1 / 2)) = 0 := by
    simp only [demoExt]
    norm_num
  obtain ⟨ho, _, _, hb⟩ := convertPhonePose_decomposition demoExt demoPhonePose
  exact ⟨h1, h2, h3, ho, hb h1 h2 h3⟩

/-! ## Properties of the accumulated reprojection error -/

/-- The pixel distances are not negative when `hypot` is not. -/
theorem inlierDistanceSum_nonneg (ext : Ext) (hnn : ∀ a b, 0 ≤ ext.hypot a b)
    (imgPos reprojPoints : List Point2f) (inliers : List Int) :
    0 ≤ inlierDistanceSum ext imgPos reprojPoints inliers := by
  unfold inlierDistanceSum
  apply List.sum_nonneg
  intro d hd
  obtain ⟨i, _, rfl⟩ := List.mem_map.mp hd
  unfold pixelDistance
  split
  · exact hnn _ _
  · exact le_refl 0

/-- The function `hypot` of the worked scenario is not negative. -/
theorem demoExt_hypot_nonneg (a b : ℚ) : 0 ≤ demoExt.hypot a b := by
  simp only [demoExt]
  split_ifs
  · exact abs_nonneg a
  · exact abs_nonneg b
  · exact add_nonneg (abs_nonneg a) (abs_nonneg b)

/-- The scenario with four exact pixels gets past the match-count gate. -/
theorem exactFour_reachesSolver :
    ReachesSolver demoExt demoConfig exactFourInput demoDepth demoMatches demoPos3d
      exactFourImgPos := by
  refine ⟨?_, ?_, ?_⟩
  · unfold depthRepairStage
    simp only [findOrbMatches]
    have hm : demoExt.bfMatch exactFourInput.arcoreDescriptors exactFourInput.fixedDescriptors
        = demoMatches := rfl
    rw [hm, demo_filterMatches]
    simp [fixMatchesDepthOrDrop, fixMatchesLoop, fixMatchStep, demoMatches, exactFourInput,
      demoInput, demoFixedKeypoints, atIdx, demoKeyPoint, DepthImage.atF, DepthImage.atI,
      demoDepth]
  · simp [get3dPositionsAndImagePositions, get3dLoop, demoMatches, exactFourInput, demoInput,
      demoFixedKeypoints, exactFourImgPos, atIdx, demoKeyPoint, DepthImage.atF,
      DepthImage.atI, demoDepth, get3dPoint, demoExt, demoCamera, demoPos3d]
  · simp [demoMatches, demoConfig]

/-- Counterexample of C27 as stated: five correspondences, the four inliers reproject exactly
onto their pixels and the fifth correspondence, 8 pixels off, is no inlier. The inliers are
a strict subset, yet the accumulated value is 0 and the mean over the inliers is 0 as well:
the accumulated value is not strictly smaller. -/
theorem reprojError_equals_mean_when_inliers_exact :
    ReachesSolver demoExt demoConfig exactFourInput demoDepth demoMatches demoPos3d
      exactFourImgPos ∧
    (solverResultOf demoExt demoConfig exactFourInput
      (solverCallOf demoExt demoState demoPos3d exactFourImgPos)).inliers = [0, 1, 2, 3] ∧
    (demoExt.projectPoints demoPos3d Vec3d.zero Vec3d.zero demoCamera).length = 5 ∧
    pixelDistance demoExt exactFourImgPos
      (demoExt.projectPoints demoPos3d Vec3d.zero Vec3d.zero demoCamera) 4 = 8 ∧
    reprojErrorOf demoExt exactFourInput
      (solverCallOf demoExt demoState demoPos3d exactFourImgPos)
      (solverResultOf demoExt demoConfig exactFourInput
        (solverCallOf demoExt demoState demoPos3d exactFourImgPos)) = Except.ok 0 ∧
    meanInlierDistance demoExt exactFourImgPos
      (demoExt.projectPoints demoPos3d Vec3d.zero Vec3d.zero demoCamera) [0, 1, 2, 3] = 0 ∧
    ¬ ((0 : ℚ) < meanInlierDistance demoExt exactFourImgPos
      (demoExt.projectPoints demoPos3d Vec3d.zero Vec3d.zero demoCamera) [0, 1, 2, 3]) := by
  have hmean : meanInlierDistance demoExt exactFourImgPos
      (demoExt.projectPoints demoPos3d Vec3d.zero Vec3d.zero demoCamera) [0, 1, 2, 3] = 0 := by
    simp [meanInlierDistance, inlierDistanceSum, pixelDistance, atIdx, demoExt,
      exactFourImgPos, demoPos3d, demoProject, demoCamera]
  refine ⟨exactFour_reachesSolver, rfl, ?_, ?_, ?_, hmean, ?_⟩
  · simp [demoExt, demoPos3d]
  · simp [pixelDistance, atIdx, demoExt, exactFourImgPos, demoPos3d, demoProject, demoCamera]
    norm_num
  · simp [reprojErrorOf, solverResultOf, solverCallOf, demoExt, reprojErrorLoop, atIdx,
      demoPos3d, exactFourImgPos, demoProject, exactFourInput, demoInput, demoCamera]
  · rw [hmean]
    exact lt_irrefl 0

/-- C27, amended: for every solver result for which the loop of `update` returns, the
accumulated reprojection error is the sum of the inliers' pixel distances divided by the
number of projected points, that is the mean over the inliers multiplied by
(inlier count / total count). With a `hypot` that is not negative and no more inliers than
projected points it is never larger than the mean over the inliers; it is strictly smaller
when the inliers are fewer than the projected points and some inlier has a non-zero
distance, and equal to the mean when all inlier distances are zero. -/
theorem reprojError_understates_mean (ext : Ext) (inp : UpdateInput) (call : SolverCall)
    (pnp : PnPResult) (e : ℚ)
    (herr : reprojErrorOf ext inp call pnp = Except.ok e)
    (hnn : ∀ a b, 0 ≤ ext.hypot a b)
    (hle : pnp.inliers.length
      ≤ (ext.projectPoints call.objectPoints pnp.rvec pnp.tvec inp.arcoreCameraMatrix).length) :
    e = inlierDistanceSum ext call.imagePoints
        (ext.projectPoints call.objectPoints pnp.rvec pnp.tvec inp.arcoreCameraMatrix)
        pnp.inliers
      / (ext.projectPoints call.objectPoints pnp.rvec pnp.tvec inp.arcoreCameraMatrix).length ∧
    e = meanInlierDistance ext call.imagePoints
        (ext.projectPoints call.objectPoints pnp.rvec pnp.tvec inp.arcoreCameraMatrix)
        pnp.inliers
      * ((pnp.inliers.length : ℚ)
        / (ext.projectPoints call.objectPoints pnp.rvec pnp.tvec
            inp.arcoreCameraMatrix).length) ∧
    e ≤ meanInlierDistance ext call.imagePoints
        (ext.projectPoints call.objectPoints pnp.rvec pnp.tvec inp.arcoreCameraMatrix)
        pnp.inliers ∧
    (pnp.inliers.length
        < (ext.projectPoints call.objectPoints pnp.rvec pnp.tvec
            inp.arcoreCameraMatrix).length →
      0 < inlierDistanceSum ext call.imagePoints
        (ext.projectPoints call.objectPoints pnp.rvec pnp.tvec inp.arcoreCameraMatrix)
        pnp.inliers →
      e < meanInlierDistance ext call.imagePoints
        (ext.projectPoints call.objectPoints pnp.rvec pnp.tvec inp.arcoreCameraMatrix)
        pnp.inliers) ∧
    (inlierDistanceSum ext call.imagePoints
        (ext.projectPoints call.objectPoints pnp.rvec pnp.tvec inp.arcoreCameraMatrix)
        pnp.inliers = 0 →
      e = meanInlierDistance ext call.imagePoints
        (ext.projectPoints call.objectPoints pnp.rvec pnp.tvec inp.arcoreCameraMatrix)
        pnp.inliers) := by
  have he := reprojErrorLoop_eq ext call.imagePoints
    (ext.projectPoints call.objectPoints pnp.rvec pnp.tvec inp.arcoreCameraMatrix)
    pnp.inliers 0 e herr
  rw [zero_add] at he
  have hS := inlierDistanceSum_nonneg ext hnn call.imagePoints
    (ext.projectPoints call.objectPoints pnp.rvec pnp.tvec inp.arcoreCameraMatrix) pnp.inliers
  have hk0 : pnp.inliers.length = 0 → inlierDistanceSum ext call.imagePoints
      (ext.projectPoints call.objectPoints pnp.rvec pnp.tvec inp.arcoreCameraMatrix)
      pnp.inliers = 0 := by
    intro h
    rw [List.length_eq_zero.mp h]
    rfl
  simp only [meanInlierDistance]
  generalize inlierDistanceSum ext call.imagePoints
    (ext.projectPoints call.objectPoints pnp.rvec pnp.tvec inp.arcoreCameraMatrix)
    pnp.inliers = S at he hS hk0 ⊢
  generalize (ext.projectPoints call.objectPoints pnp.rvec pnp.tvec
    inp.arcoreCameraMatrix).length = N at he hle ⊢
  generalize pnp.inliers.length = k at hle hk0 ⊢
  subst he
  rcases Nat.eq_zero_or_pos k with hk | hk
  · have hz := hk0 hk
    subst hk
    subst hz
    simp
  · have hkq : (0 : ℚ) < k := by exact_mod_cast hk
    have hNq : (k : ℚ) ≤ N := by exact_mod_cast hle
    have hNpos : (0 : ℚ) < N := lt_of_lt_of_le hkq hNq
    refine ⟨rfl, ?_, ?_, ?_, ?_⟩
    · field_simp
    · exact div_le_div_of_nonneg_left hS hkq hNq
    · intro hlt hpos
      have hltq : (k : ℚ) < N := by exact_mod_cast hlt
      exact div_lt_div_of_pos_left hpos hkq hltq
    · intro h0
      rw [h0, zero_div, zero_div]

/-- Witness of C27: the worked scenario, four inliers at distance 3 among five projected
points: the accumulated value is 12/5. -/
theorem reprojError_understates_mean_witness :
    reprojErrorOf demoExt demoInput (solverCallOf demoExt demoState demoPos3d demoImgPos)
      (solverResultOf demoExt demoConfig demoInput
        (solverCallOf demoExt demoState demoPos3d demoImgPos)) = Except.ok (12 / 5) ∧
    (∀ a b, 0 ≤ demoExt.hypot a b) ∧
    (solverResultOf demoExt demoConfig demoInput
        (solverCallOf demoExt demoState demoPos3d demoImgPos)).inliers.length
      ≤ (demoExt.projectPoints (solverCallOf demoExt demoState demoPos3d demoImgPos).objectPoints
          (solverResultOf demoExt demoConfig demoInput
            (solverCallOf demoExt demoState demoPos3d demoImgPos)).rvec
          (solverResultOf demoExt demoConfig demoInput
            (solverCallOf demoExt demoState demoPos3d demoImgPos)).tvec
          demoInput.arcoreCameraMatrix).length ∧
    (12 / 5 : ℚ) ≤ meanInlierDistance demoExt
      (solverCallOf demoExt demoState demoPos3d demoImgPos).imagePoints
      (demoExt.projectPoints (solverCallOf demoExt demoState demoPos3d demoImgPos).objectPoints
        (solverResultOf demoExt demoConfig demoInput
          (solverCallOf demoExt demoState demoPos3d demoImgPos)).rvec
        (solverResultOf demoExt demoConfig demoInput
          (solverCallOf demoExt demoState demoPos3d demoImgPos)).tvec
        demoInput.arcoreCameraMatrix)
      (solverResultOf demoExt demoConfig demoInput
        (solverCallOf demoExt demoState demoPos3d demoImgPos)).inliers := by
  have hle : (solverResultOf demoExt demoConfig demoInput
        (solverCallOf demoExt demoState demoPos3d demoImgPos)).inliers.length
      ≤ (demoExt.projectPoints
          (solverCallOf demoExt demoState demoPos3d demoImgPos).objectPoints
          (solverResultOf demoExt demoConfig demoInput
            (solverCallOf demoExt demoState demoPos3d demoImgPos)).rvec
          (solverResultOf demoExt demoConfig demoInput
            (solverCallOf demoExt demoState demoPos3d demoImgPos)).tvec
          demoInput.arcoreCameraMatrix).length := by
    simp [solverResultOf, solverCallOf, demoExt, demoPos3d]
  exact ⟨demo_reprojErrorOf, demoExt_hypot_nonneg, hle,
    (reprojError_understates_mean demoExt demoInput _ _ (12 / 5) demo_reprojErrorOf
      demoExt_hypot_nonneg hle).2.2.1⟩

/-! ## Properties of repeated and reordered depth repair -/

/-- On a grid where every match has a non-zero sample the loop of `fixMatchesDepthOrDrop`
keeps every match and leaves the grid as it is. -/
theorem fixMatchesLoop_of_nonzero (ext : Ext) (kps : List KeyPoint) (img : DepthImage)
    (ms : List DMatch) :
    ∀ out : List DMatch,
      (∀ m ∈ ms, ∃ kp, atIdx kps m.trainIdx = Except.ok kp ∧ img.atF kp.pt ≠ 0) →
      fixMatchesLoop ext kps ms img out = Except.ok (img, out ++ ms) := by
  induction ms with
  | nil =>
    intro out _
    simp [fixMatchesLoop]
  | cons m rest ih =>
    intro out h
    obtain ⟨kp, hkp, hne⟩ := h m (List.mem_cons_self _ _)
    have hrep := repairedDepthImage_of_ne_zero ext img kp.pt hne
    simp only [fixMatchesLoop]
    rw [fixMatchStep_eq ext kps img out m kp hkp, hrep, if_neg hne]
    simp only
    rw [ih (out ++ [m]) (fun x hx => h x (List.mem_cons_of_mem _ hx))]
    simp

/-- The run of `fixMatchesDepthOrDrop` on the three matches of the `farImage` scenario. -/
theorem far_fixMatchesDepthOrDrop :
    fixMatchesDepthOrDrop depthExt farMatches farKeypoints farImage
      = Except.ok (0,
          ((farImage.set (demoKeyPoint 0 0).pt 0).set (demoKeyPoint 60 0).pt 7).set
            (demoKeyPoint 0 0).pt 7,
          [⟨1, 1, 0, 10⟩, ⟨2, 0, 0, 10⟩]) := by
  have hk0 : ∀ q : Int, atIdx farKeypoints (⟨q, 0, 0, 10⟩ : DMatch).trainIdx
      = Except.ok (demoKeyPoint 0 0) := by
    intro q; simp [atIdx, farKeypoints]
  have hk1 : atIdx farKeypoints (⟨1, 1, 0, 10⟩ : DMatch).trainIdx
      = Except.ok (demoKeyPoint 60 0) := by
    simp [atIdx, farKeypoints]
  have hA : (farImage.set (demoKeyPoint 0 0).pt 0).atF (demoKeyPoint 0 0).pt = 0 :=
    DepthImage.atF_set _ _ _
  have hB : ((farImage.set (demoKeyPoint 0 0).pt 0).set (demoKeyPoint 60 0).pt 7).atF
      (demoKeyPoint 60 0).pt ≠ 0 := by
    rw [DepthImage.atF_set]; decide
  have hC : (((farImage.set (demoKeyPoint 0 0).pt 0).set (demoKeyPoint 60 0).pt 7).set
      (demoKeyPoint 0 0).pt 7).atF (demoKeyPoint 0 0).pt = 7 := DepthImage.atF_set _ _ _
  unfold fixMatchesDepthOrDrop farMatches
  rw [fixMatchesLoop, fixMatchStep_eq _ _ _ _ _ _ (hk0 0), far_step_A]
  simp only [hA, if_true]
  rw [fixMatchesLoop, fixMatchStep_eq _ _ _ _ _ _ hk1, far_step_B]
  simp only [hB, if_false]
  rw [fixMatchesLoop, fixMatchStep_eq _ _ _ _ _ _ (hk0 2), far_step_C]
  simp only [hC]
  simp [fixMatchesLoop]

/-- Counterexample of C28 as stated: processed alone on `farImage`, the match of device key
point 2 with fixed key point 0 is dropped, because nothing lies within 100 pixels of
(0, 0); processed after the match that repairs pixel (60, 0), the same match is kept and its
pixel is resolved with depth 7. -/
theorem fixMatchesDepthOrDrop_depends_on_other_matches :
    (⟨2, 0, 0, 10⟩ : DMatch) ∈ farMatches ∧
    fixMatchesDepthOrDrop depthExt [⟨2, 0, 0, 10⟩] farKeypoints farImage
      = Except.ok (0, farImage.set (demoKeyPoint 0 0).pt 0, []) ∧
    (farImage.set (demoKeyPoint 0 0).pt 0).atF (demoKeyPoint 0 0).pt = 0 ∧
    ∃ img1, fixMatchesDepthOrDrop depthExt farMatches farKeypoints farImage
        = Except.ok (0, img1, [⟨1, 1, 0, 10⟩, ⟨2, 0, 0, 10⟩]) ∧
      img1.atF (demoKeyPoint 0 0).pt = 7 := by
  have hk : atIdx farKeypoints (⟨2, 0, 0, 10⟩ : DMatch).trainIdx
      = Except.ok (demoKeyPoint 0 0) := by
    simp [atIdx, farKeypoints]
  have hA : (farImage.set (demoKeyPoint 0 0).pt 0).atF (demoKeyPoint 0 0).pt = 0 :=
    DepthImage.atF_set _ _ _
  refine ⟨by simp [farMatches], ?_, hA, _, far_fixMatchesDepthOrDrop,
    DepthImage.atF_set _ _ _⟩
  unfold fixMatchesDepthOrDrop
  rw [fixMatchesLoop, fixMatchStep_eq _ _ _ _ _ _ hk, far_step_A]
  simp only [hA, if_true]
  simp [fixMatchesLoop]

/-- C28, amended: on in-range matches, running `fixMatchesDepthOrDrop` a second time on the
grid and the matches left by the first run returns the same matches and leaves the grid
unchanged; and a match whose pixel has a non-zero depth in the original grid has the same
outcome as when it is processed alone on the original grid (kept, depth unchanged), whatever
the other matches and their order. The outcome of a match whose pixel has depth 0 depends on
the repairs made for the matches before it. -/
theorem fixMatchesDepthOrDrop_idempotent (ext : Ext) (kps : List KeyPoint)
    (ms : List DMatch) (img : DepthImage)
    (h : ∀ m ∈ ms, 0 ≤ m.trainIdx ∧ m.trainIdx < kps.length) :
    ∃ img1 kept, fixMatchesDepthOrDrop ext ms kps img = Except.ok (0, img1, kept) ∧
      fixMatchesDepthOrDrop ext kept kps img1 = Except.ok (0, img1, kept) ∧
      (∀ m ∈ ms, ∀ kp, atIdx kps m.trainIdx = Except.ok kp → img.atF kp.pt ≠ 0 →
        m ∈ kept ∧ img1.atF kp.pt = img.atF kp.pt ∧
        fixMatchesDepthOrDrop ext [m] kps img = Except.ok (0, img, [m])) := by
  obtain ⟨img1, kept, hk, _, _, hkept, hnz⟩ := fixMatchesLoop_spec ext kps ms img [] h
  rw [List.nil_append] at hk
  refine ⟨img1, kept, ?_, ?_, ?_⟩
  · unfold fixMatchesDepthOrDrop
    rw [hk]
  · unfold fixMatchesDepthOrDrop
    rw [fixMatchesLoop_of_nonzero ext kps img1 kept [] hkept]
    simp
  · intro m hm kp hkp hne
    obtain ⟨h1, h2⟩ := hnz m hm kp hkp hne
    refine ⟨h1, h2, ?_⟩
    unfold fixMatchesDepthOrDrop
    rw [fixMatchesLoop_of_nonzero ext kps img [m] []
      (fun x hx => by
        rw [List.mem_singleton] at hx
        subst hx
        exact ⟨kp, hkp, hne⟩)]
    simp

/-- Witness of C28: the three in-range matches of the `farImage` scenario. -/
theorem fixMatchesDepthOrDrop_idempotent_witness :
    (∀ m ∈ farMatches, 0 ≤ m.trainIdx ∧ m.trainIdx < farKeypoints.length) ∧
    ∃ img1 kept, fixMatchesDepthOrDrop depthExt farMatches farKeypoints farImage
        = Except.ok (0, img1, kept) ∧
      fixMatchesDepthOrDrop depthExt kept farKeypoints img1 = Except.ok (0, img1, kept) := by
  have h : ∀ m ∈ farMatches, 0 ≤ m.trainIdx ∧ m.trainIdx < farKeypoints.length := by
    decide
  obtain ⟨img1, kept, h1, h2, _⟩ :=
    fixMatchesDepthOrDrop_idempotent depthExt farKeypoints farMatches farImage h
  exact ⟨h, img1, kept, h1, h2⟩

/-! ## The callbacks and the frame they pass to update -/

/-- A returning call of `fixMatchesDepthOrDrop` is a returning run of its loop. -/
theorem fixMatchesLoop_of_fixMatchesDepthOrDrop (ext : Ext) (kps : List KeyPoint)
    (ms : List DMatch) (img img1 : DepthImage) (kept : List DMatch) (s : Int)
    (h : fixMatchesDepthOrDrop ext ms kps img = Except.ok (s, img1, kept)) :
    fixMatchesLoop ext kps ms img [] = Except.ok (img1, kept) := by
  unfold fixMatchesDepthOrDrop at h
  cases hl : fixMatchesLoop ext kps ms img [] with
  | error e => rw [hl] at h; cases h
  | ok r =>
    rw [hl] at h
    simp only [Except.ok.injEq, Prod.mk.injEq] at h
    obtain ⟨_, h1, h2⟩ := h
    rw [← h1, ← h2]

/-- The only exception that crosses `update` is `out_of_range`. -/
theorem Exn.eq_out_of_range (e : Exn) : e = Exn.out_of_range := by
  cases e
  rfl

/-- A computation that does not return raises `out_of_range`. -/
theorem Except.error_of_not_ok {α : Type} (x : Except Exn α) (h : ¬ ∃ a, x = Except.ok a) :
    x = Except.error Exn.out_of_range := by
  cases x with
  | error e => rw [Exn.eq_out_of_range e]
  | ok a => exact absurd ⟨a, rfl⟩ h

/-- Checked access succeeds only on an index in range. -/
theorem atIdx_lt_of_ok {α : Type} (v : List α) (i : Int) (a : α)
    (h : atIdx v i = Except.ok a) : 0 ≤ i ∧ i < v.length := by
  unfold atIdx at h
  split_ifs at h with hneg
  have h0 : 0 ≤ i := not_lt.mp hneg
  refine ⟨h0, ?_⟩
  cases hg : v.get? i.toNat with
  | none => rw [hg] at h; cases h
  | some b =>
    have hlt : i.toNat < v.length := by
      by_contra hc
      rw [List.get?_eq_none.mpr (not_lt.mp hc)] at hg
      cases hg
    omega

/-- Checked access succeeds exactly on an index in range. -/
theorem atIdx_ok_iff {α : Type} (v : List α) (i : Int) :
    (∃ a, atIdx v i = Except.ok a) ↔ 0 ≤ i ∧ i < v.length :=
  ⟨fun ⟨a, h⟩ => atIdx_lt_of_ok v i a h, fun h => atIdx_ok_of_lt v i h.1 h.2⟩

/-- A returning run of the loop of `fixMatchesDepthOrDrop` has found every train index in
range. -/
theorem fixMatchesLoop_in_range_of_ok (ext : Ext) (kps : List KeyPoint) (ms : List DMatch) :
    ∀ (img : DepthImage) (out : List DMatch) (r : DepthImage × List DMatch),
      fixMatchesLoop ext kps ms img out = Except.ok r →
      ∀ m ∈ ms, 0 ≤ m.trainIdx ∧ m.trainIdx < kps.length := by
  induction ms with
  | nil =>
    intro img out r _ m hm
    cases hm
  | cons x rest ih =>
    intro img out r h m hm
    rw [fixMatchesLoop] at h
    cases hs : fixMatchStep ext kps img out x with
    | error e => rw [hs] at h; cases h
    | ok r1 =>
      rw [hs] at h
      rcases List.mem_cons.mp hm with rfl | hm
      · unfold fixMatchStep at hs
        cases hk : atIdx kps m.trainIdx with
        | error e => rw [hk] at hs; cases hs
        | ok kp => exact atIdx_lt_of_ok kps _ kp hk
      · exact ih r1.1 r1.2 r h m hm

/-- Function `fixMatchesDepthOrDrop` returns exactly when every input match has its train
index in range of the key points; the query index is not read. -/
theorem fixMatchesDepthOrDrop_returns_iff (ext : Ext) (ms : List DMatch)
    (kps : List KeyPoint) (img : DepthImage) :
    (∃ r, fixMatchesDepthOrDrop ext ms kps img = Except.ok r) ↔
      ∀ m ∈ ms, 0 ≤ m.trainIdx ∧ m.trainIdx < kps.length := by
  constructor
  · rintro ⟨r, hr⟩
    have hl := fixMatchesLoop_of_fixMatchesDepthOrDrop ext kps ms img r.2.1 r.2.2 r.1 hr
    exact fixMatchesLoop_in_range_of_ok ext kps ms img [] _ hl
  · intro h
    obtain ⟨img1, kept, hk, _⟩ := fixMatchesDepthOrDrop_ok ext kps ms img h
    exact ⟨_, hk⟩

/-- A returning run of the correspondence loop has found every match in range. -/
theorem get3dLoop_in_range_of_ok (ext : Ext) (kkps akps : List KeyPoint) (img : DepthImage)
    (cam : CameraMatrix) (ms : List DMatch) :
    ∀ (p3 : List Point3f) (p2 : List Point2f) (r : List Point3f × List Point2f),
      get3dLoop ext kkps akps img cam ms p3 p2 = Except.ok r → MatchesInRange kkps akps ms := by
  induction ms with
  | nil =>
    intro p3 p2 r _ m hm
    cases hm
  | cons x rest ih =>
    intro p3 p2 r h m hm
    rw [get3dLoop] at h
    cases hk : atIdx kkps x.trainIdx with
    | error e => rw [hk] at h; cases h
    | ok kkp =>
      rw [hk] at h
      simp only at h
      cases ha : atIdx akps x.queryIdx with
      | error e => rw [ha] at h; cases h
      | ok akp =>
        rw [ha] at h
        simp only at h
        rcases List.mem_cons.mp hm with rfl | hm
        · have h1 := atIdx_lt_of_ok kkps _ kkp hk
          have h2 := atIdx_lt_of_ok akps _ akp ha
          exact ⟨h1.1, h1.2, h2.1, h2.2⟩
        · exact ih _ _ r h m hm

/-- Function `get3dPositionsAndImagePositions` returns exactly when every input match has
both indices in range of their key point lists. -/
theorem get3dPositionsAndImagePositions_returns_iff (ext : Ext) (ms : List DMatch)
    (kkps akps : List KeyPoint) (img : DepthImage) (cam : CameraMatrix) :
    (∃ r, get3dPositionsAndImagePositions ext ms kkps akps img cam = Except.ok r) ↔
      MatchesInRange kkps akps ms := by
  constructor
  · rintro ⟨r, hr⟩
    unfold get3dPositionsAndImagePositions at hr
    cases hl : get3dLoop ext kkps akps img cam ms [] [] with
    | error e => rw [hl] at hr; cases hr
    | ok r1 => exact get3dLoop_in_range_of_ok ext kkps akps img cam ms [] [] r1 hl
  · intro h
    obtain ⟨p3, p2, hk, _⟩ := get3dPositionsAndImagePositions_ok ext kkps akps img cam ms h
    exact ⟨_, hk⟩

/-- A returning run of the loop over the inliers has found every inlier in range of the
device pixels and of the reprojected points. -/
theorem reprojErrorLoop_in_range_of_ok (ext : Ext) (imgPos reprojPoints : List Point2f)
    (inliers : List Int) :
    ∀ (acc e : ℚ), reprojErrorLoop ext imgPos reprojPoints inliers acc = Except.ok e →
      ∀ i ∈ inliers, 0 ≤ i ∧ i < imgPos.length ∧ i < reprojPoints.length := by
  induction inliers with
  | nil =>
    intro acc e _ i hi
    cases hi
  | cons x rest ih =>
    intro acc e h i hi
    rw [reprojErrorLoop] at h
    cases hp : atIdx imgPos x with
    | error e1 => rw [hp] at h; cases h
    | ok pix =>
      rw [hp] at h
      simp only at h
      cases hr : atIdx reprojPoints x with
      | error e1 => rw [hr] at h; cases h
      | ok rp =>
        rw [hr] at h
        simp only at h
        rcases List.mem_cons.mp hi with rfl | hi
        · have h1 := atIdx_lt_of_ok imgPos _ pix hp
          have h2 := atIdx_lt_of_ok reprojPoints _ rp hr
          exact ⟨h1.1, h1.2, h2.2⟩
        · exact ih _ e h i hi

/-- The call of `update` returns exactly when the indices it looks up are in range. -/
theorem update_returns_iff (ext : Ext) (cfg : Config) (st : EstimatorState)
    (inp : UpdateInput) :
    (∃ out, update ext cfg st inp = Except.ok out) ↔ UpdateLookupsInRange ext cfg st inp := by
  constructor
  · rintro ⟨out, hout⟩
    obtain ⟨depth, good, p3, p2, hfix, hcorr, hsg⟩ := update_ok_inv ext cfg st inp out hout
    refine ⟨?_, ?_, ?_⟩
    · exact (fixMatchesDepthOrDrop_returns_iff ext _ _ _).mp ⟨_, hfix⟩
    · intro depth1 good1 h1 m hm
      rw [hfix] at h1
      simp only [Except.ok.injEq, Prod.mk.injEq, true_and] at h1
      obtain ⟨_, rfl⟩ := h1
      have hr := (get3dPositionsAndImagePositions_returns_iff ext _ _ _ _ _).mp ⟨_, hcorr⟩
      exact (hr m hm).2.2
    · intro depth1 good1 p31 p21 hreach
      obtain ⟨h1, h2, hgate⟩ := hreach
      rw [hfix] at h1
      simp only [Except.ok.injEq, Prod.mk.injEq, true_and] at h1
      obtain ⟨rfl, rfl⟩ := h1
      rw [hcorr] at h2
      simp only [Except.ok.injEq, Prod.mk.injEq, true_and] at h2
      obtain ⟨rfl, rfl⟩ := h2
      rcases solveAndGate_ok_inv ext cfg st inp _ _ p3 p2 out hsg with ⟨hg, _⟩ | ⟨_, e, he, _⟩
      · exact absurd hg hgate
      · exact reprojErrorLoop_in_range_of_ok ext _ _ _ 0 e he
  · rintro ⟨ha, hb, hc⟩
    obtain ⟨depth, good, hfix, hsub⟩ := fixMatchesDepthOrDrop_ok ext inp.fixedKeypoints _
      inp.kinectDepthImage ha
    have hfix2 : depthRepairStage ext cfg inp = Except.ok (0, depth, good) := hfix
    have hg : MatchesInRange inp.fixedKeypoints inp.arcoreKeypoints good := by
      intro m hm
      have h1 := ha m (hsub.subset hm)
      have h2 := hb depth good hfix2 m hm
      exact ⟨h1.1, h1.2, h2.1, h2.2⟩
    obtain ⟨p3, p2, hcorr, _, _⟩ := get3dPositionsAndImagePositions_ok ext inp.fixedKeypoints
      inp.arcoreKeypoints depth inp.fixedCameraMatrix good hg
    by_cases hgate : good.length < 4 ∨ good.length < cfg.minimumMatchesNumber
    · refine ⟨⟨1, st, depth, []⟩, ?_⟩
      rw [update_eq_solveAndGate ext cfg st inp depth good p3 p2 hfix2 hcorr]
      simp only [solveAndGate, if_pos hgate]
    · have hreach : ReachesSolver ext cfg inp depth good p3 p2 := ⟨hfix2, hcorr, hgate⟩
      obtain ⟨e, he⟩ := reprojErrorLoop_ok ext p2 _ _ 0 (hc depth good p3 p2 hreach)
      have he2 : reprojErrorOf ext inp (solverCallOf ext st p3 p2)
          (solverResultOf ext cfg inp (solverCallOf ext st p3 p2)) = Except.ok e := he
      rw [update_eq_acceptOrReject ext cfg st inp depth good p3 p2 e hreach he2]
      exact ⟨_, rfl⟩

/-- When every match of the matcher is in range and every inlier addresses a
correspondence, the indices that `update` looks up are in range. -/
theorem updateLookupsInRange_of_matcher (ext : Ext) (cfg : Config) (st : EstimatorState)
    (inp : UpdateInput)
    (hm : MatchesInRange inp.fixedKeypoints inp.arcoreKeypoints
      (findOrbMatches ext inp.arcoreKeypoints inp.arcoreDescriptors inp.fixedKeypoints
        inp.fixedDescriptors).2)
    (hin : ∀ depth good p3 p2, ReachesSolver ext cfg inp depth good p3 p2 →
      ∀ i ∈ (solverResultOf ext cfg inp (solverCallOf ext st p3 p2)).inliers,
        0 ≤ i ∧ i < p2.length ∧
        i < (ext.projectPoints p3 (solverResultOf ext cfg inp (solverCallOf ext st p3 p2)).rvec
          (solverResultOf ext cfg inp (solverCallOf ext st p3 p2)).tvec
          inp.arcoreCameraMatrix).length) :
    UpdateLookupsInRange ext cfg st inp := by
  have hf : MatchesInRange inp.fixedKeypoints inp.arcoreKeypoints
      (filterMatches cfg (findOrbMatches ext inp.arcoreKeypoints inp.arcoreDescriptors
        inp.fixedKeypoints inp.fixedDescriptors).2 []).2 :=
    fun m hmem => hm m (filterMatches_subset cfg _ m hmem)
  refine ⟨fun m hmem => ⟨(hf m hmem).1, (hf m hmem).2.1⟩, ?_, hin⟩
  intro depth good hfix m hmem
  obtain ⟨depth1, good1, hfix1, hsub⟩ := fixMatchesDepthOrDrop_ok ext inp.fixedKeypoints _
    inp.kinectDepthImage (fun m hmem => ⟨(hf m hmem).1, (hf m hmem).2.1⟩)
  have hfix2 : depthRepairStage ext cfg inp = Except.ok (0, depth1, good1) := hfix1
  rw [hfix] at hfix2
  simp only [Except.ok.injEq, Prod.mk.injEq, true_and] at hfix2
  obtain ⟨_, rfl⟩ := hfix2
  exact (hf m (hsub.subset hmem)).2.2

/-- What `readReceivedMessages_features` hands on when it accepts a message: the key points
of the message appended to those passed in, and a descriptor matrix with the announced number
of rows. -/
theorem readReceivedMessages_features_accepted (ext : Ext) (msg : ArcoreCameraFeatures)
    (cam depth : ImageMsg) (info : CameraInfo) (out : DecodedFeatures)
    (h : (readReceivedMessages_features ext msg cam depth info out).1 = 0) :
    (readReceivedMessages_features ext msg cam depth info out).2.arcoreKeypoints
      = out.arcoreKeypoints ++ msg.keypoints.map KeypointMsg.toKeyPoint ∧
    (readReceivedMessages_features ext msg cam depth info out).2.arcoreDescriptors.rows
      = msg.descriptors_mat_rows := by
  simp only [readReceivedMessages_features] at h ⊢
  split_ifs at h ⊢ <;> first | exact ⟨rfl, rfl⟩ | (split at h <;> exact ⟨rfl, rfl⟩)

/-- When the depth repair made by `update` raises, `update` raises `out_of_range`. -/
theorem update_raises_of_depthRepairStage (ext : Ext) (cfg : Config) (st : EstimatorState)
    (inp : UpdateInput) (e : Exn) (h : depthRepairStage ext cfg inp = Except.error e) :
    update ext cfg st inp = Except.error Exn.out_of_range := by
  apply Except.error_of_not_ok
  rintro ⟨out, hout⟩
  obtain ⟨depth, good, _, _, hfix, _, _⟩ := update_ok_inv ext cfg st inp out hout
  rw [h] at hfix
  cases hfix

/-- When the construction of the correspondences made by `update` raises, `update` raises
`out_of_range`. -/
theorem update_raises_of_get3dPositionsAndImagePositions (ext : Ext) (cfg : Config)
    (st : EstimatorState) (inp : UpdateInput) (depth : DepthImage) (good : List DMatch)
    (e : Exn) (hfix : depthRepairStage ext cfg inp = Except.ok (0, depth, good))
    (h : get3dPositionsAndImagePositions ext good inp.fixedKeypoints inp.arcoreKeypoints depth
      inp.fixedCameraMatrix = Except.error e) :
    update ext cfg st inp = Except.error Exn.out_of_range := by
  apply Except.error_of_not_ok
  rintro ⟨out, hout⟩
  obtain ⟨depth1, good1, _, _, hfix1, hcorr, _⟩ := update_ok_inv ext cfg st inp out hout
  rw [hfix] at hfix1
  simp only [Except.ok.injEq, Prod.mk.injEq, true_and] at hfix1
  obtain ⟨rfl, rfl⟩ := hfix1
  rw [h] at hcorr
  cases hcorr

/-- C21, amended: `readReceivedMessages_features` accepts or rejects a message without looking
at its key points or at the number of descriptor rows it announces, and hands both on as they
came, so an accepted message may carry different counts. The call of `update` returns exactly
when the indices it looks up are in range (the train index of every match that passes the
distance filter, the query index of every match that survives the depth repair, the inlier
indices of the solver past the match-count gate); it then returns 0, 1, 2, 3 or -8, and in
every other case it raises `out_of_range`. In particular `update` returns, after successful
key point lookups in `fixMatchesDepthOrDrop` and `get3dPositionsAndImagePositions`, when
every match of the matcher has both indices in range and every inlier addresses a
correspondence. -/
theorem update_returns_when_indices_in_range (ext : Ext) (cfg : Config) (st : EstimatorState)
    (inp : UpdateInput) :
    ((∃ out, update ext cfg st inp = Except.ok out) ↔ UpdateLookupsInRange ext cfg st inp) ∧
    (∀ out, update ext cfg st inp = Except.ok out →
      (out.status = 0 ∨ out.status = 1 ∨ out.status = 2 ∨ out.status = 3 ∨
        out.status = -8)) ∧
    (¬ UpdateLookupsInRange ext cfg st inp →
      update ext cfg st inp = Except.error Exn.out_of_range) ∧
    (MatchesInRange inp.fixedKeypoints inp.arcoreKeypoints
        (findOrbMatches ext inp.arcoreKeypoints inp.arcoreDescriptors inp.fixedKeypoints
          inp.fixedDescriptors).2 →
      (∀ depth good p3 p2, ReachesSolver ext cfg inp depth good p3 p2 →
        ∀ i ∈ (solverResultOf ext cfg inp (solverCallOf ext st p3 p2)).inliers,
          0 ≤ i ∧ i < p2.length ∧
          i < (ext.projectPoints p3
            (solverResultOf ext cfg inp (solverCallOf ext st p3 p2)).rvec
            (solverResultOf ext cfg inp (solverCallOf ext st p3 p2)).tvec
            inp.arcoreCameraMatrix).length) →
      ∃ out depth good p3 p2, update ext cfg st inp = Except.ok out ∧
        (out.status = 0 ∨ out.status = 1 ∨ out.status = 2 ∨ out.status = 3 ∨
          out.status = -8) ∧
        depthRepairStage ext cfg inp = Except.ok (0, depth, good) ∧
        get3dPositionsAndImagePositions ext good inp.fixedKeypoints inp.arcoreKeypoints depth
          inp.fixedCameraMatrix = Except.ok (0, p3, p2)) ∧
    (∀ (msg : ArcoreCameraFeatures) (cam depth : ImageMsg) (info : CameraInfo)
      (out : DecodedFeatures) (kps : List KeypointMsg) (rows : Int),
      (readReceivedMessages_features ext
        { msg with keypoints := kps, descriptors_mat_rows := rows } cam depth info out).1
        = (readReceivedMessages_features ext msg cam depth info out).1 ∧
      ((readReceivedMessages_features ext msg cam depth info out).1 = 0 →
        (readReceivedMessages_features ext
          { msg with keypoints := kps, descriptors_mat_rows := rows } cam depth info
          out).2.arcoreKeypoints = out.arcoreKeypoints ++ kps.map KeypointMsg.toKeyPoint ∧
        (readReceivedMessages_features ext
          { msg with keypoints := kps, descriptors_mat_rows := rows } cam depth info
          out).2.arcoreDescriptors.rows = rows)) := by
  refine ⟨update_returns_iff ext cfg st inp,
    fun out hout => update_status_cases ext cfg st inp out hout,
    fun h => Except.error_of_not_ok _ (fun hr => h ((update_returns_iff ext cfg st inp).mp hr)),
    ?_, ?_⟩
  · intro hm hin
    obtain ⟨out, hout⟩ := (update_returns_iff ext cfg st inp).mpr
      (updateLookupsInRange_of_matcher ext cfg st inp hm hin)
    obtain ⟨depth, good, p3, p2, h1, h2, _⟩ := update_ok_inv ext cfg st inp out hout
    exact ⟨out, depth, good, p3, p2, hout, update_status_cases ext cfg st inp out hout, h1, h2⟩
  · intro msg cam depth info o kps rows
    have hind := readReceivedMessages_features_status_indep ext msg cam depth info o kps rows
    refine ⟨hind, ?_⟩
    intro h0
    exact readReceivedMessages_features_accepted ext _ cam depth info o (by rw [hind]; exact h0)

/-- Witness of C21: the scenario, whose five matches and four inliers are in range, so that
`update` returns. -/
theorem update_returns_when_indices_in_range_witness :
    MatchesInRange demoInput.fixedKeypoints demoInput.arcoreKeypoints
      (findOrbMatches demoExt demoInput.arcoreKeypoints demoInput.arcoreDescriptors
        demoInput.fixedKeypoints demoInput.fixedDescriptors).2 ∧
    UpdateLookupsInRange demoExt demoConfig demoState demoInput ∧
    ∃ out depth good p3 p2, update demoExt demoConfig demoState demoInput = Except.ok out ∧
      (out.status = 0 ∨ out.status = 1 ∨ out.status = 2 ∨ out.status = 3 ∨
        out.status = -8) ∧
      depthRepairStage demoExt demoConfig demoInput = Except.ok (0, depth, good) ∧
      get3dPositionsAndImagePositions demoExt good demoInput.fixedKeypoints
        demoInput.arcoreKeypoints depth demoInput.fixedCameraMatrix
        = Except.ok (0, p3, p2) := by
  have hm : MatchesInRange demoInput.fixedKeypoints demoInput.arcoreKeypoints
      (findOrbMatches demoExt demoInput.arcoreKeypoints demoInput.arcoreDescriptors
        demoInput.fixedKeypoints demoInput.fixedDescriptors).2 := by
    decide
  have h := update_returns_when_indices_in_range demoExt demoConfig demoState demoInput
  exact ⟨hm, h.1.mp ⟨_, demo_update⟩, h.2.2.2.1 hm (demo_inliers_in_range demoState)⟩

/-- A list of matches whose second match has a query index that addresses no device key
point of the scenario. -/
theorem queryOutOfRange_fixMatchesDepthOrDrop :
    fixMatchesDepthOrDrop demoExt [⟨0, 0, 0, 10⟩, ⟨7, 1, 0, 12⟩] demoFixedKeypoints demoDepth
      = Except.ok (0, demoDepth, [⟨0, 0, 0, 10⟩, ⟨7, 1, 0, 12⟩]) := by
  simp [fixMatchesDepthOrDrop, fixMatchesLoop, fixMatchStep, demoFixedKeypoints, atIdx,
    demoKeyPoint, DepthImage.atF, DepthImage.atI, demoDepth]

/-- C30, amended: whenever `update` returns, its status is one of 0, 1, 2, 3 or -8. The
statuses -1, -2, -3 and -4 are unreachable: `findOrbMatches` and `filterMatches` return 0 on
every input, `fixMatchesDepthOrDrop` and `get3dPositionsAndImagePositions` return 0 whenever
they return. The invalid-transform check comes before the orientation gate: a run that passes
the reprojection gate with an invalid composed transform returns -8 whatever the orientation
is. `fixMatchesDepthOrDrop` returns exactly when every input match has its train index in
range of the key points of the fixed camera, `get3dPositionsAndImagePositions` exactly when
every input match has both indices in range; otherwise they raise `out_of_range`, and when
the call that `update` makes of either of them raises, `update` raises `out_of_range`. -/
theorem update_status_codes (ext : Ext) (cfg : Config) (st : EstimatorState)
    (inp : UpdateInput) (out : Outcome) (hret : update ext cfg st inp = Except.ok out) :
    (out.status = 0 ∨ out.status = 1 ∨ out.status = 2 ∨ out.status = 3 ∨ out.status = -8) ∧
    (out.status ≠ -1 ∧ out.status ≠ -2 ∧ out.status ≠ -3 ∧ out.status ≠ -4) ∧
    (findOrbMatches ext inp.arcoreKeypoints inp.arcoreDescriptors inp.fixedKeypoints
      inp.fixedDescriptors).1 = 0 ∧
    (∀ ms good, (filterMatches cfg ms good).1 = 0) ∧
    (∀ ms kps img r, fixMatchesDepthOrDrop ext ms kps img = Except.ok r → r.1 = 0) ∧
    (∀ ms kkps akps img cam r,
      get3dPositionsAndImagePositions ext ms kkps akps img cam = Except.ok r → r.1 = 0) ∧
    (∀ depth good p3 p2 e, ReachesSolver ext cfg inp depth good p3 p2 →
      reprojErrorOf ext inp (solverCallOf ext st p3 p2)
        (solverResultOf ext cfg inp (solverCallOf ext st p3 p2)) = Except.ok e →
      e ≤ cfg.reprojectionErrorDiscardThreshold →
      ext.isPoseValid (arcoreWorldOf ext cfg inp
        (solverResultOf ext cfg inp (solverCallOf ext st p3 p2))) = false →
      out = ⟨-8, st, depth, [solverCallOf ext st p3 p2]⟩) ∧
    (∀ ms kps img, (∃ r, fixMatchesDepthOrDrop ext ms kps img = Except.ok r) ↔
      ∀ m ∈ ms, 0 ≤ m.trainIdx ∧ m.trainIdx < kps.length) ∧
    (∀ ms kps img, (¬ ∀ m ∈ ms, 0 ≤ m.trainIdx ∧ m.trainIdx < kps.length) →
      fixMatchesDepthOrDrop ext ms kps img = Except.error Exn.out_of_range) ∧
    (∀ ms kkps akps img cam,
      (∃ r, get3dPositionsAndImagePositions ext ms kkps akps img cam = Except.ok r) ↔
        MatchesInRange kkps akps ms) ∧
    (∀ ms kkps akps img cam, ¬ MatchesInRange kkps akps ms →
      get3dPositionsAndImagePositions ext ms kkps akps img cam
        = Except.error Exn.out_of_range) ∧
    (∀ st1 inp1 e, depthRepairStage ext cfg inp1 = Except.error e →
      update ext cfg st1 inp1 = Except.error Exn.out_of_range) ∧
    (∀ st1 inp1 depth good e, depthRepairStage ext cfg inp1 = Except.ok (0, depth, good) →
      get3dPositionsAndImagePositions ext good inp1.fixedKeypoints inp1.arcoreKeypoints depth
        inp1.fixedCameraMatrix = Except.error e →
      update ext cfg st1 inp1 = Except.error Exn.out_of_range) := by
  have hs := update_status_cases ext cfg st inp out hret
  refine ⟨hs, ?_, rfl, fun _ _ => rfl,
    fun ms kps img r h => fixMatchesDepthOrDrop_status ext kps ms img r h,
    fun ms kkps akps img cam r h =>
      (get3dPositionsAndImagePositions_length ext kkps akps img cam ms r h).1, ?_,
    fun ms kps img => fixMatchesDepthOrDrop_returns_iff ext ms kps img,
    fun ms kps img h => Except.error_of_not_ok _
      (fun hr => h ((fixMatchesDepthOrDrop_returns_iff ext ms kps img).mp hr)),
    fun ms kkps akps img cam =>
      get3dPositionsAndImagePositions_returns_iff ext ms kkps akps img cam,
    fun ms kkps akps img cam h => Except.error_of_not_ok _
      (fun hr => h ((get3dPositionsAndImagePositions_returns_iff ext ms kkps akps img cam).mp
        hr)),
    fun st1 inp1 e h => update_raises_of_depthRepairStage ext cfg st1 inp1 e h,
    fun st1 inp1 depth good e h1 h2 =>
      update_raises_of_get3dPositionsAndImagePositions ext cfg st1 inp1 depth good e h1 h2⟩
  · rcases hs with h | h | h | h | h <;> rw [h] <;> decide
  · intro depth good p3 p2 e hreach herr hle hinv
    rw [update_eq_acceptOrReject ext cfg st inp depth good p3 p2 e hreach herr] at hret
    cases hret
    simp only [acceptOrReject]
    rw [if_neg (not_lt.mpr hle)]
    have hv : ext.isPoseValid ((cfg.transformKinectToWorld.transform.mul
        (ext.opencvPoseToEigenPose
          (solverResultOf ext cfg inp (solverCallOf ext st p3 p2)).rvec
          (solverResultOf ext cfg inp (solverCallOf ext st p3 p2)).tvec).inverse).mul
        inp.phonePoseArcoreFrameConverted.inverse) = false := hinv
    rw [hv]
    simp

/-- Witness of C30: the accepted scenario returns status 0; on the scenario with three key
points of the fixed camera the depth repair raises and so does `update`; a match whose query
index addresses no device key point passes `fixMatchesDepthOrDrop`, which reads the train
index only. -/
theorem update_status_codes_witness :
    update demoExt demoConfig demoState demoInput
      = Except.ok ⟨0, demoAccepted, demoDepth,
          [solverCallOf demoExt demoState demoPos3d demoImgPos]⟩ ∧
    ((0 : Int) = 0 ∨ (0 : Int) = 1 ∨ (0 : Int) = 2 ∨ (0 : Int) = 3 ∨ (0 : Int) = -8) ∧
    ((∃ r, fixMatchesDepthOrDrop demoExt [⟨0, 0, 0, 10⟩, ⟨7, 1, 0, 12⟩] demoFixedKeypoints
        demoDepth = Except.ok r) ↔
      ∀ m ∈ ([⟨0, 0, 0, 10⟩, ⟨7, 1, 0, 12⟩] : List DMatch),
        0 ≤ m.trainIdx ∧ m.trainIdx < demoFixedKeypoints.length) ∧
    fixMatchesDepthOrDrop demoExt [⟨0, 0, 0, 10⟩, ⟨7, 1, 0, 12⟩] demoFixedKeypoints demoDepth
      = Except.ok (0, demoDepth, [⟨0, 0, 0, 10⟩, ⟨7, 1, 0, 12⟩]) ∧
    get3dPositionsAndImagePositions demoExt [⟨0, 0, 0, 10⟩, ⟨7, 1, 0, 12⟩] demoFixedKeypoints
      demoArcoreKeypoints demoDepth demoCamera = Except.error Exn.out_of_range :=
  have h := update_status_codes demoExt demoConfig demoState demoInput _ demo_update
  ⟨demo_update, h.1, h.2.2.2.2.2.2.2.1 _ _ _, queryOutOfRange_fixMatchesDepthOrDrop,
    h.2.2.2.2.2.2.2.2.2.2.1 _ _ _ _ _ (by decide)⟩

/-! ## The quality gate on an exact solve, in the units of the code -/

/-- C22, amended: for every input that reaches the pose solver (at least 4 and at least
`minimumMatchesNumber` correspondences), if the pose the solver reports reprojects every
inlier exactly onto its device pixel (no noise, pose recovered), then the accumulated
reprojection error is 0, `update` returns, and with a threshold that is not negative the
status is neither 1 nor 2. The value compared with `phoneOrientationDifferenceThreshold_deg`
is the one the code computes, the absolute angle in radians between the device axis and the
axis of the fixed camera times 180 / 3.14159: the status is -8 exactly when the composed
transform is invalid, 3 exactly when it is valid and that value exceeds the threshold, and 0
exactly when it is valid and that value does not exceed the threshold. Since 3.14159 is
below pi, that value is at least the angle in degrees, so a pose whose angle in degrees
exceeds the threshold is never accepted. Whether the solver recovers the pose is a property
of the library and is the hypothesis here. -/
theorem update_accepts_exact_solve_iff (ext : Ext) (cfg : Config) (st : EstimatorState)
    (inp : UpdateInput) (depth : DepthImage) (good : List DMatch) (p3 : List Point3f)
    (p2 : List Point2f) (hreach : ReachesSolver ext cfg inp depth good p3 p2)
    (hexact : ∀ i ∈ (solverResultOf ext cfg inp (solverCallOf ext st p3 p2)).inliers,
      ∃ pix, atIdx p2 i = Except.ok pix ∧
        atIdx (ext.projectPoints p3
          (solverResultOf ext cfg inp (solverCallOf ext st p3 p2)).rvec
          (solverResultOf ext cfg inp (solverCallOf ext st p3 p2)).tvec
          inp.arcoreCameraMatrix) i = Except.ok pix)
    (hh : ext.hypot 0 0 = 0) (hthr : 0 ≤ cfg.reprojectionErrorDiscardThreshold) :
    reprojErrorOf ext inp (solverCallOf ext st p3 p2)
      (solverResultOf ext cfg inp (solverCallOf ext st p3 p2)) = Except.ok 0 ∧
    phoneToCameraRotationAngle ext (phonePoseKinectOf ext
        (solverResultOf ext cfg inp (solverCallOf ext st p3 p2)))
      = |angle ext (phoneOpticalAxis (phonePoseKinectOf ext
          (solverResultOf ext cfg inp (solverCallOf ext st p3 p2)))) ⟨0, 0, 1⟩|
        * 180 / (314159 / 100000) ∧
    ∃ out, update ext cfg st inp = Except.ok out ∧
      out.status ≠ 1 ∧ out.status ≠ 2 ∧
      (out.status = -8 ↔ ext.isPoseValid (arcoreWorldOf ext cfg inp
        (solverResultOf ext cfg inp (solverCallOf ext st p3 p2))) = false) ∧
      (out.status = 3 ↔ ext.isPoseValid (arcoreWorldOf ext cfg inp
          (solverResultOf ext cfg inp (solverCallOf ext st p3 p2))) = true ∧
        phoneToCameraRotationAngle ext (phonePoseKinectOf ext
          (solverResultOf ext cfg inp (solverCallOf ext st p3 p2)))
          > cfg.phoneOrientationDifferenceThreshold_deg) ∧
      (out.status = 0 ↔ ext.isPoseValid (arcoreWorldOf ext cfg inp
          (solverResultOf ext cfg inp (solverCallOf ext st p3 p2))) = true ∧
        ¬ phoneToCameraRotationAngle ext (phonePoseKinectOf ext
          (solverResultOf ext cfg inp (solverCallOf ext st p3 p2)))
          > cfg.phoneOrientationDifferenceThreshold_deg) ∧
      ((cfg.phoneOrientationDifferenceThreshold_deg : ℝ)
          < |((angle ext (phoneOpticalAxis (phonePoseKinectOf ext
              (solverResultOf ext cfg inp (solverCallOf ext st p3 p2)))) ⟨0, 0, 1⟩ : ℚ) : ℝ)|
            * 180 / Real.pi →
        out.status ≠ 0 ∧
        (ext.isPoseValid (arcoreWorldOf ext cfg inp
          (solverResultOf ext cfg inp (solverCallOf ext st p3 p2))) = true →
          out.status = 3)) := by
  have herr : reprojErrorOf ext inp (solverCallOf ext st p3 p2)
      (solverResultOf ext cfg inp (solverCallOf ext st p3 p2)) = Except.ok 0 :=
    reprojErrorLoop_exact ext _ _ _ hh 0 hexact
  obtain ⟨h1, h2, h8, h3, h0⟩ := acceptOrReject_zero_error ext cfg st inp depth good
    (solverCallOf ext st p3 p2) (solverResultOf ext cfg inp (solverCallOf ext st p3 p2)) hthr
  refine ⟨herr, rfl, _,
    update_eq_acceptOrReject ext cfg st inp depth good p3 p2 0 hreach herr, h1, h2, h8, h3, h0,
    ?_⟩
  intro hdeg
  have hcode : phoneToCameraRotationAngle ext (phonePoseKinectOf ext
      (solverResultOf ext cfg inp (solverCallOf ext st p3 p2)))
      > cfg.phoneOrientationDifferenceThreshold_deg :=
    codeAngle_gt_of_degrees_gt _ _ hdeg
  exact ⟨fun hz => (h0.mp hz).2 hcode, fun hv => h3.mpr ⟨hv, hcode⟩⟩

/-- Witness of C22: the scenario without noise, whose device axis is turned by 0.927295
radians, more than 45 degrees; the reprojection error is 0 and the status is 3. -/
theorem update_accepts_exact_solve_iff_witness :
    ReachesSolver steepExt demoConfig steepInput demoDepth demoMatches demoPos3d steepImgPos ∧
    steepExt.hypot 0 0 = 0 ∧ (0 : ℚ) ≤ demoConfig.reprojectionErrorDiscardThreshold ∧
    reprojErrorOf steepExt steepInput (solverCallOf steepExt demoState demoPos3d steepImgPos)
      (solverResultOf steepExt demoConfig steepInput
        (solverCallOf steepExt demoState demoPos3d steepImgPos)) = Except.ok 0 ∧
    ∃ out, update steepExt demoConfig demoState steepInput = Except.ok out ∧
      out.status ≠ 1 ∧ out.status ≠ 2 ∧
      (out.status = 0 ↔ steepExt.isPoseValid (arcoreWorldOf steepExt demoConfig steepInput
          (solverResultOf steepExt demoConfig steepInput
            (solverCallOf steepExt demoState demoPos3d steepImgPos))) = true ∧
        ¬ phoneToCameraRotationAngle steepExt (phonePoseKinectOf steepExt
          (solverResultOf steepExt demoConfig steepInput
            (solverCallOf steepExt demoState demoPos3d steepImgPos)))
          > demoConfig.phoneOrientationDifferenceThreshold_deg) := by
  have hh : steepExt.hypot 0 0 = 0 := by simp [steepExt, demoExt]
  have hthr : (0 : ℚ) ≤ demoConfig.reprojectionErrorDiscardThreshold := by
    norm_num [demoConfig]
  obtain ⟨h1, _, out, hout, hs1, hs2, _, _, hs0, _⟩ :=
    update_accepts_exact_solve_iff steepExt demoConfig demoState steepInput demoDepth
      demoMatches demoPos3d steepImgPos steep_reachesSolver steep_exact hh hthr
  exact ⟨steep_reachesSolver, hh, hthr, h1, out, hout, hs1, hs2, hs0⟩

/-! ## The refinement matrix on its way through the pose message -/

/-- The basis that `tf::Transform` builds from a non-zero quaternion is orthonormal. -/
theorem Matrix3x3.ofQuaternion_isOrthonormal (q : Quaternion) (hq : q.length2 ≠ 0) :
    (Matrix3x3.ofQuaternion q).IsOrthonormal := by
  rcases q with ⟨x, y, z, w⟩
  have hd : x * x + y * y + z * z + w * w ≠ 0 := hq
  obtain ⟨s, hs1, hs⟩ : ∃ s : ℚ, 2 / (x * x + y * y + z * z + w * w) = s ∧
      s * (x * x + y * y + z * z + w * w) = 2 := ⟨_, rfl, by field_simp⟩
  simp only [Matrix3x3.IsOrthonormal, Matrix3x3.ofQuaternion, Matrix3x3.transpose,
    Matrix3x3.mul, Matrix3x3.tdotx, Matrix3x3.tdoty, Matrix3x3.tdotz, Matrix3x3.identity,
    Matrix3x3.mk.injEq, Vector3.mk.injEq, hs1]
  refine ⟨⟨?_, ?_, ?_⟩, ⟨?_, ?_, ?_⟩, ⟨?_, ?_, ?_⟩⟩
  · linear_combination (s * (y * y + z * z)) * hs
  · linear_combination (-(s * x * y)) * hs
  · linear_combination (-(s * x * z)) * hs
  · linear_combination (-(s * x * y)) * hs
  · linear_combination (s * (x * x + z * z)) * hs
  · linear_combination (-(s * y * z)) * hs
  · linear_combination (-(s * x * z)) * hs
  · linear_combination (-(s * y * z)) * hs
  · linear_combination (s * (x * x + y * y)) * hs

/-- No quaternion gives `tf::Transform` the basis of the mirror image that flips the z
axis. -/
theorem Matrix3x3.ofQuaternion_ne_mirror (q : Quaternion) :
    Matrix3x3.ofQuaternion q ≠ mirrorRefinement.linear := by
  rcases q with ⟨x, y, z, w⟩
  intro h
  simp only [Matrix3x3.ofQuaternion, mirrorRefinement, Matrix3x3.mk.injEq,
    Vector3.mk.injEq] at h
  obtain ⟨⟨h00, _, _⟩, ⟨_, h11, _⟩, ⟨_, _, h22⟩⟩ := h
  by_cases hd : x * x + y * y + z * z + w * w = 0
  · rw [hd] at h22
    norm_num at h22
  · have hs : (2 : ℚ) / (x * x + y * y + z * z + w * w) ≠ 0 := div_ne_zero (by norm_num) hd
    have e0 : (y * y + z * z) * (2 / (x * x + y * y + z * z + w * w)) = 0 := by
      linear_combination -h00
    have e1 : (x * x + z * z) * (2 / (x * x + y * y + z * z + w * w)) = 0 := by
      linear_combination -h11
    have e2 : (x * x + y * y) * (2 / (x * x + y * y + z * z + w * w)) = 2 := by
      linear_combination -h22
    have f0 : y * y + z * z = 0 := (mul_eq_zero.mp e0).resolve_right hs
    have f1 : x * x + z * z = 0 := (mul_eq_zero.mp e1).resolve_right hs
    have hx : x * x = 0 := by nlinarith [mul_self_nonneg x, mul_self_nonneg z]
    have hy : y * y = 0 := by nlinarith [mul_self_nonneg y, mul_self_nonneg z]
    rw [hx, hy] at e2
    norm_num at e2

/-- The value of `transformSensor` when the file holds the matrix `M`. -/
theorem transformSensor_of_read (readMatrixFromFile : String → Except FileExn Affine3d)
    (toQuaternion : Matrix3x3 → Quaternion) (poseDistance : Transform → Transform → ℚ)
    (sensor : PoseAndInverse) (refinementFileName : String) (M : Affine3d)
    (hread : readMatrixFromFile refinementFileName = Except.ok M) :
    transformSensor readMatrixFromFile toQuaternion poseDistance sensor refinementFileName
      = Except.ok
          (⟨(poseMsgToTF (poseEigenToMsg toQuaternion M)).mul sensor.pose,
            ((poseMsgToTF (poseEigenToMsg toQuaternion M)).mul sensor.pose).inverse⟩,
           poseDistance sensor.pose
             ((poseMsgToTF (poseEigenToMsg toQuaternion M)).mul sensor.pose)) := by
  simp only [transformSensor, hread]

/-- Counterexample of C23 as stated: the refinement file holds the mirror image that flips
the z axis and the sensor sits at the origin. Whatever quaternion the library makes of the
linear part, the pose that `transformSensor` stores is not `M * oldPose`, because a pose
message cannot hold a mirror image; with a quaternion `(0, 0, 0, w)`, the form Eigen gives
for this matrix, the stored pose is the identity and the refinement is lost. -/
theorem transformSensor_mirror_not_composed :
    (∀ (toQuaternion : Matrix3x3 → Quaternion) (s : PoseAndInverse) (dist : ℚ),
      transformSensor (fun _ => Except.ok mirrorRefinement) toQuaternion (fun _ _ => 0)
        identitySensor "registration.txt" = Except.ok (s, dist) →
      s.pose ≠ mirrorRefinement.toTransform.mul identitySensor.pose) ∧
    (∀ w : ℚ,
      transformSensor (fun _ => Except.ok mirrorRefinement) (fun _ => ⟨0, 0, 0, w⟩)
        (fun _ _ => 0) identitySensor "registration.txt"
        = Except.ok (⟨Transform.identity, Transform.identity⟩, 0)) ∧
    mirrorRefinement.toTransform.mul identitySensor.pose ≠ Transform.identity := by
  refine ⟨?_, ?_, ?_⟩
  · intro toQuaternion s dist h hs
    rw [transformSensor_of_read _ toQuaternion _ identitySensor _ mirrorRefinement rfl] at h
    simp only [Except.ok.injEq, Prod.mk.injEq] at h
    obtain ⟨h1, _⟩ := h
    rw [← h1] at hs
    simp only [identitySensor, Transform.mul_identity] at hs
    have hb := congrArg Transform.basis hs
    exact Matrix3x3.ofQuaternion_ne_mirror _ hb
  · intro w
    rw [transformSensor_of_read _ _ _ identitySensor _ mirrorRefinement rfl]
    simp [poseMsgToTF, poseEigenToMsg, Transform.ofQuaternion, Matrix3x3.ofQuaternion,
      mirrorRefinement, identitySensor, Transform.mul, Transform.apply, Transform.inverse,
      Transform.identity, Matrix3x3.mul, Matrix3x3.tdotx, Matrix3x3.tdoty, Matrix3x3.tdotz,
      Matrix3x3.mulVec, Matrix3x3.transpose, Matrix3x3.identity, Vector3.dot, Vector3.add,
      Vector3.zero, Vector3.neg]
  · intro h
    have hid : identitySensor.pose = Transform.identity := rfl
    rw [hid, Transform.mul_identity] at h
    have hz := congrArg (fun t : Transform => t.basis.r2.z) h
    norm_num [mirrorRefinement, Affine3d.toTransform, Transform.identity,
      Matrix3x3.identity] at hz

/-- C23, amended: for every sensor record and every refinement matrix `M` read from the
refinement file, `transformSensor` replaces `sensor.pose` by `P * oldPose`, where `P` is the
tf pose that `poseEigenToMsg` and `poseMsgToTF` make of `M`: its origin is the translation
of `M` and its basis is the rotation of the quaternion the library makes of the linear part
of `M`. The new pose is `M * oldPose` whenever that rotation is the linear part of `M`. The
call sets `sensor.inversePose` to `inverse()` of the new pose, whatever it held before, and
returns `poseDistance(oldPose, newPose)`; when the quaternion is not zero and the old pose
is rigid, the new pose is rigid and the new `inversePose` composed with the new pose, on
either side, is the identity. -/
theorem transformSensor_composes (readMatrixFromFile : String → Except FileExn Affine3d)
    (toQuaternion : Matrix3x3 → Quaternion) (poseDistance : Transform → Transform → ℚ)
    (sensor : PoseAndInverse) (refinementFileName : String) (M : Affine3d)
    (hread : readMatrixFromFile refinementFileName = Except.ok M) :
    ∃ s dist, transformSensor readMatrixFromFile toQuaternion poseDistance sensor
        refinementFileName = Except.ok (s, dist) ∧
      s.pose = (poseMsgToTF (poseEigenToMsg toQuaternion M)).mul sensor.pose ∧
      poseMsgToTF (poseEigenToMsg toQuaternion M)
        = ⟨Matrix3x3.ofQuaternion (toQuaternion M.linear), M.translation⟩ ∧
      (Matrix3x3.ofQuaternion (toQuaternion M.linear) = M.linear →
        s.pose = M.toTransform.mul sensor.pose) ∧
      s.inversePose = s.pose.inverse ∧
      dist = poseDistance sensor.pose s.pose ∧
      ((toQuaternion M.linear).length2 ≠ 0 → sensor.pose.IsRigid →
        s.pose.IsRigid ∧
        s.inversePose.mul s.pose = Transform.identity ∧
        s.pose.mul s.inversePose = Transform.identity) := by
  refine ⟨_, _, transformSensor_of_read readMatrixFromFile toQuaternion poseDistance sensor
    refinementFileName M hread, rfl, rfl, ?_, rfl, rfl, ?_⟩
  · intro hrot
    simp only [poseMsgToTF, poseEigenToMsg, Transform.ofQuaternion, Affine3d.toTransform, hrot]
  · intro hq hP
    have hPose : (poseMsgToTF (poseEigenToMsg toQuaternion M)).IsRigid :=
      Matrix3x3.ofQuaternion_isOrthonormal _ hq
    have hr := Transform.isRigid_mul _ sensor.pose hPose hP
    exact ⟨hr, Transform.inverse_mul_self _ hr, Transform.mul_inverse_self _ hr⟩

/-- Witness of C23: a sensor whose stored inverse is stale, refined by a quarter turn around
z whose quaternion reproduces the linear part of the matrix. -/
theorem transformSensor_composes_witness :
    (fun _ : String => (Except.ok demoRefinement : Except FileExn Affine3d)) "registration.txt"
      = Except.ok demoRefinement ∧
    Matrix3x3.ofQuaternion demoRefinementQuaternion = demoRefinement.linear ∧
    demoRefinementQuaternion.length2 ≠ 0 ∧ demoSensor.pose.IsRigid ∧
    demoSensor.inversePose ≠ demoSensor.pose.inverse ∧
    ∃ s dist, transformSensor (fun _ => Except.ok demoRefinement)
        (fun _ => demoRefinementQuaternion) (fun _ _ => 0) demoSensor "registration.txt"
        = Except.ok (s, dist) ∧
      s.pose = demoRefinement.toTransform.mul demoSensor.pose ∧
      s.inversePose = s.pose.inverse ∧
      s.inversePose.mul s.pose = Transform.identity := by
  have hrot : Matrix3x3.ofQuaternion demoRefinementQuaternion = demoRefinement.linear := by
    norm_num [Matrix3x3.ofQuaternion, demoRefinementQuaternion, demoRefinement]
  have hq : demoRefinementQuaternion.length2 ≠ 0 := by
    norm_num [Quaternion.length2, demoRefinementQuaternion]
  have hP : demoSensor.pose.IsRigid := by
    simp [Transform.IsRigid, Matrix3x3.IsOrthonormal, demoSensor, demoPhonePose,
      Matrix3x3.transpose, Matrix3x3.mul, Matrix3x3.tdotx, Matrix3x3.tdoty, Matrix3x3.tdotz,
      Matrix3x3.identity]
  have hstale : demoSensor.inversePose ≠ demoSensor.pose.inverse := by decide
  obtain ⟨s, dist, h1, _, _, h4, h5, _, h7⟩ := transformSensor_composes
    (fun _ => Except.ok demoRefinement) (fun _ => demoRefinementQuaternion) (fun _ _ => 0)
    demoSensor "registration.txt" demoRefinement rfl
  exact ⟨rfl, hrot, hq, hP, hstale, s, dist, h1, h4 hrot, h5, (h7 hq hP).2.1⟩

end Optar
